import Mathlib

/-!
Adaptive session and ranking engine of `mcwc`.

A shallow embedding of the leaderboard functions of `src/js/app.js`
(`calculateSpeedLeaderboard`, `calculatePercentileLeaderboard`,
`calculateCombinedLeaderboard`), of the round end and the storage gateway of the
same file, and of the game manager of `src/js/modules/game-manager.js`
(`loadHistoricalData`, `generateSmartProblem`, `nextProblem`, `checkAnswer`,
`endGame`).

Conventions of the embedding.

* A JavaScript number is the rational it denotes. Sums, differences and
  products of the whole numbers met here are exact in doubles and are written
  as such. Where the hardware rounds a quotient, a product by 100 or a large
  product and the rounding shows in the result (scores, accuracy, normalised
  probabilities, the answer of a multiplication), the rounding is `fl`:
  round to nearest, ties to even, 53 significant bits. The exponent range is
  not bounded (magnitudes beyond 1e308 or below 1e-308 do not occur here).
* `secondsPerProblem` is kept as the exact quotient; the double the program
  holds is `fl` of it, and the two expressions that compute with it (`round2`
  and `combinedScore`) start from that double.
* A score `Math.round(x * 100) / 100` is the double nearest to `k / 100` for a
  whole `k`; it is written `k / 100`. Distinct `k` give distinct doubles in the
  same order, so the sorts are the same.
* `a || b` on numbers is `jsOrNum`: `undefined` and `0` are the falsy values.
* `Array.prototype.sort` with a numeric comparator is a stable sort; it is
  `List.insertionSort`, which keeps the input order of elements that compare equal.
* `Array.prototype.slice(0, 10)` is `List.take 10`.
* `Math.random()` and the module's `generateProblem()` are inputs of the
  functions that call them.
* String fields that only feed the page (`displayScore`) are left out.
-/

namespace Mcwc

/-! ## Data model -/

/-- One answered problem as stored in a session (`problemRecord` in `checkAnswer`).
`timeTaken` and `isCorrect` are optional: legacy records may lack them. -/
structure ProblemRecord where
  problem : String
  answer : String
  userAnswer : String
  timeTaken : Option ℚ
  isCorrect : Option Bool
  source : Option String
deriving DecidableEq, Repr

/-- A stored session (`newScore` in `endGame` of `app.js`). `date` is the stored
timestamp as milliseconds since the epoch. `time` (elapsed seconds) and `score`
(number of correct answers) are optional because the leaderboard reads both
through `||`. `mistakes` is the list of incorrect records and `accuracy` the
percentage stored with the session. -/
structure Session where
  id : String
  mode : String
  date : Int
  time : Option ℚ
  score : Option ℚ
  totalProblems : ℚ
  mistakes : List ProblemRecord
  accuracy : ℚ
  duration : ℚ
  problems : Option (List ProblemRecord)
  difficulty : Option String
deriving DecidableEq, Repr

/-- Entry of the speed leaderboard (object literal at `app.js` 1598-1607). -/
structure SpeedEntry where
  id : String
  mode : String
  date : Int
  duration : ℚ
  difficulty : Option String
  score : ℚ
  secondsPerProblem : ℚ
deriving DecidableEq, Repr

/-- Entry of the percentile leaderboard (object literal at `app.js` 1633-1642). -/
structure PercentileEntry where
  id : String
  mode : String
  date : Int
  duration : ℚ
  difficulty : Option String
  score : ℚ
  percentileTime : ℚ
deriving DecidableEq, Repr

/-- Entry of the combined leaderboard: the speed entry spread into a new object
with `score` replaced and `percentileRank` added (`app.js` 1669-1674). -/
structure CombinedEntry where
  id : String
  mode : String
  date : Int
  duration : ℚ
  difficulty : Option String
  score : ℚ
  secondsPerProblem : ℚ
  percentileRank : ℕ
deriving DecidableEq, Repr

/-! ## JavaScript helpers -/

/-- The JavaScript `a || b` where `a` is a number or `undefined`. -/
def jsOrNum (a : Option ℚ) (b : ℚ) : ℚ :=
  match a with
  | some v => if v ≠ 0 then v else b
  | none => b

/-- Round to the nearest integer, a tie going to the even neighbour. -/
def roundHalfEven (y : ℚ) : ℤ :=
  let f := ⌊y⌋
  if y - f < 1 / 2 then f
  else if 1 / 2 < y - f then f + 1
  else if f % 2 = 0 then f else f + 1

/-- The double nearest to `x` (IEEE-754 binary64, round to nearest, ties to
even): with `2 ^ e ≤ |x| < 2 ^ (e + 1)`, the multiple of `2 ^ (e - 52)` nearest
to `x`. The exponent `e` is not bounded. -/
def fl (x : ℚ) : ℚ :=
  if x = 0 then 0
  else
    let e : ℤ := Int.log 2 |x|
    (roundHalfEven (x / 2 ^ (e - 52)) : ℚ) * 2 ^ (e - 52)

/-- The expression `Math.round(x * 100) / 100` for a number held as the double
`fl x`: the product by 100 is rounded to a double, `Math.round` rounds that
double half up to the whole number `k`, and the quotient by 100, the double
nearest to `k / 100`, is written `k / 100` (`fl_hundredths_lt`: the order of
the scores is that of the `k`). -/
def round2 (x : ℚ) : ℚ := ((⌊fl (fl x * 100) + 1 / 2⌋ : ℤ) : ℚ) / 100

/-! ## Speed leaderboard -/

/-- The `netScore` of `calculateSpeedLeaderboard` (`app.js` 1585-1587). -/
def netScore (s : Session) : ℚ :=
  let correctAnswers := jsOrNum s.score 0
  let incorrectAnswers := s.totalProblems - correctAnswers
  correctAnswers - incorrectAnswers

/-- The `sessionDuration` of `calculateSpeedLeaderboard` (`app.js` 1582):
`s.time || s.duration`. -/
def sessionDuration (s : Session) : ℚ := jsOrNum s.time s.duration

/-- The `secondsPerProblem` of `calculateSpeedLeaderboard` (`app.js` 1590-1596),
as the exact quotient; the program holds the double `fl` of it. -/
def secondsPerProblem (s : Session) : ℚ :=
  if netScore s > 0 then sessionDuration s / netScore s else 99999 / 100

/-- The callback of `scores.map` in `calculateSpeedLeaderboard`; `none` is `null`. -/
def speedEntry (s : Session) : Option SpeedEntry :=
  match s.problems with
  | none => none
  | some ps =>
    if ps.length = 0 then none
    else some
      { id := s.id, mode := s.mode, date := s.date, duration := s.duration,
        difficulty := s.difficulty,
        score := round2 (secondsPerProblem s),
        secondsPerProblem := secondsPerProblem s }

/-- The speed entries before `slice`: mapped, `null`s filtered out, sorted by
`a.score - b.score`. -/
def speedSorted (scores : List Session) : List SpeedEntry :=
  (scores.filterMap speedEntry).insertionSort (fun a b => a.score ≤ b.score)

/-- Function `calculateSpeedLeaderboard` (`app.js` 1576-1612). -/
def calculateSpeedLeaderboard (scores : List Session) : List SpeedEntry :=
  (speedSorted scores).take 10

/-! ## Percentile leaderboard -/

/-- The JavaScript `a || b` where both operands are numbers or `undefined` (an array read). -/
def jsOrOpt (a b : Option ℚ) : Option ℚ :=
  match a with
  | some v => if v ≠ 0 then some v else b
  | none => b

/-- Lines 1626-1631 of `app.js`: sort the times ascending, read index
`Math.floor(length * 0.9)`, fall back through `||` to the last element.
`Math.floor(n * 0.9)` is `9 * n / 10` rounded down: the double `0.9` exceeds
nine tenths by less than `3e-17`, too little to reach the next integer. -/
def percentileTime (problemTimes : List ℚ) : Option ℚ :=
  let sorted := problemTimes.insertionSort (fun a b => a ≤ b)
  let index := sorted.length * 9 / 10
  jsOrOpt sorted[index]? sorted[sorted.length - 1]?

/-- The callback of `scores.map` in `calculatePercentileLeaderboard`; `none` is
`null`. The last `none` stands for an `undefined` percentile time, which needs an
empty `problemTimes` and so is never reached. -/
def percentileEntry (s : Session) : Option PercentileEntry :=
  match s.problems with
  | none => none
  | some ps =>
    if ps.length = 0 then none
    else
      let problemTimes := ps.filterMap (fun p => p.timeTaken)
      if problemTimes.length = 0 then none
      else
        match percentileTime problemTimes with
        | none => none
        | some t => some
          { id := s.id, mode := s.mode, date := s.date, duration := s.duration,
            difficulty := s.difficulty, score := t, percentileTime := t }

/-- The percentile entries before `slice`. -/
def percentileSorted (scores : List Session) : List PercentileEntry :=
  (scores.filterMap percentileEntry).insertionSort (fun a b => a.score ≤ b.score)

/-- Function `calculatePercentileLeaderboard` (`app.js` 1614-1647). -/
def calculatePercentileLeaderboard (scores : List Session) : List PercentileEntry :=
  (percentileSorted scores).take 10

/-! ## Combined leaderboard -/

/-- The object `percentileRanks` after the `forEach` of lines 1655-1658, as a
lookup function: entry `idx` writes `idx + 1` under its id, a later write
replacing an earlier one. `idx` is the index of the head of the list. -/
def percentileRanks : List PercentileEntry → ℕ → (String → Option ℕ) → String → Option ℕ
  | [], _, m => m
  | s :: rest, idx, m =>
    percentileRanks rest (idx + 1) (fun k => if k = s.id then some (idx + 1) else m k)

/-- The expression `percentileRanks[s.id] || 11` (`app.js` 1662). -/
def rankOrDefault (r : Option ℕ) : ℕ :=
  match r with
  | some v => if v ≠ 0 then v else 11
  | none => 11

/-- The `combinedScore` of line 1667 for a given rank and seconds per problem,
as the exact quotient by the double `fl spp` that the entry holds; the program
holds the double `fl` of this quotient, which is where `round2` starts. -/
def combinedScore (percentileRank : ℕ) (spp : ℚ) : ℚ :=
  (11 - ((percentileRank : ℚ) + 1) / 2) / jsOrNum (some (fl spp)) 1

/-- The callback of `speedScores.map` in `calculateCombinedLeaderboard`. -/
def combinedEntry (ranks : String → Option ℕ) (s : SpeedEntry) : CombinedEntry :=
  let percentileRank := rankOrDefault (ranks s.id)
  { id := s.id, mode := s.mode, date := s.date, duration := s.duration,
    difficulty := s.difficulty,
    score := round2 (combinedScore percentileRank s.secondsPerProblem),
    secondsPerProblem := s.secondsPerProblem,
    percentileRank := percentileRank }

/-- Function `calculateCombinedLeaderboard` (`app.js` 1649-1678). -/
def calculateCombinedLeaderboard (scores : List Session) : List CombinedEntry :=
  let speedScores := calculateSpeedLeaderboard scores
  let percentileScores := calculatePercentileLeaderboard scores
  let ranks := percentileRanks percentileScores 0 (fun _ => none)
  ((speedScores.map (combinedEntry ranks)).insertionSort
    (fun a b => b.score ≤ a.score)).take 10

/-! ## Smart selector (`game-manager.js`) -/

/-- A problem handed to the page. `source` is `none` while the property is
unset (`undefined`); the layout fields are optional. -/
structure Problem where
  question : String
  answer : String
  display : String
  source : Option String
  isLargeNumbers : Option Bool
  verticalDisplay : Option String
  difficulty : Option String
  range : Option String
deriving DecidableEq, Repr

/-- Entry of `GameManager.mistakes` (pushed by `checkAnswer`). -/
structure Mistake where
  problem : String
  correctAnswer : String
  userAnswer : String
deriving DecidableEq, Repr

/-- The fields of `GameManager` that the game logic reads or writes.
`moduleName` is `currentModule.name` (some modules have none). Times are
milliseconds since the epoch. `lookbackDays` is a whole number of days (the
page sets it with `parseInt`). -/
structure GameManager where
  currentProblem : Option Problem
  problemCount : Int
  startTime : Option Int
  correctAnswers : ℕ
  gameDuration : ℚ
  mistakes : List Mistake
  problemTimings : List ProblemRecord
  problemsHistory : List ProblemRecord
  lastProblemStartTime : Option Int
  useSmartGenerator : Bool
  lookbackDays : ℤ
  probSlowest : ℚ
  probMistakes : ℚ
  useTimeFilter : Bool
  timeThreshold : ℚ
  slowestProblems : List ProblemRecord
  mistakeProblems : List ProblemRecord
  hasLoadedHistoricalData : Bool
  settingsLoaded : Bool
  reverseInput : Bool
  moduleName : Option String
deriving DecidableEq, Repr

/-- Lines 368-384 of `generateSmartProblem`: the triple
`(probSlow, probMistake, probRandom)` after normalisation, each sum, difference
and quotient rounded to a double. -/
def normalizeProbabilities (probSlowest probMistakes : ℚ) : ℚ × ℚ × ℚ :=
  let probSlow := probSlowest
  let probMistake := probMistakes
  if fl (probSlow + probMistake) > 1 then
    let total := fl (probSlow + probMistake)
    (fl (probSlow / total), fl (probMistake / total), 0)
  else
    (probSlow, probMistake, fl (fl (1 - probSlow) - probMistake))

/-- The read `pool[Math.floor(r * pool.length)]`: `none` is `undefined`. -/
def pickFrom (pool : List ProblemRecord) (r : ℚ) : Option ProblemRecord :=
  let i : ℤ := ⌊r * (pool.length : ℚ)⌋
  if 0 ≤ i then pool[i.toNat]? else none

/-- White space as `String.prototype.trim` and `parseInt` see it. -/
def jsIsWhitespace (c : Char) : Bool :=
  let n := c.toNat
  (0x09 ≤ n && n ≤ 0x0D) || n == 0x20 || n == 0xA0 || n == 0x1680 ||
  (0x2000 ≤ n && n ≤ 0x200A) || n == 0x2028 || n == 0x2029 || n == 0x202F ||
  n == 0x205F || n == 0x3000 || n == 0xFEFF

/-- Value of a digit in the given radix, if it is one. -/
def digitValue (radix : ℕ) (c : Char) : Option ℕ :=
  let v : Option ℕ :=
    if c.isDigit then some (c.toNat - 48)
    else if 'a'.toNat ≤ c.toNat ∧ c.toNat ≤ 'z'.toNat then some (c.toNat - 'a'.toNat + 10)
    else if 'A'.toNat ≤ c.toNat ∧ c.toNat ≤ 'Z'.toNat then some (c.toNat - 'A'.toNat + 10)
    else none
  v.bind (fun d => if d < radix then some d else none)

/-- The longest run of digits at the head of the list, as a number; `none` when
the first character is not a digit. -/
def leadingDigits (radix : ℕ) : List Char → Option ℕ → Option ℕ
  | [], acc => acc
  | c :: cs, acc =>
    match digitValue radix c with
    | some d => leadingDigits radix cs (some (acc.getD 0 * radix + d))
    | none => acc

/-- The call `parseInt(s)` without a radix argument: leading white space, an optional
sign, an optional leading `0x`/`0X`, then the digits; `none` is `NaN`. The value
is the exact integer (the source holds it in a double). -/
def jsParseInt (s : String) : Option ℤ :=
  let cs := s.toList.dropWhile jsIsWhitespace
  let (neg, cs) :=
    match cs with
    | '-' :: r => (true, r)
    | '+' :: r => (false, r)
    | r => (false, r)
  let (radix, cs) :=
    match cs with
    | '0' :: 'x' :: r => (16, r)
    | '0' :: 'X' :: r => (16, r)
    | r => (10, r)
  (leadingDigits radix cs none).map (fun n => if neg then -(n : ℤ) else (n : ℤ))

/-- The method `String.prototype.trim`. -/
def jsTrim (s : String) : String :=
  String.mk (((s.toList.dropWhile jsIsWhitespace).reverse.dropWhile jsIsWhitespace).reverse)

/-- Lines 416-440 of `generateSmartProblem`: the problem rebuilt from a
historical record, with the vertical layout of the Multiplication module. -/
def historicalProblem (moduleName : Option String) (selectedProblem : ProblemRecord)
    (problemSource : String) : Problem :=
  let problem : Problem :=
    { question := selectedProblem.problem,
      answer := selectedProblem.answer,
      display := selectedProblem.problem ++ " = ",
      source := some problemSource,
      isLargeNumbers := none, verticalDisplay := none, difficulty := none, range := none }
  if moduleName = some "Multiplication" then
    if selectedProblem.problem.contains 'x' ∨ selectedProblem.problem.contains '×' then
      match selectedProblem.problem.split (fun c => c == 'x' || c == '×') with
      | [p0, p1] =>
        match jsParseInt (jsTrim p0), jsParseInt (jsTrim p1) with
        | some num1, some num2 =>
          if num1 ≥ 100 ∨ num2 ≥ 100 then
            { problem with
              isLargeNumbers := some true,
              verticalDisplay :=
                some (toString num1 ++ "<br>× " ++ toString num2 ++ "<br>———") }
          else problem
        | _, _ => problem
      | _ => problem
    else problem
  else problem

/-- Method `GameManager.generateSmartProblem` (`game-manager.js` 361-448). `random` is
the first `Math.random()`, `pick` the one that indexes a pool, `generated` what
`currentModule.generateProblem()` returns. -/
def generateSmartProblem (g : GameManager) (random pick : ℚ) (generated : Problem) : Problem :=
  if g.slowestProblems.length = 0 ∧ g.mistakeProblems.length = 0 then
    generated
  else
    let (probSlow, probMistake, _) := normalizeProbabilities g.probSlowest g.probMistakes
    let (selectedProblem, problemSource) : Option ProblemRecord × String :=
      if random < probSlow ∧ g.slowestProblems.length > 0 then
        (pickFrom g.slowestProblems pick, "slow")
      else if random < probSlow + probMistake ∧ g.mistakeProblems.length > 0 then
        (pickFrom g.mistakeProblems pick, "mistake")
      else
        (none, "random")
    if selectedProblem.isNone ∧ g.useTimeFilter then
      { generated with source := some problemSource }
    else
      match selectedProblem with
      | some sel => historicalProblem g.moduleName sel problemSource
      | none => { generated with source := some problemSource }

/-- Method `GameManager.nextProblem` (`game-manager.js` 450-466) at clock reading `now`:
the new state and the returned `{ problem, problemCount }`. -/
def nextProblem (g : GameManager) (now : Int) (random pick : ℚ) (generated : Problem) :
    GameManager × Problem × Int :=
  let problemCount := g.problemCount + 1
  let currentProblem :=
    if g.useSmartGenerator then generateSmartProblem g random pick generated
    else { generated with source := some "random" }
  ({ g with problemCount := problemCount, lastProblemStartTime := some now,
            currentProblem := some currentProblem },
   currentProblem, problemCount)

/-! ## History index (`loadHistoricalData`)

`new Date(score.date)` is the stored timestamp in milliseconds. `setDate` is
taken in a time zone whose offset does not change inside the window, where
moving the date back by one day subtracts 86 400 000 ms. -/

/-- Milliseconds in one day. -/
def msPerDay : ℤ := 86400000

/-- The `lookbackTime` of lines 169-171: `now` moved back by `lookbackDays` days. -/
def lookbackTime (now lookbackDays : ℤ) : ℤ := now - lookbackDays * msPerDay

/-- The predicate of `allScores.filter` at lines 173-179. -/
def isRelevantScore (g : GameManager) (now : ℤ) (score : Session) : Bool :=
  decide (some score.mode = g.moduleName) &&
  decide (lookbackTime now g.lookbackDays ≤ score.date) &&
  (match score.problems with
   | some ps => decide (ps.length > 0)
   | none => false)

/-- The `minTimeThresholdMs` of line 186. -/
def minTimeThresholdMs (g : GameManager) : ℚ :=
  if g.useTimeFilter then g.timeThreshold * 1000 else 0

/-- The test `p.timeTaken && p.timeTaken >= minTimeThresholdMs` of line 194:
a missing or zero `timeTaken` is falsy. -/
def passesTimeFilter (g : GameManager) (p : ProblemRecord) : Bool :=
  match p.timeTaken with
  | some t => decide (t ≠ 0) && decide (minTimeThresholdMs g ≤ t)
  | none => false

/-- The `filteredProblems` of lines 193-195. -/
def filteredProblems (g : GameManager) (problems : List ProblemRecord) : List ProblemRecord :=
  if g.useTimeFilter then problems.filter (passesTimeFilter g) else problems

/-- The sort key `(p.timeTaken || 0)` of line 201. -/
def timeOrZero (p : ProblemRecord) : ℚ := jsOrNum p.timeTaken 0

/-- The `slowCount` of line 202: `Math.max(1, Math.ceil(problemCount * 0.1))`. The
double product `problemCount * 0.1` and the exact tenth have the same ceiling. -/
def slowCount (problemCount : ℕ) : ℕ := max 1 ⌈(problemCount : ℚ) * (1 / 10)⌉₊

/-- The body of `relevantScores.forEach` (lines 189-210) on the pair of pools
`(slowestProblems, mistakeProblems)`. -/
def processSession (g : GameManager)
    (pools : List ProblemRecord × List ProblemRecord) (session : Session) :
    List ProblemRecord × List ProblemRecord :=
  match session.problems with
  | none => pools
  | some problems =>
    let filtered := filteredProblems g problems
    if filtered.length = 0 then pools
    else
      let problemCount := filtered.length
      let sortedByTime := filtered.insertionSort (fun a b => timeOrZero b ≤ timeOrZero a)
      (pools.1 ++ sortedByTime.take (slowCount problemCount),
       pools.2 ++ filtered.filter (fun p => decide (p.isCorrect = some false)))

/-- Method `GameManager.loadHistoricalData` (`game-manager.js` 159-236) on the
fetched history `allScores` at clock reading `now`. The advisory pop-up is left
out. -/
def loadHistoricalData (g : GameManager) (allScores : List Session) (now : ℤ) : GameManager :=
  if g.hasLoadedHistoricalData then g
  else
    let relevantScores := allScores.filter (isRelevantScore g now)
    let pools := relevantScores.foldl (processSession g) ([], [])
    { g with slowestProblems := pools.1, mistakeProblems := pools.2,
             hasLoadedHistoricalData := true }

/-! ## Session engine: `checkAnswer` and `endGame` -/

/-- What `checkAnswer` returns. -/
structure CheckResult where
  isCorrect : Bool
  message : String
deriving DecidableEq, Repr

/-- The JavaScript `a || b` where `a` is a string or `undefined`. -/
def jsOrStr (a : Option String) (b : String) : String :=
  match a with
  | some v => if v ≠ "" then v else b
  | none => b

/-- Method `GameManager.checkAnswer` (`game-manager.js` 468-502) at clock reading
`now`, with `validateAnswer` the validator of the current module. `none` is the
`TypeError` raised when there is no current problem. A `null`
`lastProblemStartTime` counts as 0 in the subtraction. -/
def checkAnswer (g : GameManager) (userAnswer : String) (now : ℤ)
    (validateAnswer : String → String → Bool) : Option (GameManager × CheckResult) :=
  if userAnswer = "" then
    some (g, { isCorrect := false, message := "Please enter an answer" })
  else
    match g.currentProblem with
    | none => none
    | some currentProblem =>
      let timeTaken : ℤ := now - g.lastProblemStartTime.getD 0
      let isCorrect := validateAnswer userAnswer currentProblem.answer
      let problemRecord : ProblemRecord :=
        { problem := currentProblem.question,
          answer := currentProblem.answer,
          userAnswer := userAnswer,
          timeTaken := some (timeTaken : ℚ),
          isCorrect := some isCorrect,
          source := some (jsOrStr currentProblem.source "random") }
      let g1 := { g with problemTimings := g.problemTimings ++ [problemRecord],
                         problemsHistory := g.problemsHistory ++ [problemRecord] }
      if isCorrect then
        some ({ g1 with correctAnswers := g1.correctAnswers + 1 },
              { isCorrect := true, message := "Correct" })
      else
        some ({ g1 with mistakes := g1.mistakes ++
                  [{ problem := currentProblem.question,
                     correctAnswer := currentProblem.answer,
                     userAnswer := userAnswer }] },
              { isCorrect := false, message := "Incorrect" })

/-- The validator shared by every module: `parseInt(userAnswer)` is a number
whose decimal text is the correct answer. -/
def validateAnswer (userAnswer correctAnswer : String) : Bool :=
  match jsParseInt userAnswer with
  | some parsed => toString parsed == correctAnswer
  | none => false

/-- The `smartStats` object of `GameManager.endGame`. -/
structure SmartStats where
  lookbackDays : ℤ
  slowestProblems : ℕ
  mistakeProblems : ℕ
  probSlowest : ℚ
  probMistakes : ℚ
  useTimeFilter : Bool
  timeThreshold : ℚ
deriving DecidableEq, Repr

/-- What `GameManager.endGame` returns. -/
structure EndGameResult where
  time : ℤ
  score : ℕ
  totalProblems : ℤ
  mistakes : List Mistake
  slowestFive : List ProblemRecord
  problemsHistory : List ProblemRecord
  useSmartGenerator : Bool
  smartStats : Option SmartStats
deriving DecidableEq, Repr

/-- The number `timeTaken` of a record of the round (`checkAnswer` always
stamps one; 0 stands for a missing stamp). -/
def recordTime (p : ProblemRecord) : ℚ := p.timeTaken.getD 0

/-- Method `GameManager.endGame` (`game-manager.js` 509-536) at clock reading
`endTime`. A `null` `startTime` counts as 0 in the subtraction. -/
def endGame (g : GameManager) (endTime : ℤ) : EndGameResult :=
  let timeTaken : ℤ := ⌊(((endTime - g.startTime.getD 0 : ℤ) : ℚ)) / 1000⌋
  let sortedTimings := g.problemTimings.insertionSort (fun a b => recordTime b ≤ recordTime a)
  let slowestFive := sortedTimings.take 5
  { time := timeTaken,
    score := g.correctAnswers,
    totalProblems := g.problemCount,
    mistakes := g.mistakes,
    slowestFive := slowestFive,
    problemsHistory := g.problemsHistory,
    useSmartGenerator := g.useSmartGenerator,
    smartStats :=
      if g.useSmartGenerator then
        some { lookbackDays := g.lookbackDays,
               slowestProblems := g.slowestProblems.length,
               mistakeProblems := g.mistakeProblems.length,
               probSlowest := g.probSlowest,
               probMistakes := g.probMistakes,
               useTimeFilter := g.useTimeFilter,
               timeThreshold := g.timeThreshold }
      else none }

/-! ## Round end in `app.js` -/

/-- The `validProblems` of line 766: the records with an answer. A record of the
model always has a `userAnswer` string, so only the empty string is dropped. -/
def validProblems (problemsHistory : List ProblemRecord) : List ProblemRecord :=
  problemsHistory.filter (fun p => decide (p.userAnswer ≠ ""))

/-- The truthiness of `p.isCorrect`. -/
def isCorrectTruthy (p : ProblemRecord) : Bool := p.isCorrect == some true

/-- The `accuracy` of line 769: the quotient and its product by 100 are
rounded to doubles, and `Math.round` rounds the last double half up. -/
def accuracyOf (validScore validTotal : ℕ) : ℚ :=
  if validTotal > 0 then
    ((⌊fl (fl ((validScore : ℚ) / (validTotal : ℚ)) * 100) + 1 / 2⌋ : ℤ) : ℚ)
  else 100

/-- The session record `newScore` built by `endGame` of `app.js` (lines 743-904)
from the result of `GameManager.endGame`. `sessionId` is the generated id, `now`
the date stamp, `selectedDuration` the configured duration, `moduleName` and
`moduleDifficulty` the name and difficulty of the current module. -/
def buildSession (r : EndGameResult) (sessionId : String) (now : ℤ) (selectedDuration : ℚ)
    (moduleName : Option String) (moduleDifficulty : Option String) : Session :=
  let valid := validProblems r.problemsHistory
  let validScore := (valid.filter isCorrectTruthy).length
  let validTotal := valid.length
  let accuracy := accuracyOf validScore validTotal
  let allIncorrectProblems := valid.filter (fun p => !isCorrectTruthy p)
  { id := sessionId,
    mode := jsOrStr moduleName "-",
    date := now,
    time := some (r.time : ℚ),
    score := some (validScore : ℚ),
    totalProblems := (validTotal : ℚ),
    mistakes := allIncorrectProblems,
    accuracy := accuracy,
    duration := selectedDuration,
    problems := some valid,
    difficulty := if moduleName = some "Multiplication" then moduleDifficulty else none }

/-! ## Storage gateway (`app.js`)

`localStorage` holds JSON text; the model keeps the value that the text
denotes, so `JSON.parse(JSON.stringify(v))` is `v`. The diagnostic string
`dbStatus` is left out. -/

/-- A value that the page stores: a setting scalar or the list of sessions. -/
inductive JsValue where
  | null
  | bool (b : Bool)
  | num (q : ℚ)
  | str (s : String)
  | sessions (l : List Session)
deriving DecidableEq, Repr

/-- The two backends. `db` tells whether the module variable `db` holds a
database handle; `scoresStore` and `settingsStore` are the rows of the object
stores `mathScores` (key path `id`) and `mathSettings` (key path `key`);
`localStorage` is the fallback store, one entry per key. -/
structure Storage where
  db : Bool
  scoresStore : List Session
  settingsStore : List (String × JsValue)
  localStorage : List (String × JsValue)
deriving DecidableEq, Repr

/-- Lookup in a keyed list (`localStorage.getItem`, `store.get`); `none` is
`null` or `undefined`. -/
def getItem (items : List (String × JsValue)) (key : String) : Option JsValue :=
  (items.find? (fun kv => kv.1 == key)).map (fun kv => kv.2)

/-- Write under a key, replacing what was there (`localStorage.setItem`,
`store.put`). -/
def setItem (items : List (String × JsValue)) (key : String) (value : JsValue) :
    List (String × JsValue) :=
  items.filter (fun kv => kv.1 != key) ++ [(key, value)]

/-- Delete a key (`localStorage.removeItem`). -/
def removeItem (items : List (String × JsValue)) (key : String) : List (String × JsValue) :=
  items.filter (fun kv => kv.1 != key)

/-- The shapes of `data` that `saveToIndexedDB` is written for: an array of
sessions for the scores store, one `{ key, value }` object for the settings
store (what `saveSettingToIndexedDB` passes), or an array of such objects. -/
inductive SaveData where
  | scores (data : List Session)
  | setting (key : String) (value : JsValue)
  | settings (items : List (String × JsValue))
deriving DecidableEq, Repr

/-- The fallback write of `saveToIndexedDB` (lines 139-145 and 169-175): the
scores go under `mathScores`; settings are written only when `data` is an array. -/
def saveFallback (st : Storage) (data : SaveData) : Storage :=
  match data with
  | SaveData.scores l =>
    { st with localStorage := setItem st.localStorage "mathScores" (JsValue.sessions l) }
  | SaveData.setting _ _ => st
  | SaveData.settings items =>
    { st with localStorage :=
        items.foldl (fun ls item => setItem ls item.1 item.2) st.localStorage }

/-- Function `saveToIndexedDB` (`app.js` 130-191). `txError` tells whether the
transaction meets an error of the platform. An array is written by clearing the
store and adding every item; adding a key twice is an error too. On error the
transaction is rolled back and the fallback write is made. -/
def saveToIndexedDB (st : Storage) (data : SaveData) (txError : Bool) : Storage :=
  if !st.db then saveFallback st data
  else
    match data with
    | SaveData.scores l =>
      if txError || !decide ((l.map (fun s => s.id)).Nodup) then saveFallback st data
      else { st with scoresStore := l }
    | SaveData.setting key value =>
      if txError then saveFallback st data
      else { st with settingsStore := setItem st.settingsStore key value }
    | SaveData.settings items =>
      if txError || !decide ((items.map (fun kv => kv.1)).Nodup) then saveFallback st data
      else { st with settingsStore := items }

/-- Function `saveSettingToIndexedDB` (`app.js` 258-260). -/
def saveSettingToIndexedDB (st : Storage) (key : String) (value : JsValue) (txError : Bool) :
    Storage :=
  saveToIndexedDB st (SaveData.setting key value) txError

/-- Function `getSettingFromIndexedDB` (`app.js` 227-255). `readError` tells
whether the read request fails. -/
def getSettingFromIndexedDB (st : Storage) (key : String) (defaultValue : JsValue)
    (readError : Bool) : JsValue :=
  if !st.db || readError then
    match getItem st.localStorage key with
    | some value => value
    | none => defaultValue
  else
    match getItem st.settingsStore key with
    | some value => value
    | none => defaultValue

/-! ## Startup migration (`app.js` 320-376) -/

/-- Function `initDB` (`app.js` 67-127): when the database can be opened
(`available`) the handle is set and the promise resolves to `true`; otherwise the
state is unchanged and it resolves to `false`. -/
def initDB (st : Storage) (available : Bool) : Storage × Bool :=
  if available then ({ st with db := true }, true) else (st, false)

/-- The expression `JSON.parse(localStorage.getItem('mathScores') || '[]')`: the
sessions stored under `mathScores`, or the empty list when the key is absent.
Only lists of sessions are ever written under that key; another value counts
as the empty list. -/
def localScoresOf (st : Storage) : List Session :=
  match getItem st.localStorage "mathScores" with
  | some (JsValue.sessions l) => l
  | _ => []

/-- The array `settingsToMigrate` (`app.js` 345-359). -/
def settingsToMigrate : List String :=
  ["lastGameDuration", "showFeedback", "multiplicationDifficulty",
   "currentLeaderboardMode", "currentLeaderboardFilter", "currentLeaderboardType",
   "useSmartGenerator", "lookbackDays", "probSlowest", "probMistakes",
   "useTimeFilter", "timeThreshold", "debugMode"]

/-- The body of the loop of `migrateSettingsFromLocalStorage` for one key
(lines 362-374): a value found in `localStorage` is saved as a setting and the
`localStorage` item is removed. -/
def migrateSetting (txError : String → Bool) (st : Storage) (key : String) : Storage :=
  match getItem st.localStorage key with
  | none => st
  | some parsedValue =>
    let st1 := saveSettingToIndexedDB st key parsedValue (txError key)
    { st1 with localStorage := removeItem st1.localStorage key }

/-- Function `migrateSettingsFromLocalStorage` (`app.js` 344-376). `txError key`
tells whether the write of `key` meets an error of the platform. -/
def migrateSettingsFromLocalStorage (st : Storage) (txError : String → Bool) : Storage :=
  settingsToMigrate.foldl (migrateSetting txError) st

/-- Lines 325-336 of the startup migration: the sessions found in
`localStorage` are written to the scores store with `saveToIndexedDB` and the
`localStorage` item is removed. `txError` is whether the write meets an error
of the platform. -/
def migrateLocalScores (st : Storage) (txError : Bool) : Storage :=
  let localScores := localScoresOf st
  if localScores.length > 0 then
    let saved := saveToIndexedDB st (SaveData.scores localScores) txError
    { saved with localStorage := removeItem saved.localStorage "mathScores" }
  else st

/-- The startup migration, the callback of `initDB().then` (`app.js` 321-341).
`available` is whether the database opens, `scoresTxError` whether the write of
the scores meets an error of the platform, `settingsTxError` the same for each
setting. -/
def startupMigration (st : Storage) (available : Bool) (scoresTxError : Bool)
    (settingsTxError : String → Bool) : Storage :=
  let (st0, dbInitialized) := initDB st available
  if dbInitialized then
    migrateSettingsFromLocalStorage (migrateLocalScores st0 scoresTxError) settingsTxError
  else st0

/-! ## Session engine: `startGame` and the round clock -/

/-- The eight settings that `initializeSettings` reads from the database (each
with its default when absent). -/
structure StoredSettings where
  lastGameDuration : ℚ
  useSmartGenerator : Bool
  lookbackDays : ℤ
  probSlowest : ℚ
  probMistakes : ℚ
  useTimeFilter : Bool
  timeThreshold : ℚ
  reverseInput : Bool
deriving DecidableEq, Repr

/-- Method `GameManager.initializeSettings` (`game-manager.js` 39-59); the reads
never reject, so the `catch` branch is not reached. -/
def initializeSettings (g : GameManager) (stored : StoredSettings) : GameManager :=
  if g.settingsLoaded then g
  else
    { g with
      gameDuration := stored.lastGameDuration,
      useSmartGenerator := stored.useSmartGenerator,
      lookbackDays := stored.lookbackDays,
      probSlowest := stored.probSlowest,
      probMistakes := stored.probMistakes,
      useTimeFilter := stored.useTimeFilter,
      timeThreshold := stored.timeThreshold,
      reverseInput := stored.reverseInput,
      settingsLoaded := true }

/-- Method `GameManager.startTimer` (`game-manager.js` 538-541) at clock reading
`now`; the interval handle is not modelled. -/
def startTimer (g : GameManager) (now : ℤ) : GameManager :=
  { g with startTime := some now }

/-- Method `GameManager.startGame` (`game-manager.js` 338-358). `stored` and
`allScores` are what the database returns; `tStart`, `tLoad`, `tNext` and
`tTimer` are the clock readings of the four places that read the clock;
`random`, `pick` and `generated` feed the first `nextProblem`. -/
def startGame (g : GameManager) (stored : StoredSettings) (allScores : List Session)
    (tStart tLoad tNext tTimer : ℤ) (random pick : ℚ) (generated : Problem) : GameManager :=
  let g1 := if !g.settingsLoaded then initializeSettings g stored else g
  let g2 := { g1 with problemCount := -1, correctAnswers := 0, startTime := some tStart,
                      mistakes := [], problemTimings := [], problemsHistory := [] }
  let g3 := if g2.useSmartGenerator then loadHistoricalData g2 allScores tLoad else g2
  let g4 := (nextProblem g3 tNext random pick generated).1
  startTimer g4 tTimer

/-- A call made on the manager during a round. -/
inductive GameAction where
  | next (now : ℤ) (random pick : ℚ) (generated : Problem)
  | check (userAnswer : String) (now : ℤ)
deriving DecidableEq, Repr

/-- One call of `nextProblem` or `checkAnswer`; `none` is an exception. -/
def stepGame (validate : String → String → Bool) (g : GameManager) (a : GameAction) :
    Option GameManager :=
  match a with
  | GameAction.next now random pick generated =>
    some (nextProblem g now random pick generated).1
  | GameAction.check userAnswer now =>
    (checkAnswer g userAnswer now validate).map (fun r => r.1)

/-- A sequence of calls, one after the other. -/
def runGame (validate : String → String → Bool) (g : GameManager) :
    List GameAction → Option GameManager
  | [] => some g
  | a :: rest =>
    match stepGame validate g a with
    | some g1 => runGame validate g1 rest
    | none => none

/-- Method `GameManager.shouldEndGame` (`game-manager.js` 504-507) at clock
reading `now`; a `null` `startTime` counts as 0 in the subtraction. -/
def shouldEndGame (g : GameManager) (now : ℤ) : Bool :=
  let elapsedTime : ℤ := now - g.startTime.getD 0
  decide (g.gameDuration * 1000 ≤ (elapsedTime : ℚ))

/-- What `getElapsedTime` returns; `total` is absent when no round was started. -/
structure ElapsedTime where
  minutes : ℤ
  seconds : ℤ
  total : Option ℤ
deriving DecidableEq, Repr

/-- Method `GameManager.getElapsedTime` (`game-manager.js` 543-551) at clock
reading `now`. A `startTime` that is `null` or 0 is falsy. The remainder `%`
truncates towards zero. -/
def getElapsedTime (g : GameManager) (now : ℤ) : ElapsedTime :=
  match g.startTime with
  | none => { minutes := 0, seconds := 0, total := none }
  | some startTime =>
    if startTime = 0 then { minutes := 0, seconds := 0, total := none }
    else
      let elapsed : ℤ := ⌊(((now - startTime : ℤ) : ℚ)) / 1000⌋
      { minutes := ⌊((elapsed : ℚ)) / 60⌋, seconds := Int.tmod elapsed 60,
        total := some elapsed }

/-- What `getRemainingTime` returns; `none` is `NaN`. -/
structure RemainingTime where
  minutes : Option ℤ
  seconds : Option ℚ
  total : Option ℚ
deriving DecidableEq, Repr

/-- The JavaScript `a % b` on numbers: the remainder of the division truncated
towards zero. -/
def jsRem (a b : ℚ) : ℚ :=
  a - b * (if 0 ≤ a / b then (⌊a / b⌋ : ℚ) else (⌈a / b⌉ : ℚ))

/-- Method `GameManager.getRemainingTime` (`game-manager.js` 553-561) at clock
reading `now`. -/
def getRemainingTime (g : GameManager) (now : ℤ) : RemainingTime :=
  match (getElapsedTime g now).total with
  | none => { minutes := none, seconds := none, total := none }
  | some elapsed =>
    let remaining : ℚ := g.gameDuration - (elapsed : ℚ)
    { minutes := some ⌊remaining / 60⌋, seconds := some (jsRem remaining 60),
      total := some remaining }

/-- The entry that `checkAnswer` pushes on `mistakes` for a wrong record. -/
def mistakeOf (r : ProblemRecord) : Mistake :=
  { problem := r.problem, correctAnswer := r.answer, userAnswer := r.userAnswer }

/-- The engine invariant: `correctAnswers` counts the records of `problemsHistory`
with `isCorrect` true, `mistakes` has one entry for each record with `isCorrect`
false, in the same order, and `problemTimings` holds the records of
`problemsHistory`. -/
def engineInvariant (g : GameManager) : Prop :=
  g.correctAnswers = (g.problemsHistory.filter (fun r => r.isCorrect == some true)).length ∧
  g.mistakes = (g.problemsHistory.filter (fun r => r.isCorrect == some false)).map mistakeOf ∧
  g.problemTimings = g.problemsHistory

/-! ## Problem modules (`multiplication.js`, `addition.js`)

Operands are exact integers; the source holds them in doubles, which are exact
below 2^53. The sum and the product that make the answer are rounded to a
double, which is a whole number; `toString` prints its decimal digits (the
form of `Number.prototype.toString` below 1e21). -/

/-- The state of `multiplicationModule`: its `difficulty`. -/
structure MultiplicationModule where
  difficulty : String
deriving DecidableEq, Repr

/-- Method `multiplicationModule.setDifficulty` (`multiplication.js` 6-10). -/
def setDifficulty (m : MultiplicationModule) (level : String) : MultiplicationModule :=
  if level ∈ ["2x2", "3x3", "4x4", "8x8"] then { m with difficulty := level } else m

/-- The number written by a run of decimal digits. -/
def digitsValue (ds : List Char) : ℕ :=
  ds.foldl (fun acc c => acc * 10 + (c.toNat - 48)) 0

/-- A match of the pattern `(\d+)\s*op\s*(\d+)` that starts at the head of the
list: the values of the two groups. -/
def matchOperandsAt (op : Char) (cs : List Char) : Option (ℕ × ℕ) :=
  let d1 := cs.takeWhile Char.isDigit
  if d1.isEmpty then none
  else
    match (cs.dropWhile Char.isDigit).dropWhile jsIsWhitespace with
    | [] => none
    | c :: rest =>
      if c = op then
        let d2 := (rest.dropWhile jsIsWhitespace).takeWhile Char.isDigit
        if d2.isEmpty then none else some (digitsValue d1, digitsValue d2)
      else none

/-- The call `text.match(/(\d+)\s*op\s*(\d+)/)` followed by `parseInt` of the
two groups: the leftmost match, `none` when there is none. -/
def matchOperands (op : Char) : List Char → Option (ℕ × ℕ)
  | [] => none
  | c :: cs =>
    match matchOperandsAt op (c :: cs) with
    | some r => some r
    | none => matchOperands op cs

/-- The expression `orig + Math.floor(Math.random() * variance * 2) - variance`
for the draw `r`. -/
def perturb (orig : ℕ) (variance : ℤ) (r : ℚ) : ℤ :=
  (orig : ℤ) + ⌊r * (variance : ℚ) * 2⌋ - variance

/-- The problem object that the addition module builds from two operands. -/
def additionProblem (num1 num2 : ℤ) : Problem :=
  { question := toString num1 ++ " + " ++ toString num2,
    answer := toString ⌊fl (((num1 + num2 : ℤ) : ℚ))⌋,
    display := toString num1 ++ " + " ++ toString num2,
    source := none, isLargeNumbers := none, verticalDisplay := none,
    difficulty := none, range := none }

/-- Lines 27-37 of `addition.js`: the operands of the similar problem. -/
def additionSimilarOperands (origNum1 origNum2 : ℕ) (r1 r2 : ℚ) : ℤ × ℤ :=
  let variance1 : ℤ := ⌊(origNum1 : ℚ) * (1 / 10)⌋
  let variance2 : ℤ := ⌊(origNum2 : ℚ) * (1 / 10)⌋
  let num1 := perturb origNum1 variance1 r1
  let num2 := perturb origNum2 variance2 r2
  (max 100 num1, max 100 num2)

/-- Method `additionModule.generateSimilarProblem` (`addition.js` 14-43) on the
text of the prior problem; `r1` and `r2` are the two draws and `generated` is
what `generateProblem()` returns. -/
def additionGenerateSimilarProblem (problemText : String) (r1 r2 : ℚ)
    (generated : Problem) : Problem :=
  match matchOperands '+' problemText.toList with
  | none => generated
  | some (origNum1, origNum2) =>
    additionProblem (additionSimilarOperands origNum1 origNum2 r1 r2).1
      (additionSimilarOperands origNum1 origNum2 r1 r2).2

/-- The `minValue` of lines 77-84 of `multiplication.js`. -/
def minValueOf (difficulty : String) : ℤ :=
  if difficulty = "2x2" then 10
  else if difficulty = "3x3" then 100
  else if difficulty = "4x4" then 1000
  else if difficulty = "8x8" then 10000000
  else 10

/-- The problem object that the multiplication module builds from two operands. -/
def multiplicationProblem (difficulty : String) (num1 num2 : ℤ) : Problem :=
  { question := toString num1 ++ " × " ++ toString num2,
    answer := toString ⌊fl (((num1 * num2 : ℤ) : ℚ))⌋,
    display := toString num1 ++ " × " ++ toString num2,
    source := none,
    isLargeNumbers := some (decide (100 ≤ num1) && decide (100 ≤ num2)),
    verticalDisplay := some (toString num1 ++ "<br>" ++ toString num2 ++ "<br>———"),
    difficulty := some difficulty, range := none }

/-- Lines 68-87 of `multiplication.js`: the operands of the similar problem. -/
def multiplicationSimilarOperands (difficulty : String) (origNum1 origNum2 : ℕ)
    (r1 r2 : ℚ) : ℤ × ℤ :=
  let variance1 : ℤ := max 5 ⌊(origNum1 : ℚ) * (1 / 10)⌋
  let variance2 : ℤ := max 5 ⌊(origNum2 : ℚ) * (1 / 10)⌋
  let num1 := perturb origNum1 variance1 r1
  let num2 := perturb origNum2 variance2 r2
  (max (minValueOf difficulty) num1, max (minValueOf difficulty) num2)

/-- Method `multiplicationModule.generateSimilarProblem` (`multiplication.js`
53-102) on the text and the `difficulty` of the prior problem: the module
afterwards and the problem returned. -/
def multiplicationGenerateSimilarProblem (m : MultiplicationModule) (problemText : String)
    (priorDifficulty : Option String) (r1 r2 : ℚ) (generated : Problem) :
    MultiplicationModule × Problem :=
  let m1 : MultiplicationModule :=
    match priorDifficulty with
    | some d => if d ≠ "" then { m with difficulty := d } else m
    | none => m
  match matchOperands '×' problemText.toList with
  | none => (m1, generated)
  | some (origNum1, origNum2) =>
    (m1, multiplicationProblem m1.difficulty
      (multiplicationSimilarOperands m1.difficulty origNum1 origNum2 r1 r2).1
      (multiplicationSimilarOperands m1.difficulty origNum1 origNum2 r1 r2).2)

/-! ## Concrete inputs -/

/-- A correctly answered record that took `t` milliseconds. -/
def timedRecord (t : ℚ) : ProblemRecord :=
  { problem := "12 + 30", answer := "42", userAnswer := "42",
    timeTaken := some t, isCorrect := some true, source := some "random" }

/-- A stored Addition session with the given id, elapsed seconds, correct count,
total count, configured duration and per-problem times. -/
def sampleSession (id : String) (time : Option ℚ) (score total duration : ℚ)
    (times : List ℚ) : Session :=
  { id := id, mode := "Addition", date := 0, time := time, score := some score,
    totalProblems := total, mistakes := [], accuracy := 100, duration := duration,
    problems := some (times.map timedRecord), difficulty := none }

/-- Eight correct out of ten in a 60 second round that was ended after 58 seconds. -/
def elapsed58 : Session := sampleSession "a" (some 58) 8 10 60 [1000]

/-- Eleven timed records: ten answered in 0 ms and one in 5000 ms. -/
def zeroTimes : List ℚ := [0, 0, 0, 0, 0, 5000, 0, 0, 0, 0, 0]

/-- Eleven sessions: ten with 10 seconds per problem and a slow 90th percentile,
and session `k`, a little slower per problem but with the best percentile time. -/
def elevenSessions : List Session :=
  [sampleSession "s1" (some 60) 8 10 60 [1000],
   sampleSession "s2" (some 60) 8 10 60 [1000],
   sampleSession "s3" (some 60) 8 10 60 [1000],
   sampleSession "s4" (some 60) 8 10 60 [1000],
   sampleSession "s5" (some 60) 8 10 60 [1000],
   sampleSession "s6" (some 60) 8 10 60 [1000],
   sampleSession "s7" (some 60) 8 10 60 [1000],
   sampleSession "s8" (some 60) 8 10 60 [1000],
   sampleSession "s9" (some 60) 8 10 60 [1000],
   sampleSession "s10" (some 60) 8 10 60 [1000],
   sampleSession "k" (some 61) 8 10 60 [100]]

/-- Two sessions whose seconds per problem, 60/11 and 109/20, both round to 5.45. -/
def roundingTie : List Session :=
  [sampleSession "a" (some 60) 11 11 60 [1000],
   sampleSession "b" (some 109) 20 20 120 [1000]]

/-- A session with net score 0 followed by one with net score 1 over 3600 seconds. -/
def sentinelFirst : List Session :=
  [sampleSession "z" (some 60) 5 10 60 [1000],
   sampleSession "p" (some 3600) 1 1 3600 [1000]]

/-- A session with net score 0 followed by one with 10 seconds per problem. -/
def sentinelLast : List Session :=
  [sampleSession "z" (some 60) 5 10 60 [1000],
   sampleSession "q" (some 60) 8 10 60 [1000]]

/-- Two sessions: `a` took 100 seconds for a net score of 3 and is second by
percentile time; `b` took 60 seconds for a net score of 6 and is first. -/
def tieSessions : List Session :=
  [sampleSession "a" (some 100) 3 3 100 [1000],
   sampleSession "b" (some 60) 8 10 60 [100]]

/-- The rank the spec gives a session id: its 1-based position in the list of
ids of the percentile leaderboard, or 11 when it is not there. -/
def specPercentileRank (ids : List String) (id : String) : ℕ :=
  if ids.indexOf id < ids.length then ids.indexOf id + 1 else 11

/-- The combined entry of session `q` of `sentinelLast`: second by percentile
time, 10 seconds per problem, combined score 0.95. -/
def combinedQ : CombinedEntry :=
  { id := "q", mode := "Addition", date := 0, duration := 60, difficulty := none,
    score := 19 / 20, secondsPerProblem := 10, percentileRank := 2 }

/-- What `additionModule.generateProblem()` returns for the operands 1234 and
5678: no `source` property. -/
def generatedAddition : Problem :=
  { question := "1234 + 5678", answer := "6912", display := "1234 + 5678",
    source := none, isLargeNumbers := none, verticalDisplay := none,
    difficulty := none, range := none }

/-- A historical record of the Addition mode answered wrongly in `t` milliseconds. -/
def missedRecord (problem answer : String) (t : ℚ) : ProblemRecord :=
  { problem := problem, answer := answer, userAnswer := "0",
    timeTaken := some t, isCorrect := some false, source := some "random" }

/-- A game manager of the Addition mode in smart mode, right after `startGame`
reset the counters, with the given probabilities and pools. -/
def smartManager (probSlowest probMistakes : ℚ) (slowest mistakes : List ProblemRecord) :
    GameManager :=
  { currentProblem := none, problemCount := -1, startTime := some 0, correctAnswers := 0,
    gameDuration := 60, mistakes := [], problemTimings := [], problemsHistory := [],
    lastProblemStartTime := none, useSmartGenerator := true, lookbackDays := 1,
    probSlowest := probSlowest, probMistakes := probMistakes, useTimeFilter := false,
    timeThreshold := 2, slowestProblems := slowest, mistakeProblems := mistakes,
    hasLoadedHistoricalData := true, settingsLoaded := true, reverseInput := false,
    moduleName := some "Addition" }

/-- A stored session of the given mode and date holding the given records. -/
def historySession (id mode : String) (date : ℤ) (problems : List ProblemRecord) : Session :=
  { id := id, mode := mode, date := date, time := some 60,
    score := some ((problems.filter isCorrectTruthy).length : ℚ),
    totalProblems := (problems.length : ℚ),
    mistakes := problems.filter (fun p => !isCorrectTruthy p),
    accuracy := accuracyOf (problems.filter isCorrectTruthy).length problems.length,
    duration := 60, problems := some problems, difficulty := none }

/-- A game manager of the Addition mode in smart mode whose history has not been
loaded yet, looking back one day, with the given time filter settings. -/
def freshManager (useTimeFilter : Bool) (timeThreshold : ℚ) : GameManager :=
  { smartManager (1 / 4) (1 / 4) [] [] with
    hasLoadedHistoricalData := false, useTimeFilter := useTimeFilter,
    timeThreshold := timeThreshold }

/-- Ten days after the epoch, in milliseconds. -/
def dayTen : ℤ := 864000000

/-- The manager after the history was loaded on day ten from one session of
half a day before, in which "7 + 8" was missed. -/
def loadedManager : GameManager :=
  loadHistoricalData (freshManager false 2)
    [historySession "h1" "Addition" (dayTen - 43200000) [missedRecord "7 + 8" "15" 3000]]
    dayTen

/-- A wrongly answered record without a `timeTaken`. -/
def untimedMiss : ProblemRecord :=
  { problem := "7 + 8", answer := "15", userAnswer := "14",
    timeTaken := none, isCorrect := some false, source := some "random" }

/-- A validator that accepts exactly the stored answer. -/
def exactValidator (userAnswer correctAnswer : String) : Bool := userAnswer == correctAnswer

/-- A game manager of the Addition mode in plain mode, the problem "7 + 8" having
been drawn at time 1000. -/
def runningManager : GameManager :=
  { smartManager (1 / 4) (1 / 4) [] [] with
    useSmartGenerator := false, problemCount := 0, lastProblemStartTime := some 1000,
    currentProblem := some
      { question := "7 + 8", answer := "15", display := "7 + 8", source := some "random",
        isLargeNumbers := none, verticalDisplay := none, difficulty := none, range := none } }

/-- The two stores empty and no database handle. -/
def noDatabase : Storage :=
  { db := false, scoresStore := [], settingsStore := [], localStorage := [] }

/-- A round of three answers: right, wrong, right. -/
def finishedManager : GameManager :=
  { runningManager with
    problemCount := 3, correctAnswers := 2,
    problemsHistory :=
      [timedRecord 2000, missedRecord "7 + 8" "15" 3000, timedRecord 1000],
    problemTimings :=
      [timedRecord 2000, missedRecord "7 + 8" "15" 3000, timedRecord 1000],
    mistakes := [{ problem := "7 + 8", correctAnswer := "15", userAnswer := "0" }] }

/-- A round of forty answers, twenty-three of them right. -/
def fortyAnswers : GameManager :=
  { finishedManager with
    problemsHistory :=
      List.replicate 23 (timedRecord 1000) ++
        List.replicate 17 (missedRecord "7 + 8" "15" 3000) }

/-- Before the startup migration: session `a` is in the durable store, session
`b` was written to `localStorage` while the database was unavailable, and the
handle is not set yet. -/
def bothStores : Storage :=
  { db := false,
    scoresStore := [sampleSession "a" (some 60) 8 10 60 [1000]],
    settingsStore := [],
    localStorage :=
      [("mathScores", JsValue.sessions [sampleSession "b" (some 60) 9 10 60 [1000]])] }

/-- A stored session without a `problems` list. -/
def emptySession : Session :=
  { id := "e", mode := "Addition", date := 0, time := some 60, score := some 0,
    totalProblems := 0, mistakes := [], accuracy := 100, duration := 60,
    problems := none, difficulty := none }

/-- The settings found in the database before a round. -/
def storedDefaults : StoredSettings :=
  { lastGameDuration := 60, useSmartGenerator := false, lookbackDays := 1,
    probSlowest := 1 / 4, probMistakes := 1 / 4, useTimeFilter := false,
    timeThreshold := 2, reverseInput := false }

/-- A manager in a 60-second round started at clock reading 1000. -/
def timedManager : GameManager :=
  { runningManager with startTime := some 1000, gameDuration := 60 }

/-! ## Theorems -/

/-! ### Rounding to a double -/

theorem roundHalfEven_error (y : ℚ) : |(roundHalfEven y : ℚ) - y| ≤ 1 / 2 := by
  have h1 : ((⌊y⌋ : ℤ) : ℚ) ≤ y := Int.floor_le y
  have h2 : y < ((⌊y⌋ : ℤ) : ℚ) + 1 := Int.lt_floor_add_one y
  unfold roundHalfEven
  simp only
  rw [abs_le]
  split_ifs with ha hb hc
  · constructor <;> linarith
  · push_cast; constructor <;> linarith
  · constructor <;> linarith
  · push_cast; constructor <;> linarith

theorem roundHalfEven_eq_of (y : ℚ) (m : ℤ) (h : |y - (m : ℚ)| < 1 / 2) :
    roundHalfEven y = m := by
  have h1 : ((⌊y⌋ : ℤ) : ℚ) ≤ y := Int.floor_le y
  have h2 : y < ((⌊y⌋ : ℤ) : ℚ) + 1 := Int.lt_floor_add_one y
  rw [abs_lt] at h
  obtain ⟨h3, h4⟩ := h
  unfold roundHalfEven
  simp only
  split_ifs with ha hb hc
  · have a1 : ((⌊y⌋ : ℤ) : ℚ) < (m : ℚ) + 1 := by linarith
    have a2 : (m : ℚ) < ((⌊y⌋ : ℤ) : ℚ) + 1 := by linarith
    have b1 : ⌊y⌋ < m + 1 := by exact_mod_cast a1
    have b2 : m < ⌊y⌋ + 1 := by exact_mod_cast a2
    omega
  · have a1 : ((⌊y⌋ : ℤ) : ℚ) + 1 < (m : ℚ) + 1 := by linarith
    have a2 : (m : ℚ) < ((⌊y⌋ : ℤ) : ℚ) + 1 + 1 := by linarith
    have b1 : ⌊y⌋ + 1 < m + 1 := by exact_mod_cast a1
    have b2 : m < ⌊y⌋ + 1 + 1 := by exact_mod_cast a2
    omega
  · exfalso
    have e1 : y - ((⌊y⌋ : ℤ) : ℚ) = 1 / 2 := le_antisymm (not_lt.mp hb) (not_lt.mp ha)
    have a1 : ((⌊y⌋ : ℤ) : ℚ) < (m : ℚ) := by linarith
    have a2 : (m : ℚ) < ((⌊y⌋ : ℤ) : ℚ) + 1 := by linarith
    have b1 : ⌊y⌋ < m := by exact_mod_cast a1
    have b2 : m < ⌊y⌋ + 1 := by exact_mod_cast a2
    omega
  · exfalso
    have e1 : y - ((⌊y⌋ : ℤ) : ℚ) = 1 / 2 := le_antisymm (not_lt.mp hb) (not_lt.mp ha)
    have a1 : ((⌊y⌋ : ℤ) : ℚ) < (m : ℚ) := by linarith
    have a2 : (m : ℚ) < ((⌊y⌋ : ℤ) : ℚ) + 1 := by linarith
    have b1 : ⌊y⌋ < m := by exact_mod_cast a1
    have b2 : m < ⌊y⌋ + 1 := by exact_mod_cast a2
    omega

theorem log_two_bounds (x : ℚ) (hx : x ≠ 0) :
    (2 : ℚ) ^ (Int.log 2 |x|) ≤ |x| ∧ |x| < (2 : ℚ) ^ (Int.log 2 |x| + 1) := by
  have hpos : 0 < |x| := abs_pos.mpr hx
  have h1 := Int.zpow_log_le_self (b := 2) (by norm_num) hpos
  have h2 := Int.lt_zpow_succ_log_self (b := 2) (by norm_num) |x|
  exact ⟨by simpa using h1, by simpa using h2⟩

theorem log_two_eq (x : ℚ) (e : ℤ) (h1 : (2 : ℚ) ^ e ≤ |x|) (h2 : |x| < (2 : ℚ) ^ (e + 1)) :
    Int.log 2 |x| = e := by
  have hpos : 0 < |x| := lt_of_lt_of_le (zpow_pos (by norm_num) _) h1
  have a1 : e ≤ Int.log 2 |x| :=
    (Int.zpow_le_iff_le_log (b := 2) (by norm_num) hpos).mp (by simpa using h1)
  have a2 : Int.log 2 |x| < e + 1 :=
    (Int.lt_zpow_iff_log_lt (b := 2) (by norm_num) hpos).mp (by simpa using h2)
  omega

theorem fl_eq_scaled (x : ℚ) (hx : x ≠ 0) :
    fl x = (roundHalfEven (x / 2 ^ (Int.log 2 |x| - 52)) : ℚ) * 2 ^ (Int.log 2 |x| - 52) := by
  simp only [fl, if_neg hx]

theorem fl_rel_error (x : ℚ) : |fl x - x| ≤ |x| / 2 ^ 53 := by
  by_cases hx : x = 0
  · simp [fl, hx]
  · obtain ⟨hlo, _⟩ := log_two_bounds x hx
    rw [fl_eq_scaled x hx]
    generalize Int.log 2 |x| = e at hlo
    have hu : (0 : ℚ) < 2 ^ (e - 52) := zpow_pos (by norm_num) _
    have hr := roundHalfEven_error (x / 2 ^ (e - 52))
    have hrw : (roundHalfEven (x / 2 ^ (e - 52)) : ℚ) * 2 ^ (e - 52) - x =
        ((roundHalfEven (x / 2 ^ (e - 52)) : ℚ) - x / 2 ^ (e - 52)) * 2 ^ (e - 52) := by
      field_simp
    rw [hrw, abs_mul, abs_of_pos hu]
    have hpow : (2 : ℚ) ^ (e - 52) = 2 ^ e / 2 ^ 52 := by
      rw [zpow_sub₀ (by norm_num)]
      norm_num
    calc |(roundHalfEven (x / 2 ^ (e - 52)) : ℚ) - x / 2 ^ (e - 52)| * 2 ^ (e - 52)
        ≤ 1 / 2 * 2 ^ (e - 52) := mul_le_mul_of_nonneg_right hr hu.le
      _ = 2 ^ e / 2 ^ 53 := by rw [hpow]; ring
      _ ≤ |x| / 2 ^ 53 := div_le_div_of_nonneg_right hlo (by positivity)

theorem fl_eq_of (x : ℚ) (e m : ℤ) (h1 : (2 : ℚ) ^ e ≤ |x|) (h2 : |x| < (2 : ℚ) ^ (e + 1))
    (hm : |x / 2 ^ (e - 52) - (m : ℚ)| < 1 / 2) : fl x = (m : ℚ) * 2 ^ (e - 52) := by
  have hx : x ≠ 0 := by
    intro h
    rw [h, abs_zero] at h1
    exact absurd h1 (not_le.mpr (zpow_pos (by norm_num) _))
  rw [fl_eq_scaled x hx, log_two_eq x e h1 h2, roundHalfEven_eq_of _ m hm]

theorem fl_zero : fl 0 = 0 := by simp [fl]

theorem roundHalfEven_intCast (z : ℤ) : roundHalfEven (z : ℚ) = z :=
  roundHalfEven_eq_of _ z (by simp)

theorem fl_eq_of_tie (x : ℚ) (e m : ℤ) (h1 : (2 : ℚ) ^ e ≤ |x|) (h2 : |x| < (2 : ℚ) ^ (e + 1))
    (hm : x / 2 ^ (e - 52) = (m : ℚ) + 1 / 2) :
    fl x = ((if m % 2 = 0 then m else m + 1 : ℤ) : ℚ) * 2 ^ (e - 52) := by
  have hx : x ≠ 0 := by
    intro h
    rw [h, abs_zero] at h1
    exact absurd h1 (not_le.mpr (zpow_pos (by norm_num) _))
  rw [fl_eq_scaled x hx, log_two_eq x e h1 h2, hm]
  have hf : ⌊(m : ℚ) + 1 / 2⌋ = m := by
    rw [Int.floor_eq_iff]
    constructor <;> linarith
  have hr : roundHalfEven ((m : ℚ) + 1 / 2) = if m % 2 = 0 then m else m + 1 := by
    unfold roundHalfEven
    simp only [hf]
    rw [if_neg (by norm_num), if_neg (by norm_num)]
  rw [hr]

theorem fl_of_scaled (n k : ℤ) (hn : |n| < 2 ^ 53) :
    fl ((n : ℚ) * 2 ^ k) = (n : ℚ) * 2 ^ k := by
  by_cases h0 : n = 0
  · simp [h0, fl_zero]
  · have h2k : (0 : ℚ) < 2 ^ k := zpow_pos (by norm_num) _
    have hx : (n : ℚ) * 2 ^ k ≠ 0 := mul_ne_zero (by exact_mod_cast h0) (ne_of_gt h2k)
    obtain ⟨hlo, _⟩ := log_two_bounds _ hx
    rw [fl_eq_scaled _ hx]
    generalize Int.log 2 |(n : ℚ) * 2 ^ k| = e at hlo
    have habs : |(n : ℚ) * 2 ^ k| = |(n : ℚ)| * 2 ^ k := by
      rw [abs_mul, abs_of_pos h2k]
    have hnq : |(n : ℚ)| < 2 ^ 53 := by
      have : ((|n| : ℤ) : ℚ) < ((2 ^ 53 : ℤ) : ℚ) := by exact_mod_cast hn
      simpa using this
    have hlt : (2 : ℚ) ^ e < 2 ^ (53 + k) := by
      calc (2 : ℚ) ^ e ≤ |(n : ℚ)| * 2 ^ k := by rw [← habs]; exact hlo
        _ < 2 ^ 53 * 2 ^ k := mul_lt_mul_of_pos_right hnq h2k
        _ = 2 ^ (53 + k) := by
          rw [zpow_add₀ (by norm_num)]
          norm_num
    have he : e < 53 + k := (zpow_lt_zpow_iff_right₀ (by norm_num)).mp hlt
    obtain ⟨j, hj⟩ : ∃ j : ℕ, k = (e - 52) + (j : ℤ) := ⟨(k - (e - 52)).toNat, by omega⟩
    have hsplit : (2 : ℚ) ^ k = 2 ^ (e - 52) * 2 ^ j := by
      rw [hj, zpow_add₀ (by norm_num), zpow_natCast]
    have hu : (0 : ℚ) < 2 ^ (e - 52) := zpow_pos (by norm_num) _
    have hy : (n : ℚ) * 2 ^ k / 2 ^ (e - 52) = ((n * 2 ^ j : ℤ) : ℚ) := by
      rw [hsplit]
      push_cast
      field_simp
      ring
    rw [hy, roundHalfEven_intCast, hsplit]
    push_cast
    ring

theorem fl_intCast (n : ℤ) (hn : |n| < 2 ^ 53) : fl (n : ℚ) = (n : ℚ) := by
  have := fl_of_scaled n 0 hn
  simpa using this

theorem fl_eq_zero_iff (x : ℚ) : fl x = 0 ↔ x = 0 := by
  constructor
  · intro h
    have he := fl_rel_error x
    rw [h, zero_sub, abs_neg] at he
    by_contra hx
    have hpos : 0 < |x| := abs_pos.mpr hx
    have : |x| / 2 ^ 53 < |x| := div_lt_self hpos (by norm_num)
    linarith
  · intro h
    rw [h, fl_zero]

theorem fl_lower (x : ℚ) (hx : 0 ≤ x) : x * (1 - 1 / 2 ^ 53) ≤ fl x := by
  have he := fl_rel_error x
  rw [abs_of_nonneg hx, abs_le] at he
  linarith [he.1]

theorem fl_upper (x : ℚ) (hx : 0 ≤ x) : fl x ≤ x * (1 + 1 / 2 ^ 53) := by
  have he := fl_rel_error x
  rw [abs_of_nonneg hx, abs_le] at he
  linarith [he.2]

theorem fl_nonneg (x : ℚ) (hx : 0 ≤ x) : 0 ≤ fl x :=
  le_trans (mul_nonneg hx (by norm_num)) (fl_lower x hx)

theorem fl_pos (x : ℚ) (hx : 0 < x) : 0 < fl x :=
  lt_of_lt_of_le (mul_pos hx (by norm_num)) (fl_lower x hx.le)

/-- The double product by 100 of the double of `x` is within a relative
`2 ^ -51` of `100 * x`. -/
theorem fl_hundred_bounds (x : ℚ) (hx : 0 ≤ x) :
    100 * x * (1 - 1 / 2 ^ 51) ≤ fl (fl x * 100) ∧
      fl (fl x * 100) ≤ 100 * x * (1 + 1 / 2 ^ 51) := by
  have h0 := fl_nonneg x hx
  have h1 := fl_lower x hx
  have h2 := fl_upper x hx
  have h3 := fl_lower (fl x * 100) (by positivity)
  have h4 := fl_upper (fl x * 100) (by positivity)
  constructor
  · nlinarith
  · nlinarith

theorem round_hundred_of_bounds (x : ℚ) (k : ℤ) (hx : 0 ≤ x)
    (h1 : (k : ℚ) - 1 / 2 ≤ 100 * x * (1 - 1 / 2 ^ 51))
    (h2 : 100 * x * (1 + 1 / 2 ^ 51) < (k : ℚ) + 1 / 2) :
    ⌊fl (fl x * 100) + 1 / 2⌋ = k := by
  obtain ⟨ha, hb⟩ := fl_hundred_bounds x hx
  rw [Int.floor_eq_iff]
  constructor <;> linarith

theorem fl_eq_of_pos (x : ℚ) (e m : ℤ) (h1 : (2 : ℚ) ^ e ≤ x) (h2 : x < (2 : ℚ) ^ (e + 1))
    (hm1 : (m : ℚ) - 1 / 2 < x / 2 ^ (e - 52)) (hm2 : x / 2 ^ (e - 52) < (m : ℚ) + 1 / 2) :
    fl x = (m : ℚ) * 2 ^ (e - 52) := by
  have hx : 0 < x := lt_of_lt_of_le (zpow_pos (by norm_num) _) h1
  refine fl_eq_of x e m ?_ ?_ ?_
  · rwa [abs_of_pos hx]
  · rwa [abs_of_pos hx]
  · rw [abs_lt]
    constructor <;> linarith

theorem fl_eq_of_tie_pos (x : ℚ) (e m : ℤ) (h1 : (2 : ℚ) ^ e ≤ x) (h2 : x < (2 : ℚ) ^ (e + 1))
    (hm : x / 2 ^ (e - 52) = (m : ℚ) + 1 / 2) :
    fl x = ((if m % 2 = 0 then m else m + 1 : ℤ) : ℚ) * 2 ^ (e - 52) := by
  have hx : 0 < x := lt_of_lt_of_le (zpow_pos (by norm_num) _) h1
  refine fl_eq_of_tie x e m ?_ ?_ hm
  · rwa [abs_of_pos hx]
  · rwa [abs_of_pos hx]

theorem roundHalfEven_le_of_lt (y : ℚ) (n : ℤ) (h : y < (n : ℚ)) : roundHalfEven y ≤ n := by
  have h1 : ((⌊y⌋ : ℤ) : ℚ) ≤ y := Int.floor_le y
  have h2 : ⌊y⌋ < n := by
    have : ((⌊y⌋ : ℤ) : ℚ) < (n : ℚ) := lt_of_le_of_lt h1 h
    exact_mod_cast this
  unfold roundHalfEven
  simp only
  split_ifs <;> omega

theorem fl_nonpos (x : ℚ) (hx : x ≤ 0) : fl x ≤ 0 := by
  have he := fl_rel_error x
  rw [abs_of_nonpos hx, abs_le] at he
  have : -x / 2 ^ 53 ≤ -x := div_le_self (by linarith) (by norm_num)
  linarith [he.2]

/-- The double of a number that is at most 1 is at most 1. -/
theorem fl_le_one (x : ℚ) (hx : x ≤ 1) : fl x ≤ 1 := by
  rcases le_or_lt x 0 with h0 | h0
  · exact le_trans (fl_nonpos x h0) (by norm_num)
  · rcases eq_or_lt_of_le hx with h1 | h1
    · rw [h1]
      have h := fl_intCast 1 (by norm_num)
      simp only [Int.cast_one] at h
      rw [h]
    · have hx0 : x ≠ 0 := ne_of_gt h0
      obtain ⟨_, hhi⟩ := log_two_bounds x hx0
      have hlog : Int.log 2 |x| < 0 := by
        have h2 : |x| < ((2 : ℕ) : ℚ) ^ (0 : ℤ) := by
          rw [abs_of_pos h0]
          simpa using h1
        exact (Int.lt_zpow_iff_log_lt (b := 2) (by norm_num) (abs_pos.mpr hx0)).mp h2
      rw [fl_eq_scaled x hx0]
      rw [abs_of_pos h0] at hhi hlog ⊢
      generalize Int.log 2 x = e at hhi hlog
      have hu : (0 : ℚ) < 2 ^ (e - 52) := zpow_pos (by norm_num) _
      have hsplit : (2 : ℚ) ^ (e + 1) = 2 ^ 53 * 2 ^ (e - 52) := by
        have : e + 1 = 53 + (e - 52) := by ring
        rw [this, zpow_add₀ (by norm_num)]
        norm_num
      have hy : x / 2 ^ (e - 52) < ((2 ^ 53 : ℤ) : ℚ) := by
        rw [div_lt_iff₀ hu]
        have h53 : (((2 ^ 53 : ℤ) : ℚ)) = 2 ^ 53 := by norm_num
        rw [h53, ← hsplit]
        exact hhi
      have hm := roundHalfEven_le_of_lt _ _ hy
      have hmq : (roundHalfEven (x / 2 ^ (e - 52)) : ℚ) ≤ 2 ^ 53 := by
        have : ((roundHalfEven (x / 2 ^ (e - 52)) : ℤ) : ℚ) ≤ ((2 ^ 53 : ℤ) : ℚ) := by
          exact_mod_cast hm
        simpa using this
      have hle : (2 : ℚ) ^ (e + 1) ≤ 1 := by
        have : (2 : ℚ) ^ (e + 1) ≤ 2 ^ (0 : ℤ) := zpow_le_zpow_right₀ (by norm_num) (by omega)
        simpa using this
      calc (roundHalfEven (x / 2 ^ (e - 52)) : ℚ) * 2 ^ (e - 52)
          ≤ 2 ^ 53 * 2 ^ (e - 52) := mul_le_mul_of_nonneg_right hmq hu.le
        _ = 2 ^ (e + 1) := hsplit.symm
        _ ≤ 1 := hle

/-- A value `x ≥ 0` whose hundredfold is within a relative `2 ^ -51` inside
`[k - 1/2, k + 1/2)` is rounded to `k / 100` by `round2`. -/
theorem round2_of_bounds (x : ℚ) (k : ℤ) (hx : 0 ≤ x)
    (h1 : (k : ℚ) - 1 / 2 ≤ 100 * x * (1 - 1 / 2 ^ 51))
    (h2 : 100 * x * (1 + 1 / 2 ^ 51) < (k : ℚ) + 1 / 2) :
    round2 x = (k : ℚ) / 100 := by
  rw [round2, round_hundred_of_bounds x k hx h1 h2]

/-- A whole number of hundredths below `2 ^ 50` is left as it is by `round2`. -/
theorem round2_hundredths (k : ℤ) (h0 : 0 ≤ k) (h1 : k < 2 ^ 50) :
    round2 ((k : ℚ) / 100) = (k : ℚ) / 100 := by
  have hk0 : (0 : ℚ) ≤ (k : ℚ) := by exact_mod_cast h0
  have hk1 : (k : ℚ) < 2 ^ 50 := by exact_mod_cast h1
  refine round2_of_bounds _ k (by positivity) ?_ ?_
  · have : 100 * ((k : ℚ) / 100) = k := by ring
    rw [mul_sub, mul_one, this]
    have : (k : ℚ) * (1 / 2 ^ 51) ≤ 1 / 2 := by
      have h2 : (k : ℚ) * (1 / 2 ^ 51) ≤ 2 ^ 50 * (1 / 2 ^ 51) :=
        mul_le_mul_of_nonneg_right hk1.le (by positivity)
      have h3 : (2 : ℚ) ^ 50 * (1 / 2 ^ 51) = 1 / 2 := by norm_num
      linarith
    linarith
  · have : 100 * ((k : ℚ) / 100) = k := by ring
    rw [mul_add, mul_one, this]
    have : (k : ℚ) * (1 / 2 ^ 51) < 1 / 2 := by
      have h2 : (k : ℚ) * (1 / 2 ^ 51) < 2 ^ 50 * (1 / 2 ^ 51) :=
        mul_lt_mul_of_pos_right hk1 (by positivity)
      have h3 : (2 : ℚ) ^ 50 * (1 / 2 ^ 51) = 1 / 2 := by norm_num
      linarith
    linarith

/-- Distinct whole numbers of hundredths have distinct doubles, in the same
order: writing a score `k / 100` for the double nearest to it keeps every
comparison of scores. -/
theorem fl_hundredths_lt (j k : ℤ) (h0 : 0 ≤ j) (hjk : j < k) (hk : k < 2 ^ 40) :
    fl ((j : ℚ) / 100) < fl ((k : ℚ) / 100) := by
  have hj0 : (0 : ℚ) ≤ (j : ℚ) := by exact_mod_cast h0
  have hjk1 : (j : ℚ) + 1 ≤ (k : ℚ) := by exact_mod_cast hjk
  have hkq : (k : ℚ) < 2 ^ 40 := by exact_mod_cast hk
  have h1 := fl_upper ((j : ℚ) / 100) (by positivity)
  have h2 := fl_lower ((k : ℚ) / 100) (by linarith)
  have hu : (k : ℚ) * (1 / 2 ^ 53) < 1 / 4 := by
    have : (k : ℚ) * (1 / 2 ^ 53) < 2 ^ 40 * (1 / 2 ^ 53) :=
      mul_lt_mul_of_pos_right hkq (by positivity)
    have h3 : (2 : ℚ) ^ 40 * (1 / 2 ^ 53) < 1 / 4 := by norm_num
    linarith
  have hu2 : (j : ℚ) * (1 / 2 ^ 53) < 1 / 4 := by
    have : (j : ℚ) * (1 / 2 ^ 53) ≤ (k : ℚ) * (1 / 2 ^ 53) :=
      mul_le_mul_of_nonneg_right (by linarith) (by positivity)
    linarith
  linarith

theorem fl_ten : fl 10 = 10 := by
  have h := fl_intCast 10 (by norm_num)
  simpa using h

theorem round2_ten : round2 10 = 10 := by
  rw [round2_of_bounds 10 1000 (by norm_num) (by norm_num) (by norm_num)]
  norm_num

/-- The score of 23 seconds over a net score of 40: the double quotient is just
below 0.575, its double product by 100 is 57.49999999999999, and the score is
0.57. -/
theorem round2_tie_below : round2 (23 / 40) = 57 / 100 := by
  have h1 : fl (23 / 40) = 2589569785738035 / 4503599627370496 := by
    rw [fl_eq_of_pos _ (-1) 5179139571476070 (by norm_num) (by norm_num) (by norm_num) (by norm_num)]
    norm_num
  have h2 : fl (2589569785738035 / 4503599627370496 * 100) = 8092405580431359 / 140737488355328 := by
    rw [fl_eq_of_pos _ (5) 8092405580431359 (by norm_num) (by norm_num) (by norm_num) (by norm_num)]
    norm_num
  rw [round2, h1, h2]
  norm_num

/-- The combined score of rank 2 at 100/3 seconds per problem: the double
quotient is just below 0.285, its double product by 100 is 28.499999999999996,
and the score is 0.28. -/
theorem combined_tie_below : round2 (combinedScore 2 (100 / 3)) = 28 / 100 := by
  have h1 : fl (100 / 3) = 4691249611844267 / 140737488355328 := by
    rw [fl_eq_of_pos _ (5) 4691249611844267 (by norm_num) (by norm_num) (by norm_num) (by norm_num)]
    norm_num
  have h0 : combinedScore 2 (100 / 3) = 70368744177664 / 246907874307593 := by
    simp only [combinedScore, jsOrNum, h1]
    norm_num
  have h2 : fl (70368744177664 / 246907874307593) = 5134103575202365 / 18014398509481984 := by
    rw [fl_eq_of_pos _ (-2) 5134103575202365 (by norm_num) (by norm_num) (by norm_num) (by norm_num)]
    norm_num
  have h3 : fl (5134103575202365 / 18014398509481984 * 100) = 8022036836253695 / 281474976710656 := by
    rw [fl_eq_of_pos _ (4) 8022036836253695 (by norm_num) (by norm_num) (by norm_num) (by norm_num)]
    norm_num
  rw [h0, round2, h2, h3]
  norm_num

theorem speedEntry_of_problems (s : Session) (ps : List ProblemRecord)
    (hps : s.problems = some ps) (hne : ps ≠ []) :
    speedEntry s = some
      { id := s.id, mode := s.mode, date := s.date, duration := s.duration,
        difficulty := s.difficulty, score := round2 (secondsPerProblem s),
        secondsPerProblem := secondsPerProblem s } := by
  have hlen : ps.length ≠ 0 := by
    intro h
    exact hne (List.length_eq_zero.mp h)
  simp [speedEntry, hps, hlen]

theorem insertionSort_singleton {α : Type} (r : α → α → Prop) [DecidableRel r] (a : α) :
    List.insertionSort r [a] = [a] := by
  simp [List.insertionSort]

/-- C1 (as stated, refuted): a session with correct=8, total=10, duration=60 and
an elapsed time of 58 seconds has net score 6, yet its `secondsPerProblem` on the
speed leaderboard is 58/6 = 29/3, not duration / netScore = 10. -/
theorem speed_elapsed_time_counterexample :
    elapsed58.problems = some [timedRecord 1000] ∧
    netScore elapsed58 = 6 ∧
    elapsed58.duration / netScore elapsed58 = 10 ∧
    (calculateSpeedLeaderboard [elapsed58]).map (fun e => e.secondsPerProblem) = [29 / 3] := by
  have hnet : netScore elapsed58 = 6 := by
    norm_num [netScore, elapsed58, sampleSession, jsOrNum]
  refine ⟨rfl, hnet, ?_, ?_⟩
  · rw [hnet]; norm_num [elapsed58, sampleSession]
  · have hspp : secondsPerProblem elapsed58 = 29 / 3 := by
      rw [secondsPerProblem, hnet]
      norm_num [sessionDuration, elapsed58, sampleSession, jsOrNum]
    have he := speedEntry_of_problems elapsed58 [timedRecord 1000] rfl (by simp)
    simp [calculateSpeedLeaderboard, speedSorted, List.filterMap, he, hspp]

/-- C1 (amended): for a session with at least one problem record and a positive
net score, the speed leaderboard computes `secondsPerProblem` as
`(s.time || s.duration) / netScore`: the elapsed time over the net score when the
elapsed time is present and non-zero, the configured duration over the net score
otherwise; the net score is `correct - (totalProblems - correct)`. -/
theorem speed_secondsPerProblem_spec (s : Session) (ps : List ProblemRecord)
    (hps : s.problems = some ps) (hne : ps ≠ []) (hnet : 0 < netScore s) :
    ∃ e, calculateSpeedLeaderboard [s] = [e] ∧
      (∀ c, s.score = some c → netScore s = c - (s.totalProblems - c)) ∧
      (∀ t, s.time = some t → t ≠ 0 → e.secondsPerProblem = t / netScore s) ∧
      (s.time = none ∨ s.time = some 0 → e.secondsPerProblem = s.duration / netScore s) := by
  have he := speedEntry_of_problems s ps hps hne
  refine ⟨{ id := s.id, mode := s.mode, date := s.date, duration := s.duration,
            difficulty := s.difficulty, score := round2 (secondsPerProblem s),
            secondsPerProblem := secondsPerProblem s }, ?_, ?_, ?_, ?_⟩
  · simp only [calculateSpeedLeaderboard, speedSorted, List.filterMap, he]
    rw [insertionSort_singleton]
    rfl
  · intro c hc
    by_cases h0 : c = 0 <;> simp [netScore, jsOrNum, hc, h0]
  · intro t ht ht0
    simp [secondsPerProblem, hnet, sessionDuration, jsOrNum, ht, ht0]
  · intro h
    rcases h with h | h <;> simp [secondsPerProblem, hnet, sessionDuration, jsOrNum, h]

/-- C1 (amended), at a concrete session: with no recorded elapsed time,
correct=8, total=10 and duration=60 give 60/6. -/
theorem speed_secondsPerProblem_spec_witness :
    ∃ e, calculateSpeedLeaderboard [sampleSession "b" none 8 10 60 [1000]] = [e] ∧
      (∀ c, (sampleSession "b" none 8 10 60 [1000]).score = some c →
        netScore (sampleSession "b" none 8 10 60 [1000]) =
          c - ((sampleSession "b" none 8 10 60 [1000]).totalProblems - c)) ∧
      (∀ t, (sampleSession "b" none 8 10 60 [1000]).time = some t → t ≠ 0 →
        e.secondsPerProblem = t / netScore (sampleSession "b" none 8 10 60 [1000])) ∧
      ((sampleSession "b" none 8 10 60 [1000]).time = none ∨
          (sampleSession "b" none 8 10 60 [1000]).time = some 0 →
        e.secondsPerProblem =
          (sampleSession "b" none 8 10 60 [1000]).duration /
            netScore (sampleSession "b" none 8 10 60 [1000])) :=
  speed_secondsPerProblem_spec (sampleSession "b" none 8 10 60 [1000]) [timedRecord 1000]
    rfl (by simp) (by norm_num [netScore, sampleSession, jsOrNum])

/-! ### Evaluation of the sample sessions -/

theorem speedEntry_sample (id : String) (time : Option ℚ) (score total duration : ℚ)
    (t : ℚ) (ts : List ℚ) :
    speedEntry (sampleSession id time score total duration (t :: ts)) = some
      { id := id, mode := "Addition", date := 0, duration := duration, difficulty := none,
        score := round2 (secondsPerProblem (sampleSession id time score total duration (t :: ts))),
        secondsPerProblem :=
          secondsPerProblem (sampleSession id time score total duration (t :: ts)) } := by
  simp [speedEntry, sampleSession]

theorem percentileEntry_sample_single (id : String) (time : Option ℚ)
    (score total duration : ℚ) (t : ℚ) (ht : t ≠ 0) :
    percentileEntry (sampleSession id time score total duration [t]) = some
      { id := id, mode := "Addition", date := 0, duration := duration, difficulty := none,
        score := t, percentileTime := t } := by
  simp [percentileEntry, sampleSession, timedRecord, percentileTime, jsOrOpt, ht,
    List.insertionSort, List.filterMap]

/-- C2 (the code at the failing input): of eleven timed records, ten took 0 ms
and one 5000 ms. Sorted ascending, the element at index
min(floor(0.9 * 11), 10) = 9 is 0, yet `percentileTime` is 5000: the `||` of
line 1631 treats the 0 it read as missing and falls back to the last element. -/
theorem percentile_zero_time_divergence :
    zeroTimes.length = 11 ∧
    (zeroTimes.insertionSort (fun a b => a ≤ b))[min (11 * 9 / 10) (11 - 1)]? = some 0 ∧
    percentileTime zeroTimes = some 5000 ∧
    (calculatePercentileLeaderboard [sampleSession "z" (some 60) 11 11 60 zeroTimes]).map
      (fun e => e.percentileTime) = [5000] := by
  have h1 : zeroTimes.insertionSort (fun a b => a ≤ b) =
      [0, 0, 0, 0, 0, 0, 0, 0, 0, 0, 5000] := by
    norm_num [zeroTimes, List.insertionSort, List.orderedInsert]
  have h2 : percentileTime zeroTimes = some 5000 := by
    simp only [percentileTime, h1]
    norm_num [jsOrOpt]
  refine ⟨rfl, ?_, h2, ?_⟩
  · rw [h1]; rfl
  · have h3 : percentileEntry (sampleSession "z" (some 60) 11 11 60 zeroTimes) = some
        { id := "z", mode := "Addition", date := 0, duration := 60, difficulty := none,
          score := 5000, percentileTime := 5000 } := by
      have h4 : List.filterMap (fun p => p.timeTaken) (zeroTimes.map timedRecord) =
          zeroTimes := by
        simp [zeroTimes, timedRecord, List.filterMap]
      simp only [percentileEntry, sampleSession, h4, h2]
      simp [zeroTimes]
    simp only [calculatePercentileLeaderboard, percentileSorted, List.filterMap, h3]
    simp [List.insertionSort]

/-! ### Sorting by a rational key -/

theorem sorted_insertionSort_asc {α : Type} (f : α → ℚ) (l : List α) :
    (l.insertionSort (fun a b => f a ≤ f b)).Sorted (fun a b => f a ≤ f b) := by
  haveI : IsTotal α (fun a b => f a ≤ f b) := ⟨fun a b => le_total (f a) (f b)⟩
  haveI : IsTrans α (fun a b => f a ≤ f b) := ⟨fun _ _ _ h1 h2 => le_trans h1 h2⟩
  exact List.sorted_insertionSort (fun a b => f a ≤ f b) l

theorem sorted_insertionSort_desc {α : Type} (f : α → ℚ) (l : List α) :
    (l.insertionSort (fun a b => f b ≤ f a)).Sorted (fun a b => f b ≤ f a) := by
  haveI : IsTotal α (fun a b => f b ≤ f a) := ⟨fun a b => le_total (f b) (f a)⟩
  haveI : IsTrans α (fun a b => f b ≤ f a) := ⟨fun _ _ _ h1 h2 => le_trans h2 h1⟩
  exact List.sorted_insertionSort (fun a b => f b ≤ f a) l

theorem speedEntry_score (s : Session) (e : SpeedEntry) (h : speedEntry s = some e) :
    e.score = round2 e.secondsPerProblem ∧ e.secondsPerProblem = secondsPerProblem s ∧
      e.id = s.id := by
  unfold speedEntry at h
  split at h
  · exact absurd h (by simp)
  · split at h
    · exact absurd h (by simp)
    · cases h
      exact ⟨rfl, rfl, rfl⟩

theorem mem_speedSorted {scores : List Session} {e : SpeedEntry} :
    e ∈ speedSorted scores ↔ ∃ s ∈ scores, speedEntry s = some e := by
  unfold speedSorted
  rw [List.mem_insertionSort, List.mem_filterMap]

theorem mem_speedLeaderboard {scores : List Session} {e : SpeedEntry}
    (h : e ∈ calculateSpeedLeaderboard scores) : ∃ s ∈ scores, speedEntry s = some e :=
  mem_speedSorted.mp (List.mem_of_mem_take h)

theorem speedLeaderboard_sorted (scores : List Session) :
    (calculateSpeedLeaderboard scores).Pairwise (fun a b => a.score ≤ b.score) :=
  (sorted_insertionSort_asc (fun e : SpeedEntry => e.score) _).sublist (List.take_sublist _ _)

theorem speedLeaderboard_length (scores : List Session) :
    (calculateSpeedLeaderboard scores).length ≤ 10 := by
  unfold calculateSpeedLeaderboard
  rw [List.length_take]
  exact Nat.min_le_left _ _

/-! ### C5 and C6: order of the speed leaderboard -/

/-- C5 (as stated, refuted): sessions `a` and `b` have 60/11 and 109/20 seconds
per problem; both round to 5.45, so the sort keeps the input order and `a`,
whose `secondsPerProblem` is strictly larger, is listed before `b`. -/
theorem speed_order_counterexample :
    (calculateSpeedLeaderboard roundingTie).map (fun e => (e.id, e.secondsPerProblem)) =
      [("a", 60 / 11), ("b", 109 / 20)] ∧ (109 / 20 : ℚ) < 60 / 11 := by
  constructor
  · have ha := speedEntry_sample "a" (some 60) 11 11 60 1000 []
    have hb := speedEntry_sample "b" (some 109) 20 20 120 1000 []
    have hsa : secondsPerProblem (sampleSession "a" (some 60) 11 11 60 [1000]) = 60 / 11 := by
      norm_num [secondsPerProblem, netScore, sessionDuration, jsOrNum, sampleSession]
    have hsb : secondsPerProblem (sampleSession "b" (some 109) 20 20 120 [1000]) =
        109 / 20 := by
      norm_num [secondsPerProblem, netScore, sessionDuration, jsOrNum, sampleSession]
    have hra : round2 (60 / 11) = 109 / 20 := by
      rw [round2_of_bounds (60 / 11) 545 (by norm_num) (by norm_num) (by norm_num)]
      norm_num
    have hrb : round2 (109 / 20) = 109 / 20 := by
      rw [round2_of_bounds (109 / 20) 545 (by norm_num) (by norm_num) (by norm_num)]
      norm_num
    rw [hsa, hra] at ha
    rw [hsb, hrb] at hb
    simp only [calculateSpeedLeaderboard, speedSorted, roundingTie, List.filterMap, ha, hb]
    norm_num [List.insertionSort, List.orderedInsert]
  · norm_num

/-- C5 (amended): `calculateSpeedLeaderboard` returns at most 10 entries, listed
in ascending order of `score`, the `secondsPerProblem` rounded to two decimals
(`Math.round` of the double product by 100, over 100),
and they are the best ones by that score: the entries of the sessions with
answered problems split into the listed ones and a remainder, and no entry of
the remainder has a strictly smaller score than a listed one. -/
theorem speed_leaderboard_top10 (scores : List Session) :
    (calculateSpeedLeaderboard scores).length ≤ 10 ∧
    (∀ e ∈ calculateSpeedLeaderboard scores, e.score = round2 e.secondsPerProblem) ∧
    (calculateSpeedLeaderboard scores).Pairwise (fun a b => a.score ≤ b.score) ∧
    ∃ rest : List SpeedEntry,
      (calculateSpeedLeaderboard scores ++ rest).Perm (scores.filterMap speedEntry) ∧
      ∀ a ∈ calculateSpeedLeaderboard scores, ∀ b ∈ rest, a.score ≤ b.score := by
  refine ⟨speedLeaderboard_length scores, ?_, speedLeaderboard_sorted scores,
    (speedSorted scores).drop 10, ?_, ?_⟩
  · intro e he
    obtain ⟨s, _, hs⟩ := mem_speedLeaderboard he
    exact (speedEntry_score s e hs).1
  · unfold calculateSpeedLeaderboard
    rw [List.take_append_drop]
    exact List.perm_insertionSort _ _
  · intro a ha b hb
    exact (sorted_insertionSort_asc (fun e : SpeedEntry => e.score) _).rel_of_mem_take_of_mem_drop
      ha hb

theorem round2_sentinel : round2 (99999 / 100) = 99999 / 100 := by
  rw [round2_of_bounds (99999 / 100) 99999 (by norm_num) (by norm_num) (by norm_num)]
  norm_num

/-- C6 (as stated, refuted): session `z` has net score 0 and session `p` net
score 1 (3600 seconds for one net answer); `z` gets the sentinel 999.99 and is
ranked ahead of `p`, whose score is 3600. -/
theorem speed_sentinel_counterexample :
    netScore (sampleSession "z" (some 60) 5 10 60 [1000]) = 0 ∧
    netScore (sampleSession "p" (some 3600) 1 1 3600 [1000]) = 1 ∧
    (calculateSpeedLeaderboard sentinelFirst).map (fun e => (e.id, e.score)) =
      [("z", 99999 / 100), ("p", 3600)] := by
  refine ⟨?_, ?_, ?_⟩
  · norm_num [netScore, sampleSession, jsOrNum]
  · norm_num [netScore, sampleSession, jsOrNum]
  · have hz := speedEntry_sample "z" (some 60) 5 10 60 1000 []
    have hp := speedEntry_sample "p" (some 3600) 1 1 3600 1000 []
    have hsz : secondsPerProblem (sampleSession "z" (some 60) 5 10 60 [1000]) =
        99999 / 100 := by
      norm_num [secondsPerProblem, netScore, sessionDuration, jsOrNum, sampleSession]
    have hsp : secondsPerProblem (sampleSession "p" (some 3600) 1 1 3600 [1000]) = 3600 := by
      norm_num [secondsPerProblem, netScore, sessionDuration, jsOrNum, sampleSession]
    have hrp : round2 3600 = 3600 := by
      rw [round2_of_bounds 3600 360000 (by norm_num) (by norm_num) (by norm_num)]
      norm_num
    rw [hsz, round2_sentinel] at hz
    rw [hsp, hrp] at hp
    simp only [calculateSpeedLeaderboard, speedSorted, sentinelFirst, List.filterMap, hz, hp]
    norm_num [List.insertionSort, List.orderedInsert]

/-- C6 (amended): a session whose net score is zero or negative gets the score
999.99 and never ranks ahead of a session whose net score is positive and whose
score (rounded seconds per problem) is below 999.99: if both are listed, at
positions `i` and `j`, then `j < i`. -/
theorem speed_sentinel_rank (scores : List Session) (s t : Session) (es et : SpeedEntry)
    (hs : speedEntry s = some es) (ht : speedEntry t = some et)
    (hsn : netScore s ≤ 0) (htn : 0 < netScore t) (hlt : et.score < 99999 / 100)
    (i j : ℕ) (hi : (calculateSpeedLeaderboard scores)[i]? = some es)
    (hj : (calculateSpeedLeaderboard scores)[j]? = some et) :
    es.score = 99999 / 100 ∧ et.secondsPerProblem = sessionDuration t / netScore t ∧ j < i := by
  have hes : es.score = 99999 / 100 := by
    obtain ⟨h1, h2, _⟩ := speedEntry_score s es hs
    rw [h1, h2, secondsPerProblem, if_neg (not_lt.mpr hsn), round2_sentinel]
  have het : et.secondsPerProblem = sessionDuration t / netScore t := by
    rw [(speedEntry_score t et ht).2.1, secondsPerProblem, if_pos htn]
  refine ⟨hes, het, ?_⟩
  by_contra hji
  have hij : i ≤ j := Nat.le_of_not_lt hji
  obtain ⟨hi', hie⟩ := List.getElem?_eq_some.mp hi
  obtain ⟨hj', hje⟩ := List.getElem?_eq_some.mp hj
  rcases Nat.eq_or_lt_of_le hij with heq | hlt'
  · subst heq
    have : es = et := by rw [← hie, ← hje]
    rw [this] at hes
    rw [hes] at hlt
    exact lt_irrefl _ hlt
  · have hp := List.pairwise_iff_getElem.mp (speedLeaderboard_sorted scores) i j hi' hj' hlt'
    rw [hie, hje, hes] at hp
    exact absurd hlt (not_lt.mpr hp)

/-- C6 (amended), at a concrete input: the sentinel session `z` comes first in
the input and is listed second, after session `q`. -/
theorem speed_sentinel_rank_witness :
    (calculateSpeedLeaderboard sentinelLast).map (fun e => (e.id, e.score)) =
      [("q", 10), ("z", 99999 / 100)] ∧
    ((99999 / 100 : ℚ) = 99999 / 100 ∧
      (10 : ℚ) = sessionDuration (sampleSession "q" (some 60) 8 10 60 [1000]) /
        netScore (sampleSession "q" (some 60) 8 10 60 [1000]) ∧
      0 < 1) := by
  have hz := speedEntry_sample "z" (some 60) 5 10 60 1000 []
  have hq := speedEntry_sample "q" (some 60) 8 10 60 1000 []
  have hnz : netScore (sampleSession "z" (some 60) 5 10 60 [1000]) = 0 := by
    norm_num [netScore, sampleSession, jsOrNum]
  have hnq : netScore (sampleSession "q" (some 60) 8 10 60 [1000]) = 6 := by
    norm_num [netScore, sampleSession, jsOrNum]
  have hsz : secondsPerProblem (sampleSession "z" (some 60) 5 10 60 [1000]) = 99999 / 100 := by
    rw [secondsPerProblem, hnz]; norm_num
  have hsq : secondsPerProblem (sampleSession "q" (some 60) 8 10 60 [1000]) = 10 := by
    rw [secondsPerProblem, hnq]; norm_num [sessionDuration, sampleSession, jsOrNum]
  have hr2 : round2 10 = 10 := round2_ten
  rw [hsz, round2_sentinel] at hz
  rw [hsq, hr2] at hq
  have hl : calculateSpeedLeaderboard sentinelLast =
      [{ id := "q", mode := "Addition", date := 0, duration := 60, difficulty := none,
         score := 10, secondsPerProblem := 10 },
       { id := "z", mode := "Addition", date := 0, duration := 60, difficulty := none,
         score := 99999 / 100, secondsPerProblem := 99999 / 100 }] := by
    simp only [calculateSpeedLeaderboard, speedSorted, sentinelLast, List.filterMap, hz, hq]
    norm_num [List.insertionSort, List.orderedInsert]
  refine ⟨by rw [hl]; rfl, ?_⟩
  exact speed_sentinel_rank sentinelLast _ _ _ _ hz hq (le_of_eq hnz) (by rw [hnq]; norm_num)
    (by norm_num) 1 0 (by rw [hl]; rfl) (by rw [hl]; rfl)

/-! ### C3 and C4: the combined leaderboard -/

theorem percentileEntry_id (s : Session) (e : PercentileEntry)
    (h : percentileEntry s = some e) : e.id = s.id := by
  unfold percentileEntry at h
  split at h
  · exact absurd h (by simp)
  · split at h
    · exact absurd h (by simp)
    · simp only at h
      split at h
      · exact absurd h (by simp)
      · split at h
        · exact absurd h (by simp)
        · cases h
          rfl

theorem filterMap_percentileEntry_ids_sublist (scores : List Session) :
    ((scores.filterMap percentileEntry).map (fun e => e.id)).Sublist
      (scores.map (fun s => s.id)) := by
  induction scores with
  | nil => simp
  | cons s rest ih =>
    cases h : percentileEntry s with
    | none =>
      rw [List.filterMap_cons_none h]
      exact ih.trans (List.sublist_cons_self _ _)
    | some e =>
      rw [List.filterMap_cons_some h, List.map_cons, List.map_cons,
        percentileEntry_id s e h]
      exact ih.cons₂ _

theorem percentileLeaderboard_ids_nodup (scores : List Session)
    (hid : (scores.map (fun s => s.id)).Nodup) :
    ((calculatePercentileLeaderboard scores).map (fun e => e.id)).Nodup := by
  have h1 : ((scores.filterMap percentileEntry).map (fun e => e.id)).Nodup :=
    hid.sublist (filterMap_percentileEntry_ids_sublist scores)
  have h2 : ((percentileSorted scores).map (fun e => e.id)).Nodup :=
    ((List.perm_insertionSort _ _).map _).nodup_iff.mpr h1
  exact h2.sublist ((List.take_sublist _ _).map _)

theorem percentileRanks_lookup (l : List PercentileEntry) (idx : ℕ)
    (m : String → Option ℕ) (k : String) (hnd : (l.map (fun e => e.id)).Nodup) :
    percentileRanks l idx m k =
      if k ∈ l.map (fun e => e.id) then some (idx + (l.map (fun e => e.id)).indexOf k + 1)
      else m k := by
  induction l generalizing idx m with
  | nil => simp [percentileRanks]
  | cons x xs ih =>
    rw [List.map_cons, List.nodup_cons] at hnd
    rw [percentileRanks, ih _ _ hnd.2]
    by_cases hk : k = x.id
    · subst hk
      simp [hnd.1]
    · have hk' : x.id ≠ k := fun h => hk h.symm
      by_cases hmem : k ∈ xs.map (fun e => e.id)
      · rw [if_pos hmem, List.map_cons, if_pos (List.mem_cons_of_mem _ hmem),
          List.indexOf_cons_ne _ hk']
        congr 1
        omega
      · rw [if_neg hmem, if_neg hk, List.map_cons, if_neg]
        simp [hk, hmem]

theorem combinedLeaderboard_eq (scores : List Session) :
    calculateCombinedLeaderboard scores =
      ((calculateSpeedLeaderboard scores).map
        (combinedEntry (percentileRanks (calculatePercentileLeaderboard scores) 0
          (fun _ => none)))).insertionSort (fun a b => b.score ≤ a.score) := by
  unfold calculateCombinedLeaderboard
  apply List.take_of_length_le
  rw [List.length_insertionSort, List.length_map]
  exact speedLeaderboard_length scores

theorem mem_combinedLeaderboard {scores : List Session} {e : CombinedEntry}
    (h : e ∈ calculateCombinedLeaderboard scores) :
    ∃ s ∈ calculateSpeedLeaderboard scores,
      combinedEntry (percentileRanks (calculatePercentileLeaderboard scores) 0
        (fun _ => none)) s = e := by
  rw [combinedLeaderboard_eq, List.mem_insertionSort] at h
  exact List.mem_map.mp h

theorem rankOrDefault_lookup (l : List PercentileEntry) (k : String)
    (hnd : (l.map (fun e => e.id)).Nodup) :
    rankOrDefault (percentileRanks l 0 (fun _ => none) k) =
      specPercentileRank (l.map (fun e => e.id)) k := by
  rw [percentileRanks_lookup l 0 _ k hnd, specPercentileRank]
  by_cases hmem : k ∈ l.map (fun e => e.id)
  · rw [if_pos hmem, if_pos (List.indexOf_lt_length.mpr hmem)]
    simp [rankOrDefault]
  · rw [if_neg hmem, if_neg]
    · rfl
    · intro hlt
      exact hmem (List.indexOf_lt_length.mp hlt)

/-- C3 (as stated, refuted): among eleven sessions, `k` has answered problems,
percentile rank 1 and 61/6 seconds per problem, so its combined score
(11 - (1 + 1)/2) / (61/6) = 60/61 is strictly higher than the 0.95 of the best
listed session; yet `k` is not on the combined leaderboard, because that board
is built from the ten entries of the speed leaderboard. -/
theorem combined_top10_counterexample :
    sampleSession "k" (some 61) 8 10 60 [100] ∈ elevenSessions ∧
    secondsPerProblem (sampleSession "k" (some 61) 8 10 60 [100]) = 61 / 6 ∧
    (calculatePercentileLeaderboard elevenSessions).map (fun e => e.id) =
      ["k", "s1", "s2", "s3", "s4", "s5", "s6", "s7", "s8", "s9"] ∧
    (calculateCombinedLeaderboard elevenSessions).map
        (fun e => (e.id, e.percentileRank, e.secondsPerProblem, e.score)) =
      [("s1", 2, 10, 19 / 20), ("s2", 3, 10, 9 / 10), ("s3", 4, 10, 17 / 20),
       ("s4", 5, 10, 4 / 5), ("s5", 6, 10, 3 / 4), ("s6", 7, 10, 7 / 10),
       ("s7", 8, 10, 13 / 20), ("s8", 9, 10, 3 / 5), ("s9", 10, 10, 11 / 20),
       ("s10", 11, 10, 1 / 2)] ∧
    (19 / 20 : ℚ) < (11 - ((1 : ℚ) + 1) / 2) / (61 / 6) := by
  have hp : calculatePercentileLeaderboard elevenSessions =
      [⟨"k", "Addition", 0, 60, none, 100, 100⟩, ⟨"s1", "Addition", 0, 60, none, 1000, 1000⟩,
       ⟨"s2", "Addition", 0, 60, none, 1000, 1000⟩, ⟨"s3", "Addition", 0, 60, none, 1000, 1000⟩,
       ⟨"s4", "Addition", 0, 60, none, 1000, 1000⟩, ⟨"s5", "Addition", 0, 60, none, 1000, 1000⟩,
       ⟨"s6", "Addition", 0, 60, none, 1000, 1000⟩, ⟨"s7", "Addition", 0, 60, none, 1000, 1000⟩,
       ⟨"s8", "Addition", 0, 60, none, 1000, 1000⟩,
       ⟨"s9", "Addition", 0, 60, none, 1000, 1000⟩] := by
    have h1 : ∀ id time, percentileEntry (sampleSession id time 8 10 60 [1000]) =
        some ⟨id, "Addition", 0, 60, none, 1000, 1000⟩ := fun id time =>
      percentileEntry_sample_single id time 8 10 60 1000 (by norm_num)
    have h2 : percentileEntry (sampleSession "k" (some 61) 8 10 60 [100]) =
        some ⟨"k", "Addition", 0, 60, none, 100, 100⟩ :=
      percentileEntry_sample_single "k" (some 61) 8 10 60 100 (by norm_num)
    simp only [calculatePercentileLeaderboard, percentileSorted, elevenSessions,
      List.filterMap, h1, h2]
    norm_num [List.insertionSort, List.orderedInsert]
  have hs : calculateSpeedLeaderboard elevenSessions =
      [⟨"s1", "Addition", 0, 60, none, 10, 10⟩, ⟨"s2", "Addition", 0, 60, none, 10, 10⟩,
       ⟨"s3", "Addition", 0, 60, none, 10, 10⟩, ⟨"s4", "Addition", 0, 60, none, 10, 10⟩,
       ⟨"s5", "Addition", 0, 60, none, 10, 10⟩, ⟨"s6", "Addition", 0, 60, none, 10, 10⟩,
       ⟨"s7", "Addition", 0, 60, none, 10, 10⟩, ⟨"s8", "Addition", 0, 60, none, 10, 10⟩,
       ⟨"s9", "Addition", 0, 60, none, 10, 10⟩, ⟨"s10", "Addition", 0, 60, none, 10, 10⟩] := by
    have hk : round2 (61 / 6) = 1017 / 100 :=
      round2_of_bounds (61 / 6) 1017 (by norm_num) (by norm_num) (by norm_num)
    simp only [calculateSpeedLeaderboard, speedSorted, elevenSessions, List.filterMap,
      speedEntry_sample]
    norm_num [secondsPerProblem, netScore, sessionDuration, jsOrNum, sampleSession, round2_ten,
      hk, List.insertionSort, List.orderedInsert]
  have hr : ∀ k : ℤ, 0 ≤ k → k < 2 ^ 50 → round2 ((k : ℚ) / 100) = (k : ℚ) / 100 :=
    round2_hundredths
  have h95 : round2 (19 / 20) = 19 / 20 := by have h := hr 95 (by norm_num) (by norm_num); norm_num at h; exact h
  have h90 : round2 (9 / 10) = 9 / 10 := by have h := hr 90 (by norm_num) (by norm_num); norm_num at h; exact h
  have h85 : round2 (17 / 20) = 17 / 20 := by have h := hr 85 (by norm_num) (by norm_num); norm_num at h; exact h
  have h80 : round2 (4 / 5) = 4 / 5 := by have h := hr 80 (by norm_num) (by norm_num); norm_num at h; exact h
  have h75 : round2 (3 / 4) = 3 / 4 := by have h := hr 75 (by norm_num) (by norm_num); norm_num at h; exact h
  have h70 : round2 (7 / 10) = 7 / 10 := by have h := hr 70 (by norm_num) (by norm_num); norm_num at h; exact h
  have h65 : round2 (13 / 20) = 13 / 20 := by have h := hr 65 (by norm_num) (by norm_num); norm_num at h; exact h
  have h60 : round2 (3 / 5) = 3 / 5 := by have h := hr 60 (by norm_num) (by norm_num); norm_num at h; exact h
  have h55 : round2 (11 / 20) = 11 / 20 := by have h := hr 55 (by norm_num) (by norm_num); norm_num at h; exact h
  have h50 : round2 (1 / 2) = 1 / 2 := by have h := hr 50 (by norm_num) (by norm_num); norm_num at h; exact h
  refine ⟨by simp [elevenSessions], ?_, by rw [hp]; rfl, ?_, by norm_num⟩
  · norm_num [secondsPerProblem, netScore, sessionDuration, jsOrNum, sampleSession]
  · rw [combinedLeaderboard_eq, hp, hs]
    simp only [List.map, combinedEntry, percentileRanks]
    simp only [String.reduceEq, if_true, if_false, reduceIte, rankOrDefault]
    norm_num [combinedScore, jsOrNum, fl_ten, h95, h90, h85, h80, h75, h70, h65, h60, h55, h50,
      List.insertionSort, List.orderedInsert]

/-- C3 (amended): `calculateCombinedLeaderboard` re-ranks the entries of the
speed leaderboard (at most 10, chosen by rounded seconds per problem): it lists
exactly those sessions, each with `score` the combined score
(11 - (percentileRank + 1)/2) / (secondsPerProblem || 1), computed in doubles
(the divisor is the double `fl` of the seconds per problem) and rounded to two
decimals by `Math.round(x * 100) / 100`, in descending order of that score. -/
theorem combined_leaderboard_reranks_speed (scores : List Session) :
    (calculateCombinedLeaderboard scores).length ≤ 10 ∧
    ((calculateCombinedLeaderboard scores).map (fun e => (e.id, e.secondsPerProblem))).Perm
      ((calculateSpeedLeaderboard scores).map (fun e => (e.id, e.secondsPerProblem))) ∧
    (∀ e ∈ calculateCombinedLeaderboard scores,
      e.score = round2 ((11 - ((e.percentileRank : ℚ) + 1) / 2) /
        (if e.secondsPerProblem ≠ 0 then fl e.secondsPerProblem else 1))) ∧
    (calculateCombinedLeaderboard scores).Pairwise (fun a b => b.score ≤ a.score) := by
  refine ⟨?_, ?_, ?_, ?_⟩
  · rw [combinedLeaderboard_eq, List.length_insertionSort, List.length_map]
    exact speedLeaderboard_length scores
  · rw [combinedLeaderboard_eq]
    refine ((List.perm_insertionSort _ _).map _).trans ?_
    rw [List.map_map]
    exact List.Perm.of_eq (List.map_congr_left (fun s _ => rfl))
  · intro e he
    obtain ⟨s, _, rfl⟩ := mem_combinedLeaderboard he
    simp [combinedEntry, combinedScore, jsOrNum, fl_eq_zero_iff]
  · rw [combinedLeaderboard_eq]
    exact sorted_insertionSort_desc (fun e : CombinedEntry => e.score) _

/-- The two-decimal score is within half a hundredth, and a relative
`2 ^ -51`, of the value it rounds. -/
theorem round2_near (x : ℚ) (hx : 0 ≤ x) : |round2 x - x| ≤ 1 / 200 + x / 2 ^ 51 := by
  obtain ⟨ha, hb⟩ := fl_hundred_bounds x hx
  have h1 : ((⌊fl (fl x * 100) + 1 / 2⌋ : ℤ) : ℚ) ≤ fl (fl x * 100) + 1 / 2 := Int.floor_le _
  have h2 : fl (fl x * 100) + 1 / 2 < ((⌊fl (fl x * 100) + 1 / 2⌋ : ℤ) : ℚ) + 1 :=
    Int.lt_floor_add_one _
  rw [round2, abs_le]
  constructor <;> linarith

/-- Dividing by the double of `s` instead of `s` moves a quotient by a relative
`2 ^ -53` at most. -/
theorem div_fl_near (a s : ℚ) (ha : 0 ≤ a) (hs : 0 < s) :
    0 ≤ a / fl s ∧ a / fl s ≤ 2 * (a / s) ∧ |a / fl s - a / s| ≤ a / fl s / 2 ^ 53 := by
  have hd := fl_pos s hs
  have hlo := fl_lower s hs.le
  have hhi := fl_upper s hs.le
  have hq : 0 ≤ a / fl s := div_nonneg ha hd.le
  refine ⟨hq, ?_, ?_⟩
  · have hhalf : s / 2 ≤ fl s := by nlinarith
    have h1 : a / fl s ≤ a / (s / 2) := div_le_div_of_nonneg_left ha (by positivity) hhalf
    have h2 : a / (s / 2) = 2 * (a / s) := by
      field_simp
      ring
    linarith
  · have hrw : a / fl s - a / s = a / fl s * ((s - fl s) / s) := by
      field_simp
      ring
    have hrel : |(s - fl s) / s| ≤ 1 / 2 ^ 53 := by
      rw [abs_div, abs_of_pos hs, div_le_iff₀ hs, abs_le]
      constructor <;> nlinarith
    rw [hrw, abs_mul, abs_of_nonneg hq]
    calc a / fl s * |(s - fl s) / s| ≤ a / fl s * (1 / 2 ^ 53) :=
          mul_le_mul_of_nonneg_left hrel hq
      _ = a / fl s / 2 ^ 53 := by ring

theorem specPercentileRank_le (ids : List String) (id : String) (h : ids.length ≤ 10) :
    specPercentileRank ids id ≤ 11 := by
  unfold specPercentileRank
  split_ifs with hlt
  · omega
  · exact le_refl _

/-- C4 (as stated, refuted): session `a` has 100/3 seconds per problem and
percentile rank 2, so its combined score is (11 - 3/2) / (100/3) = 0.285, which
rounds half up to 0.29; the score listed is 0.28, because the double quotient
is just below 0.285 and its double product by 100 is 28.499999999999996. -/
theorem combined_score_tie_counterexample :
    (tieSessions.map (fun s => s.id)).Nodup ∧
    (calculateCombinedLeaderboard tieSessions).map
        (fun e => (e.id, e.percentileRank, e.secondsPerProblem, e.score)) =
      [("b", 1, 10, 1), ("a", 2, 100 / 3, 7 / 25)] ∧
    (11 - (((2 : ℕ) : ℚ) + 1) / 2) / (100 / 3) = 57 / 200 ∧
    ((⌊(11 - (((2 : ℕ) : ℚ) + 1) / 2) / (100 / 3) * 100 + 1 / 2⌋ : ℤ) : ℚ) / 100 = 29 / 100 := by
  have hp : calculatePercentileLeaderboard tieSessions =
      [⟨"b", "Addition", 0, 60, none, 100, 100⟩,
       ⟨"a", "Addition", 0, 100, none, 1000, 1000⟩] := by
    have h1 : percentileEntry (sampleSession "a" (some 100) 3 3 100 [1000]) =
        some ⟨"a", "Addition", 0, 100, none, 1000, 1000⟩ :=
      percentileEntry_sample_single "a" (some 100) 3 3 100 1000 (by norm_num)
    have h2 : percentileEntry (sampleSession "b" (some 60) 8 10 60 [100]) =
        some ⟨"b", "Addition", 0, 60, none, 100, 100⟩ :=
      percentileEntry_sample_single "b" (some 60) 8 10 60 100 (by norm_num)
    simp only [calculatePercentileLeaderboard, percentileSorted, tieSessions,
      List.filterMap, h1, h2]
    norm_num [List.insertionSort, List.orderedInsert]
  have hs : calculateSpeedLeaderboard tieSessions =
      [⟨"b", "Addition", 0, 60, none, 10, 10⟩,
       ⟨"a", "Addition", 0, 100, none, 3333 / 100, 100 / 3⟩] := by
    have ha := speedEntry_sample "a" (some 100) 3 3 100 1000 []
    have hsa : secondsPerProblem (sampleSession "a" (some 100) 3 3 100 [1000]) = 100 / 3 := by
      norm_num [secondsPerProblem, netScore, sessionDuration, jsOrNum, sampleSession]
    have hra : round2 (100 / 3) = 3333 / 100 :=
      round2_of_bounds (100 / 3) 3333 (by norm_num) (by norm_num) (by norm_num)
    have hk : ∀ t, speedEntry (sampleSession "b" (some 60) 8 10 60 [t]) = some
        ⟨"b", "Addition", 0, 60, none, 10, 10⟩ := by
      intro t
      have h := speedEntry_sample "b" (some 60) 8 10 60 t []
      have hsb : secondsPerProblem (sampleSession "b" (some 60) 8 10 60 [t]) = 10 := by
        norm_num [secondsPerProblem, netScore, sessionDuration, jsOrNum, sampleSession]
      rw [hsb, round2_ten] at h
      exact h
    rw [hsa, hra] at ha
    simp only [calculateSpeedLeaderboard, speedSorted, tieSessions, List.filterMap, ha, hk]
    norm_num [List.insertionSort, List.orderedInsert]
  have h1 : round2 (combinedScore 1 10) = 1 := by
    have h0 : combinedScore 1 10 = ((100 : ℤ) : ℚ) / 100 := by
      simp only [combinedScore, jsOrNum, fl_ten]
      norm_num
    rw [h0, round2_hundredths 100 (by norm_num) (by norm_num)]
    norm_num
  have h2 : round2 (combinedScore 2 (100 / 3)) = 7 / 25 := by
    rw [combined_tie_below]
    norm_num
  refine ⟨by simp [tieSessions, sampleSession], ?_, by norm_num, ?_⟩
  · rw [combinedLeaderboard_eq, hp, hs]
    simp only [List.map, combinedEntry, percentileRanks]
    simp only [String.reduceEq, if_true, if_false, reduceIte, rankOrDefault]
    norm_num [h1, h2, List.insertionSort, List.orderedInsert]
  · have hf : (⌊(11 - (((2 : ℕ) : ℚ) + 1) / 2) / (100 / 3) * 100 + 1 / 2⌋ : ℤ) = 29 := by
      rw [Int.floor_eq_iff]
      norm_num
    rw [hf]
    norm_num

/-- C4 (amended): with distinct session ids, every entry of the combined leaderboard with
positive `secondsPerProblem` has `percentileRank` equal to the 1-based position
of its session in `calculatePercentileLeaderboard` of the same input, or 11 when
it is absent from it, and `score` equal to
(11 - (percentileRank + 1)/2) / secondsPerProblem rounded to two decimals: it is
`Math.round(x * 100) / 100` of the double quotient by the double `fl` of the
seconds per problem, a whole number of hundredths within half a hundredth (and
a relative `2 ^ -49`) of the exact quotient. -/
theorem combined_score_spec (scores : List Session)
    (hid : (scores.map (fun s => s.id)).Nodup) (e : CombinedEntry)
    (he : e ∈ calculateCombinedLeaderboard scores) (hpos : 0 < e.secondsPerProblem) :
    e.percentileRank =
      specPercentileRank ((calculatePercentileLeaderboard scores).map (fun p => p.id)) e.id ∧
    e.score = round2 ((11 - ((specPercentileRank
      ((calculatePercentileLeaderboard scores).map (fun p => p.id)) e.id : ℕ) + 1) / 2) /
        fl e.secondsPerProblem) ∧
    (∃ k : ℤ, e.score = (k : ℚ) / 100) ∧
    |e.score - (11 - ((specPercentileRank
      ((calculatePercentileLeaderboard scores).map (fun p => p.id)) e.id : ℕ) + 1) / 2) /
        e.secondsPerProblem| ≤
      1 / 200 + (11 - ((specPercentileRank
        ((calculatePercentileLeaderboard scores).map (fun p => p.id)) e.id : ℕ) + 1) / 2) /
          e.secondsPerProblem / 2 ^ 49 := by
  obtain ⟨s, _, rfl⟩ := mem_combinedLeaderboard he
  have hr := rankOrDefault_lookup (calculatePercentileLeaderboard scores) s.id
    (percentileLeaderboard_ids_nodup scores hid)
  have hne : s.secondsPerProblem ≠ 0 := ne_of_gt hpos
  have hlen : ((calculatePercentileLeaderboard scores).map (fun p => p.id)).length ≤ 10 := by
    rw [List.length_map, calculatePercentileLeaderboard, List.length_take]
    exact Nat.min_le_left _ _
  have hrank := specPercentileRank_le
    ((calculatePercentileLeaderboard scores).map (fun p => p.id)) s.id hlen
  simp only [combinedEntry] at hpos ⊢
  have hscore : round2 (combinedScore (rankOrDefault
      (percentileRanks (calculatePercentileLeaderboard scores) 0 (fun _ => none) s.id))
        s.secondsPerProblem) =
      round2 ((11 - ((specPercentileRank
        ((calculatePercentileLeaderboard scores).map (fun p => p.id)) s.id : ℕ) + 1) / 2) /
          fl s.secondsPerProblem) := by
    rw [hr]
    simp [combinedScore, jsOrNum, fl_eq_zero_iff, hne]
  refine ⟨hr, hscore, ⟨_, rfl⟩, ?_⟩
  rw [hscore]
  generalize specPercentileRank
    ((calculatePercentileLeaderboard scores).map (fun p => p.id)) s.id = rank at hrank
  have hrq : ((rank : ℕ) : ℚ) ≤ 11 := by exact_mod_cast hrank
  have hA : (0 : ℚ) ≤ 11 - ((rank : ℚ) + 1) / 2 := by linarith
  obtain ⟨hq0, hq2, hqn⟩ := div_fl_near (11 - ((rank : ℚ) + 1) / 2) s.secondsPerProblem hA hpos
  have hn := round2_near _ hq0
  generalize (11 - ((rank : ℚ) + 1) / 2) / fl s.secondsPerProblem = q at hq0 hq2 hqn hn
  generalize (11 - ((rank : ℚ) + 1) / 2) / s.secondsPerProblem = X at hq2 hqn
  rw [abs_le] at hn hqn ⊢
  constructor <;> linarith [hn.1, hn.2, hqn.1, hqn.2]

/-- C4 (amended), at a concrete input: session `q` of `sentinelLast` is second on the
percentile leaderboard and its combined score is (11 - 3/2) / 10 = 0.95. -/
theorem combined_score_spec_witness :
    (sentinelLast.map (fun s => s.id)).Nodup ∧
    combinedQ ∈ calculateCombinedLeaderboard sentinelLast ∧
    0 < combinedQ.secondsPerProblem ∧
    combinedQ.score = 19 / 20 ∧
    (combinedQ.percentileRank =
      specPercentileRank ((calculatePercentileLeaderboard sentinelLast).map (fun p => p.id))
        combinedQ.id ∧
    combinedQ.score = round2 ((11 - ((specPercentileRank
      ((calculatePercentileLeaderboard sentinelLast).map (fun p => p.id)) combinedQ.id : ℕ) + 1)
        / 2) / fl combinedQ.secondsPerProblem) ∧
    (∃ k : ℤ, combinedQ.score = (k : ℚ) / 100) ∧
    |combinedQ.score - (11 - ((specPercentileRank
      ((calculatePercentileLeaderboard sentinelLast).map (fun p => p.id)) combinedQ.id : ℕ) + 1)
        / 2) / combinedQ.secondsPerProblem| ≤
      1 / 200 + (11 - ((specPercentileRank
        ((calculatePercentileLeaderboard sentinelLast).map (fun p => p.id)) combinedQ.id : ℕ)
          + 1) / 2) / combinedQ.secondsPerProblem / 2 ^ 49) := by
  have hnd : (sentinelLast.map (fun s => s.id)).Nodup := by
    simp [sentinelLast, sampleSession]
  have hp : calculatePercentileLeaderboard sentinelLast =
      [⟨"z", "Addition", 0, 60, none, 1000, 1000⟩,
       ⟨"q", "Addition", 0, 60, none, 1000, 1000⟩] := by
    have h1 : ∀ id score, percentileEntry (sampleSession id (some 60) score 10 60 [1000]) =
        some ⟨id, "Addition", 0, 60, none, 1000, 1000⟩ := fun id score =>
      percentileEntry_sample_single id (some 60) score 10 60 1000 (by norm_num)
    simp only [calculatePercentileLeaderboard, percentileSorted, sentinelLast,
      List.filterMap, h1]
    norm_num [List.insertionSort, List.orderedInsert]
  have hs : calculateSpeedLeaderboard sentinelLast =
      [⟨"q", "Addition", 0, 60, none, 10, 10⟩,
       ⟨"z", "Addition", 0, 60, none, 99999 / 100, 99999 / 100⟩] := by
    simp only [calculateSpeedLeaderboard, speedSorted, sentinelLast, List.filterMap,
      speedEntry_sample]
    norm_num [secondsPerProblem, netScore, sessionDuration, jsOrNum, sampleSession,
      round2_ten, round2_sentinel, List.insertionSort, List.orderedInsert]
  have h95 : round2 (19 / 20) = 19 / 20 := by
    have h := round2_hundredths 95 (by norm_num) (by norm_num)
    norm_num at h
    exact h
  have hmem : combinedQ ∈ calculateCombinedLeaderboard sentinelLast := by
    rw [combinedLeaderboard_eq, List.mem_insertionSort, hp, hs]
    simp only [List.map, combinedEntry, percentileRanks]
    simp only [String.reduceEq, if_true, if_false, reduceIte, rankOrDefault]
    norm_num [combinedScore, jsOrNum, fl_ten, h95, combinedQ]
  exact ⟨hnd, hmem, by norm_num [combinedQ], rfl,
    combined_score_spec sentinelLast hnd combinedQ hmem (by norm_num [combinedQ])⟩

/-! ### C7: normalisation of the probabilities -/

/-- C7 (as stated, refuted): the doubles 0.04 and 0.98 have a double sum above
1 and are rescaled to two doubles whose sum is 1 - 3/2^55, not 1; the doubles
0.07 and 0.93 have the double sum 1, are kept, and leave the random share
-1/2^53, which is negative. -/
theorem normalize_rounding_counterexample :
    1 < fl (fl (1 / 25) + fl (49 / 50)) ∧
    (normalizeProbabilities (fl (1 / 25)) (fl (49 / 50))).1 +
      (normalizeProbabilities (fl (1 / 25)) (fl (49 / 50))).2.1 = 1 - 3 / 2 ^ 55 ∧
    fl (fl (7 / 100) + fl (93 / 100)) = 1 ∧
    (normalizeProbabilities (fl (7 / 100)) (fl (93 / 100))).2.2 = -(1 / 2 ^ 53) := by
  have hS : fl (1 / 25) = 5764607523034235 / 144115188075855872 := by
    rw [fl_eq_of_pos (1 / 25) (-5) 5764607523034235 (by norm_num) (by norm_num) (by norm_num) (by norm_num)]
    norm_num
  have hM : fl (49 / 50) = 2206763817411543 / 2251799813685248 := by
    rw [fl_eq_of_pos (49 / 50) (-1) 8827055269646172 (by norm_num) (by norm_num) (by norm_num) (by norm_num)]
    norm_num
  have hT : fl (5764607523034235 / 144115188075855872 + 2206763817411543 / 2251799813685248) = 2296835809958953 / 2251799813685248 := by
    rw [fl_eq_of_pos (_) (0) 4593671619917906 (by norm_num) (by norm_num) (by norm_num) (by norm_num)]
    norm_num
  have ha : fl (5764607523034235 / 144115188075855872 / (2296835809958953 / 2251799813685248)) = 1412894000743685 / 36028797018963968 := by
    rw [fl_eq_of_pos (_) (-5) 5651576002974740 (by norm_num) (by norm_num) (by norm_num) (by norm_num)]
    norm_num
  have hb : fl (2206763817411543 / 2251799813685248 / (2296835809958953 / 2251799813685248)) = 4326987877277535 / 4503599627370496 := by
    rw [fl_eq_of_pos (_) (-1) 8653975754555070 (by norm_num) (by norm_num) (by norm_num) (by norm_num)]
    norm_num
  have hS2 : fl (7 / 100) = 1261007895663739 / 18014398509481984 := by
    rw [fl_eq_of_pos (7 / 100) (-4) 5044031582654956 (by norm_num) (by norm_num) (by norm_num) (by norm_num)]
    norm_num
  have hM2 : fl (93 / 100) = 8376695306909123 / 9007199254740992 := by
    rw [fl_eq_of_pos (93 / 100) (-1) 8376695306909123 (by norm_num) (by norm_num) (by norm_num) (by norm_num)]
    norm_num
  have hT2 : fl (1261007895663739 / 18014398509481984 + 8376695306909123 / 9007199254740992) = 1 := by
    rw [fl_eq_of_pos (_) (0) 4503599627370496 (by norm_num) (by norm_num) (by norm_num) (by norm_num)]
    norm_num
  have hc : fl (1 - 1261007895663739 / 18014398509481984) = 4188347653454561 / 4503599627370496 := by
    rw [fl_eq_of_tie_pos _ (-1) 8376695306909122 (by norm_num) (by norm_num) (by norm_num)]
    norm_num
  have hd : fl (4188347653454561 / 4503599627370496 - 8376695306909123 / 9007199254740992) = -(1 / 2 ^ 53) := by
    have h := fl_of_scaled (-1) (-53) (by norm_num)
    have e1 : ((4188347653454561 / 4503599627370496 - 8376695306909123 / 9007199254740992 : ℚ)) = ((-1 : ℤ) : ℚ) * 2 ^ (-53 : ℤ) := by norm_num
    rw [e1, h]
    norm_num
  refine ⟨?_, ?_, ?_, ?_⟩
  · rw [hS, hM, hT]
    norm_num
  · simp only [normalizeProbabilities, hS, hM, hT]
    rw [if_pos (by norm_num), ha, hb]
    norm_num
  · rw [hS2, hM2, hT2]
  · simp only [normalizeProbabilities, hS2, hM2, hT2]
    rw [if_neg (by norm_num), hc, hd]

/-- When the double sum does not exceed 1 the pair is kept. -/
theorem normalizeProbabilities_keep (pS pM : ℚ) (h : fl (pS + pM) ≤ 1) :
    normalizeProbabilities pS pM = (pS, pM, fl (fl (1 - pS) - pM)) := by
  simp only [normalizeProbabilities, gt_iff_lt, if_neg (not_lt.mpr h)]

theorem normalizeProbabilities_rescale (pS pM : ℚ) (h : 1 < fl (pS + pM)) :
    normalizeProbabilities pS pM =
      (fl (pS / fl (pS + pM)), fl (pM / fl (pS + pM)), 0) := by
  simp only [normalizeProbabilities, gt_iff_lt, if_pos h]

/-- C7 (amended): for `pS`, `pM` in [0, 1], with sums, differences and
quotients rounded to doubles. When the double sum exceeds 1 (then the exact sum
does too) the pair becomes `pS / total`, `pM / total` with `total` the double
sum, the random share is 0 and the pair sums to 1 within `2 ^ -51`. When the
double sum is at most 1 (as it is when the exact sum is) the pair is kept and
the random share is the double `(1 - pS) - pM`: the three sum to 1 within
`2 ^ -50` and the random share is at least `-2 ^ -50`. -/
theorem normalize_probabilities_spec (pS pM : ℚ) (hS0 : 0 ≤ pS) (hS1 : pS ≤ 1)
    (hM0 : 0 ≤ pM) (hM1 : pM ≤ 1) :
    (1 < fl (pS + pM) →
      1 < pS + pM ∧
      normalizeProbabilities pS pM =
        (fl (pS / fl (pS + pM)), fl (pM / fl (pS + pM)), 0) ∧
      |(normalizeProbabilities pS pM).1 + (normalizeProbabilities pS pM).2.1 - 1| ≤
        1 / 2 ^ 51) ∧
    (fl (pS + pM) ≤ 1 →
      (normalizeProbabilities pS pM).1 = pS ∧ (normalizeProbabilities pS pM).2.1 = pM ∧
      (normalizeProbabilities pS pM).2.2 = fl (fl (1 - pS) - pM) ∧
      |(normalizeProbabilities pS pM).1 + (normalizeProbabilities pS pM).2.1 +
        (normalizeProbabilities pS pM).2.2 - 1| ≤ 1 / 2 ^ 50 ∧
      -(1 / 2 ^ 50) ≤ (normalizeProbabilities pS pM).2.2) ∧
    (pS + pM ≤ 1 → fl (pS + pM) ≤ 1) := by
  have hs0 : 0 ≤ pS + pM := add_nonneg hS0 hM0
  refine ⟨?_, ?_, fl_le_one _⟩
  · intro h
    have hs1 : 1 < pS + pM := by
      by_contra hle
      exact absurd h (not_lt.mpr (fl_le_one _ (not_lt.mp hle)))
    refine ⟨hs1, normalizeProbabilities_rescale pS pM h, ?_⟩
    rw [normalizeProbabilities_rescale pS pM h]
    simp only
    have hT0 : 0 < fl (pS + pM) := lt_trans one_pos h
    have hTlo := fl_lower (pS + pM) hs0
    have hThi := fl_upper (pS + pM) hs0
    have hx0 : 0 ≤ pS / fl (pS + pM) := div_nonneg hS0 hT0.le
    have hy0 : 0 ≤ pM / fl (pS + pM) := div_nonneg hM0 hT0.le
    have hxl := fl_lower _ hx0
    have hxu := fl_upper _ hx0
    have hyl := fl_lower _ hy0
    have hyu := fl_upper _ hy0
    have hsum : pS / fl (pS + pM) + pM / fl (pS + pM) = (pS + pM) / fl (pS + pM) := by
      rw [add_div]
    have hr1 : 1 ≤ (pS + pM) / fl (pS + pM) * (1 + 1 / 2 ^ 53) := by
      rw [div_mul_eq_mul_div, le_div_iff₀ hT0]
      linarith
    have hr2 : (pS + pM) / fl (pS + pM) * (1 - 1 / 2 ^ 53) ≤ 1 := by
      rw [div_mul_eq_mul_div, div_le_iff₀ hT0]
      linarith
    generalize fl (pS / fl (pS + pM)) = a at hxl hxu
    generalize fl (pM / fl (pS + pM)) = b at hyl hyu
    generalize pS / fl (pS + pM) = x at hxl hxu hsum
    generalize pM / fl (pS + pM) = y at hyl hyu hsum
    generalize (pS + pM) / fl (pS + pM) = r at hsum hr1 hr2
    rw [abs_le]
    constructor
    · nlinarith
    · nlinarith
  · intro h
    rw [normalizeProbabilities_keep pS pM h]
    simp only
    have hslo := fl_lower (pS + pM) hs0
    have hc0 : 0 ≤ 1 - pS := by linarith
    have hcl := fl_lower (1 - pS) hc0
    have hcu := fl_upper (1 - pS) hc0
    have hcn := fl_nonneg (1 - pS) hc0
    have hd := fl_rel_error (fl (1 - pS) - pM)
    generalize fl (fl (1 - pS) - pM) = d at hd
    generalize fl (1 - pS) = c at hcl hcu hcn hd
    generalize fl (pS + pM) = T at h hslo
    have habs : |c - pM| ≤ 2 := by
      rw [abs_le]
      constructor <;> nlinarith
    have hd2 : |d - (c - pM)| ≤ 2 / 2 ^ 53 :=
      le_trans hd (div_le_div_of_nonneg_right habs (by positivity))
    rw [abs_le] at hd2
    refine ⟨trivial, trivial, trivial, ?_, ?_⟩
    · rw [abs_le]
      constructor <;> nlinarith [hd2.1, hd2.2]
    · nlinarith [hd2.1, hd2.2]

/-- C7 (amended), at concrete inputs: 0.8 and 0.6 are rescaled and the pair
sums to 1 within `2 ^ -51`; 0.5 and 0.3 are kept. -/
theorem normalize_probabilities_spec_witness :
    1 < fl ((4 / 5 : ℚ) + 3 / 5) ∧
    |(normalizeProbabilities (4 / 5) (3 / 5)).1 + (normalizeProbabilities (4 / 5) (3 / 5)).2.1
      - 1| ≤ 1 / 2 ^ 51 ∧
    (normalizeProbabilities (4 / 5) (3 / 5)).2.2 = 0 ∧
    (normalizeProbabilities (1 / 2) (3 / 10)).1 = 1 / 2 ∧
    (normalizeProbabilities (1 / 2) (3 / 10)).2.1 = 3 / 10 := by
  have hT : 1 < fl ((4 / 5 : ℚ) + 3 / 5) := by
    have h := fl_lower ((4 / 5 : ℚ) + 3 / 5) (by norm_num)
    have h2 : (1 : ℚ) < (4 / 5 + 3 / 5) * (1 - 1 / 2 ^ 53) := by norm_num
    linarith
  have h1 := (normalize_probabilities_spec (4 / 5) (3 / 5) (by norm_num) (by norm_num)
    (by norm_num) (by norm_num)).1 hT
  have h2 := (normalize_probabilities_spec (1 / 2) (3 / 10) (by norm_num) (by norm_num)
    (by norm_num) (by norm_num))
  have h3 := h2.2.1 (h2.2.2 (by norm_num))
  refine ⟨hT, h1.2.2, ?_, h3.1, h3.2.1⟩
  rw [h1.2.1]

/-! ### C8, C9, C10: the smart selector -/

theorem historicalProblem_fields (m : Option String) (sel : ProblemRecord) (src : String) :
    (historicalProblem m sel src).source = some src ∧
    (historicalProblem m sel src).question = sel.problem ∧
    (historicalProblem m sel src).answer = sel.answer := by
  unfold historicalProblem
  simp only
  split
  · split
    · split
      · split
        · split
          · exact ⟨rfl, rfl, rfl⟩
          · exact ⟨rfl, rfl, rfl⟩
        · exact ⟨rfl, rfl, rfl⟩
      · exact ⟨rfl, rfl, rfl⟩
    · exact ⟨rfl, rfl, rfl⟩
  · exact ⟨rfl, rfl, rfl⟩

theorem pickFrom_mem (pool : List ProblemRecord) (r : ℚ) (hne : pool ≠ [])
    (h0 : 0 ≤ r) (h1 : r < 1) : ∃ sel ∈ pool, pickFrom pool r = some sel := by
  have hlen : 0 < pool.length := List.length_pos.mpr hne
  have hlenq : (0 : ℚ) < (pool.length : ℚ) := by exact_mod_cast hlen
  have hi0 : (0 : ℤ) ≤ ⌊r * (pool.length : ℚ)⌋ := Int.floor_nonneg.mpr (by positivity)
  have hi1 : ⌊r * (pool.length : ℚ)⌋ < (pool.length : ℤ) := by
    rw [Int.floor_lt]
    have : r * (pool.length : ℚ) < 1 * (pool.length : ℚ) :=
      mul_lt_mul_of_pos_right h1 hlenq
    simpa using this
  have hlt : (⌊r * (pool.length : ℚ)⌋).toNat < pool.length := by omega
  refine ⟨pool[(⌊r * (pool.length : ℚ)⌋).toNat], List.getElem_mem _, ?_⟩
  simp only [pickFrom, if_pos hi0]
  exact List.getElem?_eq_getElem hlt

/-- The problem `generateSmartProblem` builds once a pool and a tag are chosen:
the historical record when one was read, the generated problem otherwise. -/
theorem generateSmartProblem_cases (g : GameManager) (random pick : ℚ) (generated : Problem)
    (hpool : g.slowestProblems ≠ [] ∨ g.mistakeProblems ≠ []) :
    (random < (normalizeProbabilities g.probSlowest g.probMistakes).1 ∧
        g.slowestProblems ≠ [] →
      generateSmartProblem g random pick generated =
        match pickFrom g.slowestProblems pick with
        | some sel => historicalProblem g.moduleName sel "slow"
        | none => { generated with source := some "slow" }) ∧
    (¬ (random < (normalizeProbabilities g.probSlowest g.probMistakes).1 ∧
        g.slowestProblems ≠ []) →
      random < (normalizeProbabilities g.probSlowest g.probMistakes).1 +
          (normalizeProbabilities g.probSlowest g.probMistakes).2.1 ∧
        g.mistakeProblems ≠ [] →
      generateSmartProblem g random pick generated =
        match pickFrom g.mistakeProblems pick with
        | some sel => historicalProblem g.moduleName sel "mistake"
        | none => { generated with source := some "mistake" }) ∧
    (¬ (random < (normalizeProbabilities g.probSlowest g.probMistakes).1 ∧
        g.slowestProblems ≠ []) →
      ¬ (random < (normalizeProbabilities g.probSlowest g.probMistakes).1 +
          (normalizeProbabilities g.probSlowest g.probMistakes).2.1 ∧
        g.mistakeProblems ≠ []) →
      generateSmartProblem g random pick generated =
        { generated with source := some "random" }) := by
  have hfirst : ¬ (g.slowestProblems.length = 0 ∧ g.mistakeProblems.length = 0) := by
    rintro ⟨h1, h2⟩
    rcases hpool with h | h
    · exact h (List.length_eq_zero.mp h1)
    · exact h (List.length_eq_zero.mp h2)
  rcases hp : normalizeProbabilities g.probSlowest g.probMistakes with ⟨a, b, c⟩
  have hpos : ∀ l : List ProblemRecord, l.length > 0 ↔ l ≠ [] := fun l =>
    List.length_pos
  refine ⟨?_, ?_, ?_⟩
  · intro h
    have h' : random < a ∧ g.slowestProblems.length > 0 := ⟨h.1, (hpos _).mpr h.2⟩
    simp only [generateSmartProblem, if_neg hfirst, hp, if_pos h']
    cases pickFrom g.slowestProblems pick with
    | none => by_cases ht : g.useTimeFilter = true <;> simp [ht]
    | some sel => simp
  · intro h1 h2
    have h1' : ¬ (random < a ∧ g.slowestProblems.length > 0) := fun h =>
      h1 ⟨h.1, (hpos _).mp h.2⟩
    have h2' : random < a + b ∧ g.mistakeProblems.length > 0 := ⟨h2.1, (hpos _).mpr h2.2⟩
    simp only [generateSmartProblem, if_neg hfirst, hp, if_neg h1', if_pos h2']
    cases pickFrom g.mistakeProblems pick with
    | none => by_cases ht : g.useTimeFilter = true <;> simp [ht]
    | some sel => simp
  · intro h1 h2
    have h1' : ¬ (random < a ∧ g.slowestProblems.length > 0) := fun h =>
      h1 ⟨h.1, (hpos _).mp h.2⟩
    have h2' : ¬ (random < a + b ∧ g.mistakeProblems.length > 0) := fun h =>
      h2 ⟨h.1, (hpos _).mp h.2⟩
    simp only [generateSmartProblem, if_neg hfirst, hp, if_neg h1', if_neg h2']
    by_cases ht : g.useTimeFilter = true <;> simp [ht]

theorem generateSmartProblem_source (g : GameManager) (random pick : ℚ) (generated : Problem)
    (hpool : g.slowestProblems ≠ [] ∨ g.mistakeProblems ≠ []) :
    (generateSmartProblem g random pick generated).source = some
      (if random < (normalizeProbabilities g.probSlowest g.probMistakes).1 ∧
          g.slowestProblems ≠ [] then "slow"
       else if random < (normalizeProbabilities g.probSlowest g.probMistakes).1 +
            (normalizeProbabilities g.probSlowest g.probMistakes).2.1 ∧
          g.mistakeProblems ≠ [] then "mistake"
       else "random") := by
  obtain ⟨hs, hm, hr⟩ := generateSmartProblem_cases g random pick generated hpool
  by_cases h1 : random < (normalizeProbabilities g.probSlowest g.probMistakes).1 ∧
      g.slowestProblems ≠ []
  · rw [hs h1, if_pos h1]
    cases pickFrom g.slowestProblems pick with
    | none => rfl
    | some sel => exact (historicalProblem_fields _ _ _).1
  · by_cases h2 : random < (normalizeProbabilities g.probSlowest g.probMistakes).1 +
        (normalizeProbabilities g.probSlowest g.probMistakes).2.1 ∧ g.mistakeProblems ≠ []
    · rw [hm h1 h2, if_neg h1, if_pos h2]
      cases pickFrom g.mistakeProblems pick with
      | none => rfl
      | some sel => exact (historicalProblem_fields _ _ _).1
    · rw [hr h1 h2, if_neg h1, if_neg h2]

theorem generateSmartProblem_source_iff (g : GameManager) (random pick : ℚ)
    (generated : Problem) (hpool : g.slowestProblems ≠ [] ∨ g.mistakeProblems ≠ []) :
    ((generateSmartProblem g random pick generated).source = some "slow" ↔
      random < (normalizeProbabilities g.probSlowest g.probMistakes).1 ∧
        g.slowestProblems ≠ []) ∧
    ((generateSmartProblem g random pick generated).source = some "mistake" ↔
      ¬ (random < (normalizeProbabilities g.probSlowest g.probMistakes).1 ∧
        g.slowestProblems ≠ []) ∧
      random < (normalizeProbabilities g.probSlowest g.probMistakes).1 +
          (normalizeProbabilities g.probSlowest g.probMistakes).2.1 ∧
        g.mistakeProblems ≠ []) := by
  have hsrc := generateSmartProblem_source g random pick generated hpool
  refine ⟨?_, ?_⟩
  · rw [hsrc]
    by_cases h1 : random < (normalizeProbabilities g.probSlowest g.probMistakes).1 ∧
        g.slowestProblems ≠ []
    · simp [h1]
    · rw [if_neg h1]
      constructor
      · intro h
        split at h <;> simp at h
      · intro h
        exact absurd h h1
  · rw [hsrc]
    by_cases h1 : random < (normalizeProbabilities g.probSlowest g.probMistakes).1 ∧
        g.slowestProblems ≠ []
    · rw [if_pos h1]
      constructor
      · intro h
        simp at h
      · intro h
        exact absurd h1 h.1
    · rw [if_neg h1]
      by_cases h2 : random < (normalizeProbabilities g.probSlowest g.probMistakes).1 +
          (normalizeProbabilities g.probSlowest g.probMistakes).2.1 ∧ g.mistakeProblems ≠ []
      · rw [if_pos h2]
        exact ⟨fun _ => ⟨h1, h2⟩, fun _ => rfl⟩
      · rw [if_neg h2]
        constructor
        · intro h
          simp at h
        · intro h
          exact absurd h.2 h2

/-- C8: when at least one pool is non-empty, the source tag of
`generateSmartProblem` is decided by the draw: it is `slow` exactly when
`random < pS'` and the slow pool is non-empty; otherwise `mistake` exactly when
`random < pS' + pM'` and the mistake pool is non-empty; otherwise `random`, the
problem being the module's generated one with that tag. With both pools
non-empty, `pS = 0.5` and `pM = 0.3`, the draws of [0, 1) that give slow,
mistake and random are [0, 0.5), [0.5, 0.8) and [0.8, 1). -/
theorem smart_source_spec (g : GameManager) (random pick : ℚ) (generated : Problem)
    (hpool : g.slowestProblems ≠ [] ∨ g.mistakeProblems ≠ []) :
    ((generateSmartProblem g random pick generated).source = some "slow" ↔
      random < (normalizeProbabilities g.probSlowest g.probMistakes).1 ∧
        g.slowestProblems ≠ []) ∧
    ((generateSmartProblem g random pick generated).source = some "mistake" ↔
      ¬ (random < (normalizeProbabilities g.probSlowest g.probMistakes).1 ∧
        g.slowestProblems ≠ []) ∧
      random < (normalizeProbabilities g.probSlowest g.probMistakes).1 +
          (normalizeProbabilities g.probSlowest g.probMistakes).2.1 ∧
        g.mistakeProblems ≠ []) ∧
    (¬ (random < (normalizeProbabilities g.probSlowest g.probMistakes).1 ∧
        g.slowestProblems ≠ []) →
      ¬ (random < (normalizeProbabilities g.probSlowest g.probMistakes).1 +
          (normalizeProbabilities g.probSlowest g.probMistakes).2.1 ∧
        g.mistakeProblems ≠ []) →
      generateSmartProblem g random pick generated =
        { generated with source := some "random" }) ∧
    (g.probSlowest = 1 / 2 → g.probMistakes = 3 / 10 → g.slowestProblems ≠ [] →
      g.mistakeProblems ≠ [] → 0 ≤ random → random < 1 →
      ((generateSmartProblem g random pick generated).source = some "slow" ↔
        random < 1 / 2) ∧
      ((generateSmartProblem g random pick generated).source = some "mistake" ↔
        1 / 2 ≤ random ∧ random < 4 / 5) ∧
      ((generateSmartProblem g random pick generated).source = some "random" ↔
        4 / 5 ≤ random)) := by
  have hsrc := generateSmartProblem_source g random pick generated hpool
  have hcases := generateSmartProblem_cases g random pick generated hpool
  have hiff := generateSmartProblem_source_iff g random pick generated hpool
  refine ⟨hiff.1, hiff.2, hcases.2.2, ?_⟩
  · intro hS hM hs hm _ _
    have hn : normalizeProbabilities g.probSlowest g.probMistakes =
        (1 / 2, 3 / 10, fl (fl (1 - 1 / 2) - 3 / 10)) := by
      rw [hS, hM]
      exact normalizeProbabilities_keep _ _ (fl_le_one _ (by norm_num))
    rw [hsrc, hn]
    simp only [hs, hm, ne_eq, not_false_eq_true, and_true]
    have h45 : (1 / 2 : ℚ) + 3 / 10 = 4 / 5 := by norm_num
    rw [h45]
    have hsm : some "slow" ≠ some "mistake" := by decide
    have hsr : some "slow" ≠ some "random" := by decide
    have hmr : some "mistake" ≠ some "random" := by decide
    by_cases h1 : random < 1 / 2
    · have h2 : ¬ (4 / 5 ≤ random) := by linarith
      have h3 : ¬ (1 / 2 ≤ random) := by linarith
      rw [if_pos h1]
      exact ⟨⟨fun _ => h1, fun _ => rfl⟩, ⟨fun h => absurd h hsm, fun h => absurd h.1 h3⟩,
        ⟨fun h => absurd h hsr, fun h => absurd h h2⟩⟩
    · rw [if_neg h1]
      by_cases h2 : random < 4 / 5
      · have h3 : ¬ (4 / 5 ≤ random) := by linarith
        have h4 : 1 / 2 ≤ random := by linarith
        rw [if_pos h2]
        exact ⟨⟨fun h => absurd h.symm hsm, fun h => absurd h h1⟩,
          ⟨fun _ => ⟨h4, h2⟩, fun _ => rfl⟩,
          ⟨fun h => absurd h hmr, fun h => absurd h h3⟩⟩
      · have h3 : 4 / 5 ≤ random := by linarith
        rw [if_neg h2]
        exact ⟨⟨fun h => absurd h.symm hsr, fun h => absurd h h1⟩,
          ⟨fun h => absurd h.symm hmr, fun h => absurd h.2 h2⟩,
          ⟨fun _ => h3, fun _ => rfl⟩⟩

/-- C8, at a concrete input: with one record in each pool, `pS = 0.5` and
`pM = 0.3`, the draw 0.6 lies in [0.5, 0.8) and gives the tag `mistake`. -/
theorem smart_source_spec_witness :
    (generateSmartProblem
      (smartManager (1 / 2) (3 / 10) [missedRecord "12 + 30" "42" 9000]
        [missedRecord "7 + 8" "15" 3000])
      (3 / 5) 0 generatedAddition).source = some "mistake" :=
  ((smart_source_spec
      (smartManager (1 / 2) (3 / 10) [missedRecord "12 + 30" "42" 9000]
        [missedRecord "7 + 8" "15" 3000])
      (3 / 5) 0 generatedAddition (Or.inl (by simp [smartManager]))).2.2.2
    rfl rfl (by simp [smartManager]) (by simp [smartManager]) (by norm_num)
    (by norm_num)).2.1.mpr ⟨by norm_num, by norm_num⟩

/-- C9 (the code at the failing input): in smart mode with both historical
pools empty, `nextProblem` returns the module's generated problem as it is, and
its `source` is unset, not one of `random`, `slow`, `mistake`; in plain mode the
same generated problem is tagged `random`. -/
theorem nextProblem_empty_pools_untagged (now : Int) (random pick : ℚ) :
    (smartManager (1 / 4) (1 / 4) [] []).useSmartGenerator = true ∧
    (nextProblem (smartManager (1 / 4) (1 / 4) [] []) now random pick
      generatedAddition).2.1 = generatedAddition ∧
    (nextProblem (smartManager (1 / 4) (1 / 4) [] []) now random pick
      generatedAddition).2.1.source = none ∧
    (nextProblem { smartManager (1 / 4) (1 / 4) [] [] with useSmartGenerator := false }
      now random pick generatedAddition).2.1.source = some "random" := by
  refine ⟨rfl, ?_, ?_, ?_⟩
  · simp [nextProblem, generateSmartProblem, smartManager]
  · simp [nextProblem, generateSmartProblem, smartManager, generatedAddition]
  · simp [nextProblem, smartManager]

/-- C10: for a pool draw `pick` in [0, 1) and a generated problem that carries
no source of its own, whenever `generateSmartProblem` returns a problem tagged
`slow` (resp. `mistake`), some record of the slow pool (resp. mistake pool) has
exactly the returned question as its problem text and the returned answer as
its answer. -/
theorem smart_replay_verbatim (g : GameManager) (random pick : ℚ) (generated : Problem)
    (hgen : generated.source = none) (hp0 : 0 ≤ pick) (hp1 : pick < 1) :
    ((generateSmartProblem g random pick generated).source = some "slow" →
      ∃ sel ∈ g.slowestProblems,
        sel.problem = (generateSmartProblem g random pick generated).question ∧
        sel.answer = (generateSmartProblem g random pick generated).answer) ∧
    ((generateSmartProblem g random pick generated).source = some "mistake" →
      ∃ sel ∈ g.mistakeProblems,
        sel.problem = (generateSmartProblem g random pick generated).question ∧
        sel.answer = (generateSmartProblem g random pick generated).answer) := by
  by_cases hpool : g.slowestProblems ≠ [] ∨ g.mistakeProblems ≠ []
  · obtain ⟨hslow, hmist⟩ := generateSmartProblem_source_iff g random pick generated hpool
    obtain ⟨hs, hm, _⟩ := generateSmartProblem_cases g random pick generated hpool
    constructor
    · intro h
      have hc := hslow.mp h
      obtain ⟨sel, hmem, hpick⟩ := pickFrom_mem g.slowestProblems pick hc.2 hp0 hp1
      refine ⟨sel, hmem, ?_⟩
      rw [hs hc, hpick]
      obtain ⟨_, hq, ha⟩ := historicalProblem_fields g.moduleName sel "slow"
      exact ⟨hq.symm, ha.symm⟩
    · intro h
      have hc := hmist.mp h
      obtain ⟨sel, hmem, hpick⟩ := pickFrom_mem g.mistakeProblems pick hc.2.2 hp0 hp1
      refine ⟨sel, hmem, ?_⟩
      rw [hm hc.1 hc.2, hpick]
      obtain ⟨_, hq, ha⟩ := historicalProblem_fields g.moduleName sel "mistake"
      exact ⟨hq.symm, ha.symm⟩
  · have hboth : g.slowestProblems.length = 0 ∧ g.mistakeProblems.length = 0 := by
      rw [not_or, not_not, not_not] at hpool
      simp [hpool.1, hpool.2]
    have hres : generateSmartProblem g random pick generated = generated := by
      simp only [generateSmartProblem, if_pos hboth]
    rw [hres, hgen]
    exact ⟨fun h => absurd h (by simp), fun h => absurd h (by simp)⟩

/-- C10, at a concrete input: the draw 0.6 selects the mistake pool, and the
returned problem is the stored "7 + 8" with answer "15". -/
theorem smart_replay_verbatim_witness :
    (generateSmartProblem
      (smartManager (1 / 2) (3 / 10) [missedRecord "12 + 30" "42" 9000]
        [missedRecord "7 + 8" "15" 3000])
      (3 / 5) 0 generatedAddition).source = some "mistake" ∧
    ∃ sel ∈ (smartManager (1 / 2) (3 / 10) [missedRecord "12 + 30" "42" 9000]
        [missedRecord "7 + 8" "15" 3000]).mistakeProblems,
      sel.problem = (generateSmartProblem
        (smartManager (1 / 2) (3 / 10) [missedRecord "12 + 30" "42" 9000]
          [missedRecord "7 + 8" "15" 3000])
        (3 / 5) 0 generatedAddition).question ∧
      sel.answer = (generateSmartProblem
        (smartManager (1 / 2) (3 / 10) [missedRecord "12 + 30" "42" 9000]
          [missedRecord "7 + 8" "15" 3000])
        (3 / 5) 0 generatedAddition).answer := by
  have hsrc : (generateSmartProblem
      (smartManager (1 / 2) (3 / 10) [missedRecord "12 + 30" "42" 9000]
        [missedRecord "7 + 8" "15" 3000])
      (3 / 5) 0 generatedAddition).source = some "mistake" := by
    rw [generateSmartProblem_source _ _ _ _ (Or.inl (by simp [smartManager]))]
    have hn : normalizeProbabilities (1 / 2) (3 / 10) =
        (1 / 2, 3 / 10, fl (fl (1 - 1 / 2) - 3 / 10)) :=
      normalizeProbabilities_keep _ _ (fl_le_one _ (by norm_num))
    simp only [smartManager, hn]
    norm_num
  exact ⟨hsrc, (smart_replay_verbatim _ (3 / 5) 0 generatedAddition rfl (le_refl 0)
    (by norm_num)).2 hsrc⟩

/-! ### C11 to C14: the history index -/

theorem processSession_append (g : GameManager)
    (pools : List ProblemRecord × List ProblemRecord) (s : Session) :
    processSession g pools s =
      (pools.1 ++ (processSession g ([], []) s).1, pools.2 ++ (processSession g ([], []) s).2) := by
  unfold processSession
  cases s.problems with
  | none => simp
  | some ps =>
    by_cases h : (filteredProblems g ps).length = 0
    · simp [h]
    · simp [h]

theorem foldl_processSession (g : GameManager) (l : List Session)
    (pools : List ProblemRecord × List ProblemRecord) :
    l.foldl (processSession g) pools =
      (pools.1 ++ l.flatMap (fun s => (processSession g ([], []) s).1),
       pools.2 ++ l.flatMap (fun s => (processSession g ([], []) s).2)) := by
  induction l generalizing pools with
  | nil => simp
  | cons s rest ih =>
    rw [List.foldl_cons, ih, processSession_append g pools s]
    simp [List.append_assoc]

/-- The pools after a load that runs: the contributions of the relevant
sessions, in the order of the history. -/
theorem loadHistoricalData_pools (g : GameManager) (allScores : List Session) (now : ℤ)
    (hload : g.hasLoadedHistoricalData = false) :
    (loadHistoricalData g allScores now).slowestProblems =
      (allScores.filter (isRelevantScore g now)).flatMap
        (fun s => (processSession g ([], []) s).1) ∧
    (loadHistoricalData g allScores now).mistakeProblems =
      (allScores.filter (isRelevantScore g now)).flatMap
        (fun s => (processSession g ([], []) s).2) := by
  simp [loadHistoricalData, hload, foldl_processSession]

theorem filteredProblems_subset (g : GameManager) (ps : List ProblemRecord)
    (p : ProblemRecord) (h : p ∈ filteredProblems g ps) : p ∈ ps := by
  unfold filteredProblems at h
  split at h
  · exact List.mem_of_mem_filter h
  · exact h

theorem processSession_subset (g : GameManager) (s : Session) (p : ProblemRecord)
    (h : p ∈ (processSession g ([], []) s).1 ∨ p ∈ (processSession g ([], []) s).2) :
    ∃ ps, s.problems = some ps ∧ p ∈ filteredProblems g ps := by
  unfold processSession at h
  cases hs : s.problems with
  | none => simp [hs] at h
  | some ps =>
    refine ⟨ps, rfl, ?_⟩
    by_cases hlen : (filteredProblems g ps).length = 0
    · simp [hs, hlen] at h
    · simp only [hs, hlen, if_false, List.nil_append] at h
      rcases h with h | h
      · exact (List.mem_insertionSort _).mp (List.mem_of_mem_take h)
      · exact List.mem_of_mem_filter h

theorem isRelevantScore_iff (g : GameManager) (now : ℤ) (s : Session) :
    isRelevantScore g now s = true ↔
      some s.mode = g.moduleName ∧ (∃ ps, s.problems = some ps ∧ ps ≠ []) ∧
        now - g.lookbackDays * 86400000 ≤ s.date := by
  unfold isRelevantScore lookbackTime msPerDay
  cases hs : s.problems with
  | none => simp
  | some ps =>
    simp only [Bool.and_eq_true, decide_eq_true_eq, Option.some.injEq, exists_eq_left']
    constructor
    · rintro ⟨⟨h1, h2⟩, h3⟩
      exact ⟨h1, List.length_pos.mp h3, h2⟩
    · rintro ⟨h1, h3, h2⟩
      exact ⟨⟨h1, h2⟩, List.length_pos.mpr h3⟩

/-- A call of `loadHistoricalData` with the cache flag set returns at once. -/
theorem loadHistoricalData_cached (g : GameManager) (allScores : List Session) (now : ℤ)
    (h : g.hasLoadedHistoricalData = true) : loadHistoricalData g allScores now = g := by
  simp [loadHistoricalData, h]

/-- C11 (amended): after a load that runs (the cache flag is not set), every
record of the slow pool and of the mistake pool is a record of a stored session
whose mode is the current module's name and whose date is not earlier than
`now` minus `lookbackDays` days, and a session dated `lookbackDays + 1` days
before `now` contributes nothing: the load gives the same result without it.
A call made while the cache flag is set changes nothing. -/
theorem load_pools_within_window (g : GameManager) (allScores : List Session) (now : ℤ) :
    (g.hasLoadedHistoricalData = false →
      (∀ p, p ∈ (loadHistoricalData g allScores now).slowestProblems ∨
          p ∈ (loadHistoricalData g allScores now).mistakeProblems →
        ∃ s ∈ allScores, (∃ ps, s.problems = some ps ∧ p ∈ ps) ∧
          some s.mode = g.moduleName ∧ now - g.lookbackDays * 86400000 ≤ s.date) ∧
      (∀ pre post s, allScores = pre ++ s :: post →
        s.date = now - (g.lookbackDays + 1) * 86400000 →
        loadHistoricalData g allScores now = loadHistoricalData g (pre ++ post) now)) ∧
    (g.hasLoadedHistoricalData = true → loadHistoricalData g allScores now = g) := by
  refine ⟨?_, loadHistoricalData_cached g allScores now⟩
  intro hload
  obtain ⟨hslow, hmist⟩ := loadHistoricalData_pools g allScores now hload
  constructor
  · intro p hp
    rw [hslow, hmist, List.mem_flatMap, List.mem_flatMap] at hp
    have hex : ∃ s ∈ allScores.filter (isRelevantScore g now),
        p ∈ (processSession g ([], []) s).1 ∨ p ∈ (processSession g ([], []) s).2 := by
      rcases hp with ⟨s, hs, h⟩ | ⟨s, hs, h⟩
      · exact ⟨s, hs, Or.inl h⟩
      · exact ⟨s, hs, Or.inr h⟩
    obtain ⟨s, hs, h⟩ := hex
    obtain ⟨hmem, hrel⟩ := List.mem_filter.mp hs
    obtain ⟨ps, hps, hin⟩ := processSession_subset g s p h
    obtain ⟨hmode, _, hdate⟩ := (isRelevantScore_iff g now s).mp hrel
    exact ⟨s, hmem, ⟨ps, hps, filteredProblems_subset g ps p hin⟩, hmode, hdate⟩
  · intro pre post s hall hdate
    have hnot : isRelevantScore g now s = false := by
      rw [Bool.eq_false_iff]
      intro h
      have := ((isRelevantScore_iff g now s).mp h).2.2
      rw [hdate] at this
      linarith
    simp [loadHistoricalData, hload, hall, List.filter_cons, hnot]

theorem slowCount_eq (n : ℕ) : slowCount n = max 1 ((n + 9) / 10) := by
  unfold slowCount
  congr 1
  apply le_antisymm
  · rw [Nat.ceil_le]
    have h : n ≤ 10 * ((n + 9) / 10) := by omega
    have h' : (n : ℚ) ≤ 10 * (((n + 9) / 10 : ℕ) : ℚ) := by exact_mod_cast h
    linarith
  · by_cases hk : (n + 9) / 10 = 0
    · rw [hk]; exact Nat.zero_le _
    · have h : 10 * ((n + 9) / 10 - 1) < n := by omega
      have hlt : (((n + 9) / 10 - 1 : ℕ) : ℚ) < (n : ℚ) * (1 / 10) := by
        have h' : (10 : ℚ) * (((n + 9) / 10 - 1 : ℕ) : ℚ) < (n : ℚ) := by exact_mod_cast h
        linarith
      have := Nat.lt_ceil.mpr hlt
      omega

/-- The contribution of a stored session with a single record when the time
filter is off: the record joins the slow pool, and the mistake pool when it was
answered wrongly. -/
theorem processSession_single (g : GameManager) (hf : g.useTimeFilter = false)
    (id mode : String) (date : ℤ) (p : ProblemRecord) :
    processSession g ([], []) (historySession id mode date [p]) =
      ([p], if p.isCorrect = some false then [p] else []) := by
  have h1 : slowCount 1 = 1 := by rw [slowCount_eq]; rfl
  simp only [processSession, historySession, filteredProblems, hf, List.length_singleton,
    List.insertionSort, List.orderedInsert, h1, List.nil_append]
  by_cases hp : p.isCorrect = some false <;> simp [hp, List.filter_cons, h1]

/-- The contribution of a stored session whose only record has no `timeTaken`
when the time filter is on: nothing. -/
theorem processSession_single_untimed (g : GameManager) (hf : g.useTimeFilter = true)
    (id mode : String) (date : ℤ) (p : ProblemRecord) (hp : p.timeTaken = none) :
    processSession g ([], []) (historySession id mode date [p]) = ([], []) := by
  simp [processSession, historySession, filteredProblems, hf, passesTimeFilter, hp,
    List.filter_cons]

/-- C11 (as stated, refuted): the history was loaded on day ten with a session
of half a day before, and `loadHistoricalData` is called again five days later
(the path of "play again", which does not reset the cache flag). The call
returns at once: the mistake pool still holds the record of that session, which
is now older than `now` minus `lookbackDays` days, and no stored session is
inside the window. -/
theorem load_cached_window_counterexample :
    loadedManager.hasLoadedHistoricalData = true ∧
    (loadHistoricalData loadedManager
      [historySession "h1" "Addition" (dayTen - 43200000) [missedRecord "7 + 8" "15" 3000]]
      (dayTen + 432000000)).mistakeProblems = [missedRecord "7 + 8" "15" 3000] ∧
    ¬ ∃ s ∈ [historySession "h1" "Addition" (dayTen - 43200000)
        [missedRecord "7 + 8" "15" 3000]],
      (dayTen + 432000000) - loadedManager.lookbackDays * 86400000 ≤ s.date := by
  have hflag : loadedManager.hasLoadedHistoricalData = true := rfl
  have hpool : loadedManager.mistakeProblems = [missedRecord "7 + 8" "15" 3000] := by
    unfold loadedManager
    rw [(loadHistoricalData_pools _ _ _ rfl).2]
    have hr : isRelevantScore (freshManager false 2) dayTen
        (historySession "h1" "Addition" (dayTen - 43200000)
          [missedRecord "7 + 8" "15" 3000]) = true := by decide
    simp only [List.filter_cons, hr, if_true, List.filter_nil, List.flatMap_cons,
      List.flatMap_nil, processSession_single (freshManager false 2) rfl]
    rfl
  refine ⟨hflag, ?_, ?_⟩
  · rw [loadHistoricalData_cached _ _ _ hflag, hpool]
  · rintro ⟨s, hs, hle⟩
    rw [List.mem_singleton] at hs
    rw [hs] at hle
    revert hle
    decide

/-- C11 (amended), at a concrete input: looking back one day from day ten, a session of
half a day ago fills the pools and a session of two days ago adds nothing. -/
theorem load_pools_within_window_witness :
    (loadHistoricalData (freshManager false 2)
      [historySession "h1" "Addition" (dayTen - 43200000) [missedRecord "7 + 8" "15" 3000],
       historySession "h2" "Addition" (dayTen - 172800000) [missedRecord "9 + 9" "18" 5000]]
      dayTen).mistakeProblems = [missedRecord "7 + 8" "15" 3000] ∧
    loadHistoricalData (freshManager false 2)
      [historySession "h1" "Addition" (dayTen - 43200000) [missedRecord "7 + 8" "15" 3000],
       historySession "h2" "Addition" (dayTen - 172800000) [missedRecord "9 + 9" "18" 5000]]
      dayTen =
    loadHistoricalData (freshManager false 2)
      [historySession "h1" "Addition" (dayTen - 43200000) [missedRecord "7 + 8" "15" 3000]]
      dayTen := by
  have hw := (load_pools_within_window (freshManager false 2)
    [historySession "h1" "Addition" (dayTen - 43200000) [missedRecord "7 + 8" "15" 3000],
     historySession "h2" "Addition" (dayTen - 172800000) [missedRecord "9 + 9" "18" 5000]]
    dayTen).1 rfl
  have h2 := hw.2
    [historySession "h1" "Addition" (dayTen - 43200000) [missedRecord "7 + 8" "15" 3000]] []
    (historySession "h2" "Addition" (dayTen - 172800000) [missedRecord "9 + 9" "18" 5000])
    rfl (by decide)
  refine ⟨?_, by simpa using h2⟩
  rw [h2, (loadHistoricalData_pools _ _ _ rfl).2]
  have hr : isRelevantScore (freshManager false 2) dayTen
      (historySession "h1" "Addition" (dayTen - 43200000)
        [missedRecord "7 + 8" "15" 3000]) = true := by decide
  simp only [List.append_nil, List.filter_cons, hr, if_true, List.filter_nil,
    List.flatMap_cons, List.flatMap_nil, processSession_single (freshManager false 2) rfl]
  rfl

/-- C12 (as stated, refuted): looking back one day from day ten, a session of
the current mode dated one day after `now` is kept: its record is in both pools. -/
theorem load_future_session_counterexample :
    dayTen < (historySession "f" "Addition" (dayTen + 86400000)
      [missedRecord "7 + 8" "15" 3000]).date ∧
    (loadHistoricalData (freshManager false 2)
      [historySession "f" "Addition" (dayTen + 86400000) [missedRecord "7 + 8" "15" 3000]]
      dayTen).slowestProblems = [missedRecord "7 + 8" "15" 3000] ∧
    (loadHistoricalData (freshManager false 2)
      [historySession "f" "Addition" (dayTen + 86400000) [missedRecord "7 + 8" "15" 3000]]
      dayTen).mistakeProblems = [missedRecord "7 + 8" "15" 3000] := by
  have hr : isRelevantScore (freshManager false 2) dayTen
      (historySession "f" "Addition" (dayTen + 86400000)
        [missedRecord "7 + 8" "15" 3000]) = true := by decide
  obtain ⟨h1, h2⟩ := loadHistoricalData_pools (freshManager false 2)
    [historySession "f" "Addition" (dayTen + 86400000) [missedRecord "7 + 8" "15" 3000]]
    dayTen rfl
  refine ⟨by decide, ?_, ?_⟩
  · rw [h1]
    simp only [List.filter_cons, hr, if_true, List.filter_nil, List.flatMap_cons,
      List.flatMap_nil, processSession_single (freshManager false 2) rfl]
    rfl
  · rw [h2]
    simp only [List.filter_cons, hr, if_true, List.filter_nil, List.flatMap_cons,
      List.flatMap_nil, processSession_single (freshManager false 2) rfl]
    rfl

/-- C12 (amended): a load that runs keeps exactly the sessions whose mode is the
current module's name, that contain at least one problem record, and whose
timestamp is not earlier than `now` minus `lookbackDays` days; there is no upper
bound on the timestamp. The pools are the contributions of the kept sessions
and of no other. -/
theorem load_keeps_sessions_spec (g : GameManager) (allScores : List Session) (now : ℤ)
    (hload : g.hasLoadedHistoricalData = false) :
    (∀ s, s ∈ allScores.filter (isRelevantScore g now) ↔
      s ∈ allScores ∧ some s.mode = g.moduleName ∧ (∃ ps, s.problems = some ps ∧ ps ≠ []) ∧
        now - g.lookbackDays * 86400000 ≤ s.date) ∧
    (loadHistoricalData g allScores now).slowestProblems =
      (allScores.filter (isRelevantScore g now)).flatMap
        (fun s => (processSession g ([], []) s).1) ∧
    (loadHistoricalData g allScores now).mistakeProblems =
      (allScores.filter (isRelevantScore g now)).flatMap
        (fun s => (processSession g ([], []) s).2) := by
  refine ⟨?_, loadHistoricalData_pools g allScores now hload⟩
  intro s
  rw [List.mem_filter, isRelevantScore_iff]

/-- C12 (amended), at a concrete input: the session dated after `now` is among
the kept ones. -/
theorem load_keeps_sessions_spec_witness :
    historySession "f" "Addition" (dayTen + 86400000) [missedRecord "7 + 8" "15" 3000] ∈
      [historySession "f" "Addition" (dayTen + 86400000)
        [missedRecord "7 + 8" "15" 3000]].filter
        (isRelevantScore (freshManager false 2) dayTen) :=
  ((load_keeps_sessions_spec (freshManager false 2)
    [historySession "f" "Addition" (dayTen + 86400000) [missedRecord "7 + 8" "15" 3000]]
    dayTen rfl).1 _).mpr
    ⟨List.mem_singleton.mpr rfl, rfl, ⟨_, rfl, by simp⟩, by decide⟩

theorem timeOrZero_some (p : ProblemRecord) (t : ℚ) (h : p.timeTaken = some t) :
    timeOrZero p = t := by
  by_cases h0 : t = 0 <;> simp [timeOrZero, jsOrNum, h, h0]

/-- C13: for a session with `n ≥ 1` eligible records (after the optional time
filter), the records that `loadHistoricalData` adds to the slow pool are
`max(1, ceil(n/10))` of the eligible records, and they are the slowest: the
eligible records split into the added ones and a remainder, and no record of
the remainder has a larger `timeTaken` than an added one (a missing `timeTaken`
counts as 0, as in the sort of line 201). In a load that runs, these records
stand in the slow pool between the contributions of the relevant sessions
before and after this one. -/
theorem slow_pool_takes_slowest (g : GameManager) (s : Session) (ps : List ProblemRecord)
    (hps : s.problems = some ps) (hn : 1 ≤ (filteredProblems g ps).length) :
    ((processSession g ([], []) s).1).length =
      max 1 ⌈((filteredProblems g ps).length : ℚ) / 10⌉₊ ∧
    (∃ rest, ((processSession g ([], []) s).1 ++ rest).Perm (filteredProblems g ps) ∧
      ∀ a ∈ (processSession g ([], []) s).1, ∀ b ∈ rest,
        timeOrZero b ≤ timeOrZero a ∧
        ∀ ta tb, a.timeTaken = some ta → b.timeTaken = some tb → tb ≤ ta) ∧
    (∀ allScores now pre post, g.hasLoadedHistoricalData = false →
      allScores.filter (isRelevantScore g now) = pre ++ s :: post →
      (loadHistoricalData g allScores now).slowestProblems =
        pre.flatMap (fun x => (processSession g ([], []) x).1) ++
          (processSession g ([], []) s).1 ++
          post.flatMap (fun x => (processSession g ([], []) x).1)) := by
  have hlen : (filteredProblems g ps).length ≠ 0 := by omega
  have hadd : (processSession g ([], []) s).1 =
      ((filteredProblems g ps).insertionSort
        (fun a b => timeOrZero b ≤ timeOrZero a)).take
          (slowCount (filteredProblems g ps).length) := by
    simp [processSession, hps, hlen]
  have hsorted := sorted_insertionSort_desc timeOrZero (filteredProblems g ps)
  refine ⟨?_, ?_, ?_⟩
  · rw [hadd, List.length_take, List.length_insertionSort]
    have hc : slowCount (filteredProblems g ps).length =
        max 1 ⌈((filteredProblems g ps).length : ℚ) / 10⌉₊ := by
      unfold slowCount
      rw [div_eq_mul_one_div ((filteredProblems g ps).length : ℚ) 10]
    rw [← hc, slowCount_eq]
    omega
  · refine ⟨((filteredProblems g ps).insertionSort
        (fun a b => timeOrZero b ≤ timeOrZero a)).drop
          (slowCount (filteredProblems g ps).length), ?_, ?_⟩
    · rw [hadd, List.take_append_drop]
      exact List.perm_insertionSort _ _
    · intro a ha b hb
      rw [hadd] at ha
      have hle : timeOrZero b ≤ timeOrZero a := hsorted.rel_of_mem_take_of_mem_drop ha hb
      refine ⟨hle, ?_⟩
      intro ta tb hta htb
      rw [timeOrZero_some a ta hta, timeOrZero_some b tb htb] at hle
      exact hle
  · intro allScores now pre post hload hsplit
    rw [(loadHistoricalData_pools g allScores now hload).1, hsplit]
    simp [List.flatMap_append, List.append_assoc]

/-- C13, at a concrete input: a session of eleven eligible records, the time
filter being off, gives two records to the slow pool. -/
theorem slow_pool_takes_slowest_witness :
    ((processSession (freshManager false 2) ([], [])
      (historySession "h" "Addition" dayTen (zeroTimes.map timedRecord))).1).length = 2 := by
  have h := (slow_pool_takes_slowest (freshManager false 2)
    (historySession "h" "Addition" dayTen (zeroTimes.map timedRecord))
    (zeroTimes.map timedRecord) rfl (by simp [filteredProblems, freshManager, zeroTimes])).1
  rw [h]
  have hl : (filteredProblems (freshManager false 2) (zeroTimes.map timedRecord)).length = 11 := by
    simp [filteredProblems, freshManager, zeroTimes]
  rw [hl]
  have hc : ⌈((11 : ℕ) : ℚ) / 10⌉₊ = 2 := by
    rw [Nat.ceil_eq_iff (by norm_num)]
    constructor <;> norm_num
  rw [hc]
  rfl

theorem processSession_congr (g1 g2 : GameManager) (s : Session)
    (pools : List ProblemRecord × List ProblemRecord)
    (h : ∀ ps, s.problems = some ps → filteredProblems g1 ps = filteredProblems g2 ps) :
    processSession g1 pools s = processSession g2 pools s := by
  unfold processSession
  cases hs : s.problems with
  | none => rfl
  | some ps => simp only [h ps hs]

theorem foldl_processSession_congr (g1 g2 : GameManager) (l : List Session)
    (h : ∀ s ∈ l, ∀ ps, s.problems = some ps → filteredProblems g1 ps = filteredProblems g2 ps)
    (pools : List ProblemRecord × List ProblemRecord) :
    l.foldl (processSession g1) pools = l.foldl (processSession g2) pools := by
  induction l generalizing pools with
  | nil => rfl
  | cons s rest ih =>
    rw [List.foldl_cons, List.foldl_cons,
      processSession_congr g1 g2 s pools (h s (List.mem_cons_self _ _))]
    exact ih (fun x hx => h x (List.mem_cons_of_mem _ hx)) _

/-- C14 (as stated, refuted): a stored session whose only record has no
`timeTaken`. With the time filter disabled the record is in both pools; with
the filter enabled and a threshold of 0 seconds both pools are empty. -/
theorem time_filter_zero_counterexample :
    untimedMiss.timeTaken = none ∧
    (loadHistoricalData (freshManager false 0)
      [historySession "u" "Addition" dayTen [untimedMiss]] dayTen).slowestProblems =
        [untimedMiss] ∧
    (loadHistoricalData (freshManager false 0)
      [historySession "u" "Addition" dayTen [untimedMiss]] dayTen).mistakeProblems =
        [untimedMiss] ∧
    (loadHistoricalData (freshManager true 0)
      [historySession "u" "Addition" dayTen [untimedMiss]] dayTen).slowestProblems = [] ∧
    (loadHistoricalData (freshManager true 0)
      [historySession "u" "Addition" dayTen [untimedMiss]] dayTen).mistakeProblems = [] := by
  have hr : ∀ b, isRelevantScore (freshManager b 0) dayTen
      (historySession "u" "Addition" dayTen [untimedMiss]) = true := by
    intro b
    cases b <;> decide
  obtain ⟨h1, h2⟩ := loadHistoricalData_pools (freshManager false 0)
    [historySession "u" "Addition" dayTen [untimedMiss]] dayTen rfl
  obtain ⟨h3, h4⟩ := loadHistoricalData_pools (freshManager true 0)
    [historySession "u" "Addition" dayTen [untimedMiss]] dayTen rfl
  refine ⟨rfl, ?_, ?_, ?_, ?_⟩
  · rw [h1]
    simp only [List.filter_cons, hr, if_true, List.filter_nil, List.flatMap_cons,
      List.flatMap_nil, processSession_single (freshManager false 0) rfl]
    rfl
  · rw [h2]
    simp only [List.filter_cons, hr, if_true, List.filter_nil, List.flatMap_cons,
      List.flatMap_nil, processSession_single (freshManager false 0) rfl]
    rfl
  · rw [h3]
    simp only [List.filter_cons, hr, if_true, List.filter_nil, List.flatMap_cons,
      List.flatMap_nil, processSession_single_untimed (freshManager true 0) rfl "u" "Addition" dayTen
        untimedMiss rfl]
    rfl
  · rw [h4]
    simp only [List.filter_cons, hr, if_true, List.filter_nil, List.flatMap_cons,
      List.flatMap_nil, processSession_single_untimed (freshManager true 0) rfl "u" "Addition" dayTen
        untimedMiss rfl]
    rfl

/-- C14 (amended): for every stored history in which every record has a
`timeTaken` that is present and positive, `loadHistoricalData` with the time
filter enabled and a threshold of 0 seconds produces the same slow pool and the
same mistake pool as with the time filter disabled. -/
theorem time_filter_zero_threshold (g : GameManager) (allScores : List Session) (now : ℤ)
    (hpos : ∀ s ∈ allScores, ∀ ps, s.problems = some ps →
      ∀ p ∈ ps, ∃ t, p.timeTaken = some t ∧ 0 < t) :
    (loadHistoricalData { g with useTimeFilter := true, timeThreshold := 0 }
        allScores now).slowestProblems =
      (loadHistoricalData { g with useTimeFilter := false } allScores now).slowestProblems ∧
    (loadHistoricalData { g with useTimeFilter := true, timeThreshold := 0 }
        allScores now).mistakeProblems =
      (loadHistoricalData { g with useTimeFilter := false } allScores now).mistakeProblems := by
  have hfilt : ∀ s ∈ allScores, ∀ ps, s.problems = some ps →
      filteredProblems { g with useTimeFilter := true, timeThreshold := 0 } ps =
        filteredProblems { g with useTimeFilter := false } ps := by
    intro s hs ps hps
    simp only [filteredProblems, if_true, Bool.false_eq_true, if_false]
    apply List.filter_eq_self.mpr
    intro p hp
    obtain ⟨t, ht, htpos⟩ := hpos s hs ps hps p hp
    have hne : t ≠ 0 := ne_of_gt htpos
    simp [passesTimeFilter, ht, hne, minTimeThresholdMs, le_of_lt htpos]
  have hrel : isRelevantScore { g with useTimeFilter := true, timeThreshold := 0 } now =
      isRelevantScore { g with useTimeFilter := false } now := rfl
  have hfold := foldl_processSession_congr
    { g with useTimeFilter := true, timeThreshold := 0 } { g with useTimeFilter := false }
    (allScores.filter (isRelevantScore { g with useTimeFilter := false } now))
    (fun s hs => hfilt s (List.mem_of_mem_filter hs)) ([], [])
  have hfoldl : ∀ g' : GameManager, g'.hasLoadedHistoricalData = false →
      (loadHistoricalData g' allScores now).slowestProblems =
        ((allScores.filter (isRelevantScore g' now)).foldl (processSession g') ([], [])).1 ∧
      (loadHistoricalData g' allScores now).mistakeProblems =
        ((allScores.filter (isRelevantScore g' now)).foldl (processSession g') ([], [])).2 := by
    intro g' h
    simp [loadHistoricalData, h]
  by_cases hload : g.hasLoadedHistoricalData = true
  · simp [loadHistoricalData, hload]
  · have hl : g.hasLoadedHistoricalData = false := by simpa using hload
    obtain ⟨a1, a2⟩ := hfoldl { g with useTimeFilter := true, timeThreshold := 0 } hl
    obtain ⟨b1, b2⟩ := hfoldl { g with useTimeFilter := false } hl
    rw [a1, a2, b1, b2, hrel, hfold]
    exact ⟨rfl, rfl⟩

/-- C14 (amended), at a concrete input: a session whose record took 3000 ms. -/
theorem time_filter_zero_threshold_witness :
    (loadHistoricalData { freshManager false 2 with useTimeFilter := true, timeThreshold := 0 }
        [historySession "h1" "Addition" dayTen [missedRecord "7 + 8" "15" 3000]]
        dayTen).slowestProblems =
      (loadHistoricalData { freshManager false 2 with useTimeFilter := false }
        [historySession "h1" "Addition" dayTen [missedRecord "7 + 8" "15" 3000]]
        dayTen).slowestProblems ∧
    (loadHistoricalData { freshManager false 2 with useTimeFilter := true, timeThreshold := 0 }
        [historySession "h1" "Addition" dayTen [missedRecord "7 + 8" "15" 3000]]
        dayTen).mistakeProblems =
      (loadHistoricalData { freshManager false 2 with useTimeFilter := false }
        [historySession "h1" "Addition" dayTen [missedRecord "7 + 8" "15" 3000]]
        dayTen).mistakeProblems :=
  time_filter_zero_threshold (freshManager false 2)
    [historySession "h1" "Addition" dayTen [missedRecord "7 + 8" "15" 3000]] dayTen
    (by
      intro s hs ps hps p hp
      rw [List.mem_singleton] at hs
      subst hs
      simp only [historySession, Option.some.injEq] at hps
      subst hps
      rw [List.mem_singleton] at hp
      subst hp
      exact ⟨3000, rfl, by norm_num⟩)

/-! ### C15, C16, C17: the session engine -/

/-- C15: `checkAnswer` with an empty answer returns `isCorrect = false` with the
message 'Please enter an answer' and leaves the manager as it was: in particular
`problemsHistory`, `problemTimings`, `mistakes` and `correctAnswers` are
unchanged. -/
theorem checkAnswer_empty (g : GameManager) (now : ℤ) (validate : String → String → Bool) :
    ∃ g' r, checkAnswer g "" now validate = some (g', r) ∧
      r.isCorrect = false ∧ r.message = "Please enter an answer" ∧
      g' = g ∧ g'.problemsHistory = g.problemsHistory ∧
      g'.problemTimings = g.problemTimings ∧ g'.mistakes = g.mistakes ∧
      g'.correctAnswers = g.correctAnswers :=
  ⟨g, { isCorrect := false, message := "Please enter an answer" },
    by simp [checkAnswer], rfl, rfl, rfl, rfl, rfl, rfl, rfl⟩

/-- C16: for a non-empty answer and a current problem `p`, `checkAnswer` appends
exactly one record to `problemsHistory`, the earlier records staying as they
were; the record holds the question and answer of `p`, the user's answer, and
`isCorrect` equal to the module's verdict `validateAnswer(userAnswer, p.answer)`,
which is also the `isCorrect` returned. -/
theorem checkAnswer_appends_record (g : GameManager) (userAnswer : String) (now : ℤ)
    (validate : String → String → Bool) (p : Problem)
    (hne : userAnswer ≠ "") (hp : g.currentProblem = some p) :
    ∃ g' r record, checkAnswer g userAnswer now validate = some (g', r) ∧
      g'.problemsHistory = g.problemsHistory ++ [record] ∧
      record.problem = p.question ∧ record.answer = p.answer ∧
      record.userAnswer = userAnswer ∧
      record.isCorrect = some (validate userAnswer p.answer) ∧
      r.isCorrect = validate userAnswer p.answer := by
  by_cases hv : validate userAnswer p.answer = true
  · have hc : checkAnswer g userAnswer now validate = some
        ({ g with
            problemTimings := g.problemTimings ++
              [{ problem := p.question, answer := p.answer, userAnswer := userAnswer,
                 timeTaken := some ((now - g.lastProblemStartTime.getD 0 : ℤ) : ℚ),
                 isCorrect := some true, source := some (jsOrStr p.source "random") }],
            problemsHistory := g.problemsHistory ++
              [{ problem := p.question, answer := p.answer, userAnswer := userAnswer,
                 timeTaken := some ((now - g.lastProblemStartTime.getD 0 : ℤ) : ℚ),
                 isCorrect := some true, source := some (jsOrStr p.source "random") }],
            correctAnswers := g.correctAnswers + 1 },
          { isCorrect := true, message := "Correct" }) := by
      simp only [checkAnswer, if_neg hne, hp, hv, if_true]
    exact ⟨_, _, _, hc, rfl, rfl, rfl, rfl, by rw [hv], hv.symm⟩
  · have hv' : validate userAnswer p.answer = false := by simpa using hv
    have hc : checkAnswer g userAnswer now validate = some
        ({ g with
            problemTimings := g.problemTimings ++
              [{ problem := p.question, answer := p.answer, userAnswer := userAnswer,
                 timeTaken := some ((now - g.lastProblemStartTime.getD 0 : ℤ) : ℚ),
                 isCorrect := some false, source := some (jsOrStr p.source "random") }],
            problemsHistory := g.problemsHistory ++
              [{ problem := p.question, answer := p.answer, userAnswer := userAnswer,
                 timeTaken := some ((now - g.lastProblemStartTime.getD 0 : ℤ) : ℚ),
                 isCorrect := some false, source := some (jsOrStr p.source "random") }],
            mistakes := g.mistakes ++
              [{ problem := p.question, correctAnswer := p.answer,
                 userAnswer := userAnswer }] },
          { isCorrect := false, message := "Incorrect" }) := by
      simp only [checkAnswer, if_neg hne, hp, hv', Bool.false_eq_true, if_false]
    exact ⟨_, _, _, hc, rfl, rfl, rfl, rfl, by rw [hv'], hv'.symm⟩

/-- C16, at a concrete input: the wrong answer "14" to "7 + 8" is recorded as
incorrect behind the earlier history. -/
theorem checkAnswer_appends_record_witness :
    ∃ g' r record, checkAnswer runningManager "14" 4000 exactValidator = some (g', r) ∧
      g'.problemsHistory = runningManager.problemsHistory ++ [record] ∧
      record.problem = "7 + 8" ∧ record.answer = "15" ∧
      record.userAnswer = "14" ∧
      record.isCorrect = some (exactValidator "14" "15") ∧
      r.isCorrect = exactValidator "14" "15" :=
  checkAnswer_appends_record runningManager "14" 4000 exactValidator
    { question := "7 + 8", answer := "15", display := "7 + 8", source := some "random",
      isLargeNumbers := none, verticalDisplay := none, difficulty := none, range := none }
    (by decide) rfl

theorem filter_orderedInsert_key {α : Type} (key : α → ℚ) (t : ℚ) (a : α) (l : List α) :
    (List.orderedInsert (fun x y => key y ≤ key x) a l).filter (fun x => decide (key x = t)) =
      if key a = t then a :: l.filter (fun x => decide (key x = t))
      else l.filter (fun x => decide (key x = t)) := by
  induction l with
  | nil => by_cases h : key a = t <;> simp [h]
  | cons b rest ih =>
    by_cases hab : key b ≤ key a
    · rw [List.orderedInsert, if_pos hab]
      by_cases h : key a = t <;> simp [List.filter_cons, h]
    · rw [List.orderedInsert, if_neg hab, List.filter_cons, ih]
      by_cases h : key a = t
      · have hb : key b ≠ t := by
          intro hb
          exact hab (by rw [hb, h])
        simp [h, hb, List.filter_cons]
      · simp [h, List.filter_cons]

/-- The descending stable sort keeps the records of each key in their order. -/
theorem filter_insertionSort_key {α : Type} (key : α → ℚ) (t : ℚ) (l : List α) :
    (l.insertionSort (fun x y => key y ≤ key x)).filter (fun x => decide (key x = t)) =
      l.filter (fun x => decide (key x = t)) := by
  induction l with
  | nil => rfl
  | cons a rest ih =>
    rw [List.insertionSort, filter_orderedInsert_key, ih]
    by_cases h : key a = t <;> simp [h, List.filter_cons]

/-- C17: `slowestFive` of `endGame` holds min(5, n) of the round's n records, in
non-increasing order of `timeTaken`; the records split into the listed ones and
a remainder, and no record of the remainder has a larger `timeTaken` than a
listed one; and for each value of `timeTaken`, the listed records with that
value are the first ones, in the order they were answered, of the round's
records with that value. -/
theorem slowestFive_spec (g : GameManager) (endTime : ℤ) :
    (endGame g endTime).slowestFive.length = min 5 g.problemTimings.length ∧
    (endGame g endTime).slowestFive.Pairwise (fun a b => recordTime b ≤ recordTime a) ∧
    (∃ rest, ((endGame g endTime).slowestFive ++ rest).Perm g.problemTimings ∧
      ∀ a ∈ (endGame g endTime).slowestFive, ∀ b ∈ rest, recordTime b ≤ recordTime a) ∧
    (∀ t, ((endGame g endTime).slowestFive.filter (fun p => decide (recordTime p = t))) <+:
      (g.problemTimings.filter (fun p => decide (recordTime p = t)))) := by
  have hfive : (endGame g endTime).slowestFive =
      (g.problemTimings.insertionSort (fun a b => recordTime b ≤ recordTime a)).take 5 := rfl
  have hsorted := sorted_insertionSort_desc recordTime g.problemTimings
  refine ⟨?_, ?_, ?_, ?_⟩
  · rw [hfive, List.length_take, List.length_insertionSort]
  · rw [hfive]
    exact hsorted.sublist (List.take_sublist _ _)
  · refine ⟨(g.problemTimings.insertionSort (fun a b => recordTime b ≤ recordTime a)).drop 5,
      ?_, ?_⟩
    · rw [hfive, List.take_append_drop]
      exact List.perm_insertionSort _ _
    · intro a ha b hb
      rw [hfive] at ha
      exact hsorted.rel_of_mem_take_of_mem_drop ha hb
  · intro t
    rw [hfive, ← filter_insertionSort_key recordTime t g.problemTimings]
    exact (List.take_prefix _ _).filter _

/-! ### C18 and C19: the session record built at round end -/

theorem length_filter_add_length_filter_not {α : Type} (p : α → Bool) (l : List α) :
    (l.filter p).length + (l.filter (fun x => !p x)).length = l.length := by
  induction l with
  | nil => rfl
  | cons a rest ih =>
    cases h : p a <;> simp [List.filter_cons, h] <;> omega

/-- A fraction with denominator `2 * t` that is below a whole number is below
it by at least `1 / (2 * t)`. -/
theorem half_step_gap (c t : ℕ) (r : ℤ) (ht : 0 < t)
    (h : (c : ℚ) / (t : ℚ) * 100 + 1 / 2 < (r : ℚ)) :
    (c : ℚ) / (t : ℚ) * 100 + 1 / 2 + 1 / (2 * (t : ℚ)) ≤ (r : ℚ) := by
  have htq : (0 : ℚ) < (t : ℚ) := by exact_mod_cast ht
  have h1 : (c : ℚ) / (t : ℚ) * 100 + 1 / 2 = ((200 * (c : ℤ) + (t : ℤ) : ℤ) : ℚ) / (2 * (t : ℚ)) := by
    push_cast
    field_simp
    ring
  rw [h1, div_lt_iff₀ (by positivity)] at h
  have h2 : ((200 * (c : ℤ) + (t : ℤ) : ℤ) : ℚ) < ((r * (2 * (t : ℤ)) : ℤ) : ℚ) := by
    push_cast at h ⊢
    linarith
  have h3 : 200 * (c : ℤ) + (t : ℤ) < r * (2 * (t : ℤ)) := by exact_mod_cast h2
  have h4 : 200 * (c : ℤ) + (t : ℤ) + 1 ≤ r * (2 * (t : ℤ)) := by omega
  have h5 : ((200 * (c : ℤ) + (t : ℤ) + 1 : ℤ) : ℚ) ≤ ((r * (2 * (t : ℤ)) : ℤ) : ℚ) := by
    exact_mod_cast h4
  rw [h1, ← add_div, div_le_iff₀ (by positivity)]
  push_cast at h5 ⊢
  linarith

theorem half_step_gap_above (c t : ℕ) (r : ℤ) (ht : 0 < t)
    (h : (r : ℚ) < (c : ℚ) / (t : ℚ) * 100 + 1 / 2) :
    (r : ℚ) + 1 / (2 * (t : ℚ)) ≤ (c : ℚ) / (t : ℚ) * 100 + 1 / 2 := by
  have htq : (0 : ℚ) < (t : ℚ) := by exact_mod_cast ht
  have h1 : (c : ℚ) / (t : ℚ) * 100 + 1 / 2 = ((200 * (c : ℤ) + (t : ℤ) : ℤ) : ℚ) / (2 * (t : ℚ)) := by
    push_cast
    field_simp
    ring
  rw [h1, lt_div_iff₀ (by positivity)] at h
  have h2 : ((r * (2 * (t : ℤ)) : ℤ) : ℚ) < ((200 * (c : ℤ) + (t : ℤ) : ℤ) : ℚ) := by
    push_cast at h ⊢
    linarith
  have h3 : r * (2 * (t : ℤ)) < 200 * (c : ℤ) + (t : ℤ) := by exact_mod_cast h2
  have h4 : r * (2 * (t : ℤ)) + 1 ≤ 200 * (c : ℤ) + (t : ℤ) := by omega
  have h5 : ((r * (2 * (t : ℤ)) + 1 : ℤ) : ℚ) ≤ ((200 * (c : ℤ) + (t : ℤ) : ℤ) : ℚ) := by
    exact_mod_cast h4
  rw [h1, le_div_iff₀ (by positivity)]
  push_cast at h5 ⊢
  have : 1 / (2 * (t : ℚ)) * (2 * (t : ℚ)) = 1 := by field_simp
  nlinarith

/-- The accuracy of `c` right answers out of `t`, for `t` below `2 ^ 40`: the
percentage rounded half up, except that an exact half may be rounded down. -/
theorem accuracyOf_near (c t : ℕ) (ht : 0 < t) (hc : c ≤ t) (ht2 : t < 2 ^ 40) :
    accuracyOf c t = ((⌊(c : ℚ) / (t : ℚ) * 100 + 1 / 2⌋ : ℤ) : ℚ) ∨
    (accuracyOf c t = ((⌊(c : ℚ) / (t : ℚ) * 100 + 1 / 2⌋ - 1 : ℤ) : ℚ) ∧
      (c : ℚ) / (t : ℚ) * 100 + 1 / 2 = ((⌊(c : ℚ) / (t : ℚ) * 100 + 1 / 2⌋ : ℤ) : ℚ)) := by
  have htq : (0 : ℚ) < (t : ℚ) := by exact_mod_cast ht
  have ht2q : (t : ℚ) < 2 ^ 40 := by exact_mod_cast ht2
  have hcq : (c : ℚ) ≤ (t : ℚ) := by exact_mod_cast hc
  have hx0 : (0 : ℚ) ≤ (c : ℚ) / (t : ℚ) := by positivity
  have hx1 : (c : ℚ) / (t : ℚ) ≤ 1 := (div_le_one htq).mpr hcq
  obtain ⟨hlo, hhi⟩ := fl_hundred_bounds _ hx0
  have hgap : (1 : ℚ) / 2 ^ 41 ≤ 1 / (2 * (t : ℚ)) := by
    apply one_div_le_one_div_of_le (by positivity)
    have : (2 : ℚ) ^ 41 = 2 * 2 ^ 40 := by norm_num
    linarith
  have hr1 : ((⌊(c : ℚ) / (t : ℚ) * 100 + 1 / 2⌋ : ℤ) : ℚ) ≤ (c : ℚ) / (t : ℚ) * 100 + 1 / 2 :=
    Int.floor_le _
  have hr2 : (c : ℚ) / (t : ℚ) * 100 + 1 / 2 <
      ((⌊(c : ℚ) / (t : ℚ) * 100 + 1 / 2⌋ + 1 : ℤ) : ℚ) := by
    push_cast
    exact Int.lt_floor_add_one _
  have hup := half_step_gap c t _ ht hr2
  push_cast at hup
  simp only [accuracyOf, gt_iff_lt, if_pos ht]
  generalize hp : fl (fl ((c : ℚ) / (t : ℚ)) * 100) = p at hlo hhi
  generalize hr : ⌊(c : ℚ) / (t : ℚ) * 100 + 1 / 2⌋ = r at hr1 hup
  have hsmall : (100 : ℚ) * (1 / 2 ^ 51) < 1 / 2 ^ 41 := by norm_num
  have hk_le : ⌊p + 1 / 2⌋ ≤ r := by
    have : ⌊p + 1 / 2⌋ < r + 1 := by
      rw [Int.floor_lt]
      push_cast
      nlinarith
    omega
  rcases eq_or_lt_of_le hr1 with htie | hlt
  · have hk_ge : r - 1 ≤ ⌊p + 1 / 2⌋ := by
      rw [Int.le_floor]
      push_cast
      nlinarith
    rcases eq_or_lt_of_le hk_le with h | h
    · left
      rw [h]
    · right
      refine ⟨?_, htie.symm⟩
      have : ⌊p + 1 / 2⌋ = r - 1 := by omega
      rw [this]
  · left
    have hdown := half_step_gap_above c t r ht hlt
    have hk_ge : r ≤ ⌊p + 1 / 2⌋ := by
      rw [Int.le_floor]
      nlinarith
    have : ⌊p + 1 / 2⌋ = r := le_antisymm hk_le hk_ge
    rw [this]

theorem accuracyOf_range (c t : ℕ) (hc : c ≤ t) :
    ∃ n : ℤ, accuracyOf c t = (n : ℚ) ∧ 0 ≤ n ∧ n ≤ 100 := by
  by_cases ht : 0 < t
  · have htq : (0 : ℚ) < (t : ℚ) := by exact_mod_cast ht
    have hcq : (c : ℚ) ≤ (t : ℚ) := by exact_mod_cast hc
    have hx0 : (0 : ℚ) ≤ (c : ℚ) / (t : ℚ) := by positivity
    have hx1 : (c : ℚ) / (t : ℚ) ≤ 1 := (div_le_one htq).mpr hcq
    obtain ⟨hlo, hhi⟩ := fl_hundred_bounds _ hx0
    refine ⟨⌊fl (fl ((c : ℚ) / (t : ℚ)) * 100) + 1 / 2⌋, by simp only [accuracyOf, gt_iff_lt, if_pos ht], ?_, ?_⟩
    · apply Int.floor_nonneg.mpr
      nlinarith
    · have : ⌊fl (fl ((c : ℚ) / (t : ℚ)) * 100) + 1 / 2⌋ < 101 := by
        rw [Int.floor_lt]
        push_cast
        nlinarith
      omega
  · refine ⟨100, ?_, by norm_num, by norm_num⟩
    simp [accuracyOf, ht]

theorem accuracyOf_twentythree_forty : accuracyOf 23 40 = 57 := by
  have hq : ((23 : ℕ) : ℚ) / ((40 : ℕ) : ℚ) = 23 / 40 := by norm_num
  have h1 : fl (23 / 40) = 2589569785738035 / 4503599627370496 := by
    rw [fl_eq_of_pos (23 / 40) (-1) 5179139571476070 (by norm_num) (by norm_num) (by norm_num)
      (by norm_num)]
    norm_num
  have h2 : fl (2589569785738035 / 4503599627370496 * 100) = 8092405580431359 / 140737488355328 := by
    rw [fl_eq_of_pos _ (5) 8092405580431359 (by norm_num) (by norm_num) (by norm_num)
      (by norm_num)]
    norm_num
  simp only [accuracyOf, gt_iff_lt]
  rw [if_pos (by norm_num), hq, h1, h2]
  norm_num

/-- C18 (as stated, refuted): a round of forty answers, twenty-three of them
right. The percentage 57.5 rounds half up to 58, yet the accuracy stored is 57:
the double quotient 23/40 is just below 0.575 and its double product by 100 is
57.49999999999999. -/
theorem accuracy_half_counterexample :
    (validProblems fortyAnswers.problemsHistory).length = 40 ∧
    ((validProblems fortyAnswers.problemsHistory).filter isCorrectTruthy).length = 23 ∧
    (⌊(23 : ℚ) / 40 * 100 + 1 / 2⌋ : ℤ) = 58 ∧
    (buildSession (endGame fortyAnswers 61000) "score-1" 61000 60 (some "Addition")
      none).accuracy = 57 := by
  have hv : validProblems fortyAnswers.problemsHistory =
      List.replicate 23 (timedRecord 1000) ++
        List.replicate 17 (missedRecord "7 + 8" "15" 3000) := by
    simp [validProblems, fortyAnswers, timedRecord, missedRecord, List.filter_append,
      List.filter_replicate]
  have hlen : (validProblems fortyAnswers.problemsHistory).length = 40 := by
    rw [hv]
    simp
  have hcor : ((validProblems fortyAnswers.problemsHistory).filter isCorrectTruthy).length =
      23 := by
    rw [hv]
    simp [isCorrectTruthy, timedRecord, missedRecord, List.filter_append,
      List.filter_replicate]
  refine ⟨hlen, hcor, ?_, ?_⟩
  · rw [Int.floor_eq_iff]
    norm_num
  · have hacc : (buildSession (endGame fortyAnswers 61000) "score-1" 61000 60
        (some "Addition") none).accuracy =
        accuracyOf ((validProblems fortyAnswers.problemsHistory).filter isCorrectTruthy).length
          (validProblems fortyAnswers.problemsHistory).length := rfl
    rw [hacc, hcor, hlen]
    exact accuracyOf_twentythree_forty

/-- C18 (amended): the accuracy stored in the session built at round end is
`Math.round` of the double `(correct / total) * 100` when total > 0 and 100 when
total = 0, where total is the number of answered records of the round and
correct the number of them whose `isCorrect` is true. For a total below 2^40 it
is the percentage rounded half up, except that a percentage that is exactly a
whole number and a half may be rounded down. It is an integer between 0 and
100. -/
theorem accuracy_spec (g : GameManager) (endTime : ℤ) (sessionId : String) (now : ℤ)
    (selectedDuration : ℚ) (moduleName moduleDifficulty : Option String) :
    (0 < (validProblems g.problemsHistory).length →
      (buildSession (endGame g endTime) sessionId now selectedDuration moduleName
        moduleDifficulty).accuracy =
        ((⌊fl (fl ((((validProblems g.problemsHistory).filter isCorrectTruthy).length : ℚ) /
            ((validProblems g.problemsHistory).length : ℚ)) * 100) + 1 / 2⌋ : ℤ) : ℚ)) ∧
    (0 < (validProblems g.problemsHistory).length →
      (validProblems g.problemsHistory).length < 2 ^ 40 →
      (buildSession (endGame g endTime) sessionId now selectedDuration moduleName
        moduleDifficulty).accuracy =
        ((⌊(((validProblems g.problemsHistory).filter isCorrectTruthy).length : ℚ) /
            ((validProblems g.problemsHistory).length : ℚ) * 100 + 1 / 2⌋ : ℤ) : ℚ) ∨
      ((buildSession (endGame g endTime) sessionId now selectedDuration moduleName
        moduleDifficulty).accuracy =
        ((⌊(((validProblems g.problemsHistory).filter isCorrectTruthy).length : ℚ) /
            ((validProblems g.problemsHistory).length : ℚ) * 100 + 1 / 2⌋ - 1 : ℤ) : ℚ) ∧
        (((validProblems g.problemsHistory).filter isCorrectTruthy).length : ℚ) /
            ((validProblems g.problemsHistory).length : ℚ) * 100 + 1 / 2 =
          ((⌊(((validProblems g.problemsHistory).filter isCorrectTruthy).length : ℚ) /
            ((validProblems g.problemsHistory).length : ℚ) * 100 + 1 / 2⌋ : ℤ) : ℚ))) ∧
    ((validProblems g.problemsHistory).length = 0 →
      (buildSession (endGame g endTime) sessionId now selectedDuration moduleName
        moduleDifficulty).accuracy = 100) ∧
    ∃ n : ℤ, (buildSession (endGame g endTime) sessionId now selectedDuration moduleName
        moduleDifficulty).accuracy = (n : ℚ) ∧ 0 ≤ n ∧ n ≤ 100 := by
  have hacc : (buildSession (endGame g endTime) sessionId now selectedDuration moduleName
      moduleDifficulty).accuracy =
      accuracyOf ((validProblems g.problemsHistory).filter isCorrectTruthy).length
        (validProblems g.problemsHistory).length := rfl
  have hle : ((validProblems g.problemsHistory).filter isCorrectTruthy).length ≤
      (validProblems g.problemsHistory).length := List.length_filter_le _ _
  rw [hacc]
  refine ⟨?_, ?_, ?_, accuracyOf_range _ _ hle⟩
  · intro ht
    simp only [accuracyOf, gt_iff_lt, if_pos ht]
  · intro ht ht2
    exact accuracyOf_near _ _ ht hle ht2
  · intro h0
    simp [accuracyOf, h0]

/-- C18 (amended), at a concrete round: three answers, two of them right, give
the accuracy 67. -/
theorem accuracy_spec_witness :
    0 < (validProblems finishedManager.problemsHistory).length ∧
    (buildSession (endGame finishedManager 61000) "score-1" 61000 60 (some "Addition")
      none).accuracy = 67 := by
  have hv : validProblems finishedManager.problemsHistory =
      [timedRecord 2000, missedRecord "7 + 8" "15" 3000, timedRecord 1000] := by
    simp [validProblems, finishedManager, timedRecord, missedRecord, List.filter_cons]
  have hlen : (validProblems finishedManager.problemsHistory).length = 3 := by rw [hv]; rfl
  have hcor : ((validProblems finishedManager.problemsHistory).filter isCorrectTruthy).length =
      2 := by
    rw [hv]
    simp [isCorrectTruthy, timedRecord, missedRecord, List.filter_cons]
  have hpos : 0 < (validProblems finishedManager.problemsHistory).length := by rw [hlen]; norm_num
  have h := (accuracy_spec finishedManager 61000 "score-1" 61000 60 (some "Addition")
    none).2.1 hpos (by rw [hlen]; norm_num)
  rw [hcor, hlen] at h
  have hfl : (⌊((2 : ℕ) : ℚ) / ((3 : ℕ) : ℚ) * 100 + 1 / 2⌋ : ℤ) = 67 := by
    rw [Int.floor_eq_iff]
    norm_num
  rw [hfl] at h
  refine ⟨hpos, ?_⟩
  rcases h with h | ⟨_, htie⟩
  · rw [h]
    norm_num
  · norm_num at htie

/-- C19: the session record built at round end satisfies the data-model
invariant: `problems` is the list of answered records, `totalProblems` is its
length, `score` is the number of those records whose `isCorrect` is true,
`mistakes` is the list of those that are not correct, and so
mistakes.length = totalProblems - score. -/
theorem session_invariant (g : GameManager) (endTime : ℤ) (sessionId : String) (now : ℤ)
    (selectedDuration : ℚ) (moduleName moduleDifficulty : Option String) :
    ∃ ps score,
      (buildSession (endGame g endTime) sessionId now selectedDuration moduleName
        moduleDifficulty).problems = some ps ∧
      ps = g.problemsHistory.filter (fun p => decide (p.userAnswer ≠ "")) ∧
      (buildSession (endGame g endTime) sessionId now selectedDuration moduleName
        moduleDifficulty).totalProblems = (ps.length : ℚ) ∧
      (buildSession (endGame g endTime) sessionId now selectedDuration moduleName
        moduleDifficulty).score = some score ∧
      score = ((ps.filter (fun p => p.isCorrect == some true)).length : ℚ) ∧
      (buildSession (endGame g endTime) sessionId now selectedDuration moduleName
        moduleDifficulty).mistakes = ps.filter (fun p => !(p.isCorrect == some true)) ∧
      (((buildSession (endGame g endTime) sessionId now selectedDuration moduleName
        moduleDifficulty).mistakes.length : ℕ) : ℚ) =
        (buildSession (endGame g endTime) sessionId now selectedDuration moduleName
          moduleDifficulty).totalProblems - score := by
  refine ⟨validProblems g.problemsHistory,
    (((validProblems g.problemsHistory).filter isCorrectTruthy).length : ℚ),
    rfl, rfl, rfl, rfl, rfl, rfl, ?_⟩
  have h := length_filter_add_length_filter_not isCorrectTruthy (validProblems g.problemsHistory)
  have hq : ((((validProblems g.problemsHistory).filter isCorrectTruthy).length : ℕ) : ℚ) +
      ((((validProblems g.problemsHistory).filter (fun x => !isCorrectTruthy x)).length : ℕ) : ℚ)
        = (((validProblems g.problemsHistory).length : ℕ) : ℚ) := by exact_mod_cast h
  show ((((validProblems g.problemsHistory).filter (fun x => !isCorrectTruthy x)).length : ℕ) : ℚ)
    = (((validProblems g.problemsHistory).length : ℕ) : ℚ) -
      ((((validProblems g.problemsHistory).filter isCorrectTruthy).length : ℕ) : ℚ)
  linarith

/-- The record of a round of three answers, two of them right: accuracy 67,
one mistake, and the slowest records listed slowest first. -/
theorem buildSession_finishedManager :
    (buildSession (endGame finishedManager 61000) "score-1" 61000 60 (some "Addition")
      none).accuracy = 67 ∧
    (buildSession (endGame finishedManager 61000) "score-1" 61000 60 (some "Addition")
      none).mistakes = [missedRecord "7 + 8" "15" 3000] ∧
    (endGame finishedManager 61000).slowestFive =
      [missedRecord "7 + 8" "15" 3000, timedRecord 2000, timedRecord 1000] := by
  refine ⟨?_, ?_, ?_⟩
  · have h1 : validProblems (endGame finishedManager 61000).problemsHistory =
        [timedRecord 2000, missedRecord "7 + 8" "15" 3000, timedRecord 1000] := by
      simp [validProblems, endGame, finishedManager, timedRecord, missedRecord, List.filter_cons]
    have h67 : accuracyOf 2 3 = 67 := by
      have hq : ((2 : ℕ) : ℚ) / ((3 : ℕ) : ℚ) = 2 / 3 := by norm_num
      simp only [accuracyOf, gt_iff_lt]
      rw [if_pos (by norm_num), hq,
        round_hundred_of_bounds (2 / 3) 67 (by norm_num) (by norm_num) (by norm_num)]
      norm_num
    simp only [buildSession, h1]
    simp only [List.filter_cons, isCorrectTruthy, timedRecord, missedRecord]
    exact h67
  · simp [buildSession, validProblems, endGame, finishedManager, timedRecord, missedRecord,
      List.filter_cons, isCorrectTruthy]
  · simp only [endGame, finishedManager]
    norm_num [List.insertionSort, List.orderedInsert, recordTime, timedRecord, missedRecord]

/-! ### C20: the fallback path of the settings -/

/-- C20 (the code at the failing input): without a database handle,
`saveSettingToIndexedDB` leaves both stores as they were, because the fallback
branch writes settings only when `data` is an array and a single setting is an
object; so after saving `showFeedback = false` into empty stores, reading
`showFeedback` with default `true` returns the default `true`, not the value
written. -/
theorem fallback_setting_lost :
    (∀ (st : Storage) (key : String) (value : JsValue) (txError : Bool),
      st.db = false → saveSettingToIndexedDB st key value txError = st) ∧
    getSettingFromIndexedDB
      (saveSettingToIndexedDB noDatabase "showFeedback" (JsValue.bool false) false)
      "showFeedback" (JsValue.bool true) false = JsValue.bool true := by
  constructor
  · intro st key value txError h
    simp [saveSettingToIndexedDB, saveToIndexedDB, saveFallback, h]
  · rfl

/-! ### C21 and C22: the startup migration -/

/-- C21 (the code at the failing input): the durable store holds session `a`
and `localStorage` holds session `b`. The startup migration replaces the
content of the durable store by the list from `localStorage` without looking at
what the store holds: afterwards the store holds `b` alone, session `a` is in
neither store. -/
theorem startup_migration_drops_durable :
    sampleSession "a" (some 60) 8 10 60 [1000] ∈ bothStores.scoresStore ∧
    startupMigration bothStores true false (fun _ => false) =
      { db := true, scoresStore := [sampleSession "b" (some 60) 9 10 60 [1000]],
        settingsStore := [], localStorage := [] } ∧
    sampleSession "a" (some 60) 8 10 60 [1000] ∉
      (startupMigration bothStores true false (fun _ => false)).scoresStore := by
  have h : startupMigration bothStores true false (fun _ => false) =
      { db := true, scoresStore := [sampleSession "b" (some 60) 9 10 60 [1000]],
        settingsStore := [], localStorage := [] } := rfl
  refine ⟨List.mem_singleton.mpr rfl, h, ?_⟩
  rw [h]
  simp [sampleSession]

theorem getItem_removeItem_self (items : List (String × JsValue)) (key : String) :
    getItem (removeItem items key) key = none := by
  unfold getItem removeItem
  rw [Option.map_eq_none', List.find?_eq_none]
  intro kv hkv
  have := (List.mem_filter.mp hkv).2
  simpa using this

theorem getItem_removeItem_ne (items : List (String × JsValue)) (key other : String)
    (h : other ≠ key) : getItem (removeItem items key) other = getItem items other := by
  unfold getItem removeItem
  rw [List.find?_filter]
  have hp : (fun kv : String × JsValue =>
        decide ((kv.1 != key) = true ∧ (kv.1 == other) = true)) =
      (fun kv : String × JsValue => kv.1 == other) := by
    funext kv
    by_cases ho : kv.1 = other
    · have hk : kv.1 ≠ key := fun hk => h (ho.symm.trans hk)
      simp [ho, hk, h]
    · simp [ho]
  rw [hp]

theorem saveSettingToIndexedDB_frame (st : Storage) (key : String) (value : JsValue)
    (txError : Bool) :
    (saveSettingToIndexedDB st key value txError).localStorage = st.localStorage ∧
    (saveSettingToIndexedDB st key value txError).db = st.db ∧
    (saveSettingToIndexedDB st key value txError).scoresStore = st.scoresStore := by
  unfold saveSettingToIndexedDB saveToIndexedDB
  cases hdb : st.db <;> cases txError <;> simp [saveFallback, hdb]

theorem migrateSetting_frame (txError : String → Bool) (st : Storage) (key : String) :
    (migrateSetting txError st key).db = st.db ∧
    (migrateSetting txError st key).scoresStore = st.scoresStore ∧
    getItem (migrateSetting txError st key).localStorage key = none ∧
    (∀ other, other ≠ key →
      getItem (migrateSetting txError st key).localStorage other =
        getItem st.localStorage other) ∧
    (getItem st.localStorage key = none → migrateSetting txError st key = st) := by
  unfold migrateSetting
  cases hg : getItem st.localStorage key with
  | none => exact ⟨rfl, rfl, hg, fun _ _ => rfl, fun _ => rfl⟩
  | some v =>
    obtain ⟨hls, hdb, hsc⟩ := saveSettingToIndexedDB_frame st key v (txError key)
    refine ⟨hdb, hsc, ?_, ?_, fun h => absurd h (by simp)⟩
    · simp only [hls]
      exact getItem_removeItem_self _ _
    · intro other hne
      simp only [hls]
      exact getItem_removeItem_ne _ _ _ hne

theorem migrateSetting_absent (txError : String → Bool) (st : Storage) (key k : String)
    (h : getItem st.localStorage k = none) :
    getItem (migrateSetting txError st key).localStorage k = none := by
  obtain ⟨_, _, hself, hother, _⟩ := migrateSetting_frame txError st key
  by_cases hk : k = key
  · rw [hk]; exact hself
  · rw [hother k hk]; exact h

theorem foldl_migrateSetting_frame (txError : String → Bool) (keys : List String)
    (st : Storage) :
    (keys.foldl (migrateSetting txError) st).db = st.db ∧
    (keys.foldl (migrateSetting txError) st).scoresStore = st.scoresStore ∧
    (∀ k, getItem st.localStorage k = none →
      getItem (keys.foldl (migrateSetting txError) st).localStorage k = none) ∧
    (∀ k, k ∉ keys →
      getItem (keys.foldl (migrateSetting txError) st).localStorage k =
        getItem st.localStorage k) ∧
    (∀ k ∈ keys, getItem (keys.foldl (migrateSetting txError) st).localStorage k = none) := by
  induction keys generalizing st with
  | nil => exact ⟨rfl, rfl, fun _ h => h, fun _ _ => rfl, fun _ h => absurd h (by simp)⟩
  | cons key rest ih =>
    obtain ⟨hdb, hsc, habs, hkeep, hnone⟩ := ih (migrateSetting txError st key)
    obtain ⟨hdb1, hsc1, hself1, hother1, _⟩ := migrateSetting_frame txError st key
    rw [List.foldl_cons]
    refine ⟨hdb.trans hdb1, hsc.trans hsc1, ?_, ?_, ?_⟩
    · intro k hk
      exact habs k (migrateSetting_absent txError st key k hk)
    · intro k hk
      rw [List.mem_cons, not_or] at hk
      rw [hkeep k hk.2, hother1 k hk.1]
    · intro k hk
      rcases List.mem_cons.mp hk with hk | hk
      · rw [hk]; exact habs key hself1
      · exact hnone k hk

theorem foldl_migrateSetting_id (txError : String → Bool) (keys : List String)
    (st : Storage) (h : ∀ k ∈ keys, getItem st.localStorage k = none) :
    keys.foldl (migrateSetting txError) st = st := by
  induction keys with
  | nil => rfl
  | cons key rest ih =>
    rw [List.foldl_cons,
      (migrateSetting_frame txError st key).2.2.2.2 (h key (List.mem_cons_self _ _))]
    exact ih (fun k hk => h k (List.mem_cons_of_mem _ hk))

theorem localScoresOf_of_getItem (st st' : Storage)
    (h : getItem st'.localStorage "mathScores" = getItem st.localStorage "mathScores") :
    localScoresOf st' = localScoresOf st := by
  unfold localScoresOf
  rw [h]

theorem saveToIndexedDB_db (st : Storage) (data : SaveData) (txError : Bool) :
    (saveToIndexedDB st data txError).db = st.db := by
  unfold saveToIndexedDB
  cases hdb : st.db
  · cases data <;> simp [saveFallback, hdb]
  · cases data <;> simp only [Bool.not_true, Bool.false_eq_true, if_false] <;>
      split <;> simp [saveFallback, hdb]

theorem migrateLocalScores_frame (st : Storage) (txError : Bool) :
    (migrateLocalScores st txError).db = st.db ∧
    localScoresOf (migrateLocalScores st txError) = [] := by
  unfold migrateLocalScores
  by_cases hlen : (localScoresOf st).length > 0
  · simp only [hlen, if_true]
    refine ⟨saveToIndexedDB_db _ _ _, ?_⟩
    unfold localScoresOf
    simp only [getItem_removeItem_self]
  · simp only [hlen, if_false]
    exact ⟨trivial, List.length_eq_zero.mp (by omega)⟩

/-- What the startup migration leaves when the database opens: the handle is
set, no sessions are left under `mathScores` and none of the migrated setting
keys is left in `localStorage`. -/
theorem startupMigration_done (st : Storage) (scoresTxError : Bool)
    (settingsTxError : String → Bool) :
    (startupMigration st true scoresTxError settingsTxError).db = true ∧
    localScoresOf (startupMigration st true scoresTxError settingsTxError) = [] ∧
    ∀ k ∈ settingsToMigrate,
      getItem (startupMigration st true scoresTxError settingsTxError).localStorage k =
        none := by
  have hkey : "mathScores" ∉ settingsToMigrate := by decide
  have hm : startupMigration st true scoresTxError settingsTxError =
      settingsToMigrate.foldl (migrateSetting settingsTxError)
        (migrateLocalScores { st with db := true } scoresTxError) := by
    simp only [startupMigration, initDB, if_true, migrateSettingsFromLocalStorage]
  obtain ⟨hdb1, hloc1⟩ := migrateLocalScores_frame { st with db := true } scoresTxError
  obtain ⟨hdb, _, _, hkeep, hnone⟩ := foldl_migrateSetting_frame settingsTxError
    settingsToMigrate (migrateLocalScores { st with db := true } scoresTxError)
  rw [hm]
  refine ⟨hdb.trans hdb1, ?_, hnone⟩
  rw [localScoresOf_of_getItem _ _ (hkeep "mathScores" hkey)]
  exact hloc1

/-- C22: the startup migration is idempotent: for every content of the two
stores, whether or not the database opens, and whatever errors the writes meet,
running the migration again on the state it left changes nothing: the durable
and the ephemeral stores after two runs are those after one. -/
theorem startup_migration_idempotent (st : Storage) (available : Bool)
    (scoresTxError scoresTxError2 : Bool) (settingsTxError settingsTxError2 : String → Bool) :
    startupMigration (startupMigration st available scoresTxError settingsTxError)
        available scoresTxError2 settingsTxError2 =
      startupMigration st available scoresTxError settingsTxError := by
  cases available with
  | false => simp [startupMigration, initDB]
  | true =>
    obtain ⟨hdb, hloc, hnone⟩ := startupMigration_done st scoresTxError settingsTxError
    generalize startupMigration st true scoresTxError settingsTxError = r at hdb hloc hnone
    have hr : ({ r with db := true } : Storage) = r := by
      cases r
      simp only at hdb
      simp [hdb]
    have hs : migrateLocalScores r scoresTxError2 = r := by
      simp [migrateLocalScores, hloc]
    simp only [startupMigration, initDB, if_true, hr, hs, migrateSettingsFromLocalStorage]
    exact foldl_migrateSetting_id settingsTxError2 settingsToMigrate r hnone

/-! ### C23: sessions without problems and the leaderboards -/

theorem speedEntry_problems (s : Session) (e : SpeedEntry) (h : speedEntry s = some e) :
    e.id = s.id ∧ ∃ ps, s.problems = some ps ∧ ps ≠ [] := by
  unfold speedEntry at h
  cases hs : s.problems with
  | none => simp [hs] at h
  | some ps =>
    by_cases hlen : ps.length = 0
    · simp [hs, hlen] at h
    · simp only [hs, hlen, if_false, Option.some.injEq] at h
      refine ⟨by rw [← h], ps, rfl, ?_⟩
      intro hnil
      exact hlen (by rw [hnil]; rfl)

theorem percentileEntry_problems (s : Session) (e : PercentileEntry)
    (h : percentileEntry s = some e) :
    e.id = s.id ∧ ∃ ps, s.problems = some ps ∧ ps ≠ [] := by
  refine ⟨percentileEntry_id s e h, ?_⟩
  unfold percentileEntry at h
  cases hs : s.problems with
  | none => simp [hs] at h
  | some ps =>
    by_cases hlen : ps.length = 0
    · simp [hs, hlen] at h
    · refine ⟨ps, rfl, ?_⟩
      intro hnil
      exact hlen (by rw [hnil]; rfl)

theorem mem_percentileLeaderboard {scores : List Session} {e : PercentileEntry}
    (h : e ∈ calculatePercentileLeaderboard scores) :
    ∃ s ∈ scores, percentileEntry s = some e := by
  unfold calculatePercentileLeaderboard percentileSorted at h
  have h' := (List.mem_insertionSort _).mp (List.mem_of_mem_take h)
  exact List.mem_filterMap.mp h'

/-- C23: every entry of the speed, percentile and combined leaderboards carries
the id of an input session whose `problems` list is non-empty, and an input in
which no session has problems gives three empty leaderboards. -/
theorem leaderboards_exclude_empty (scores : List Session) :
    (∀ e ∈ calculateSpeedLeaderboard scores,
      ∃ s ∈ scores, s.id = e.id ∧ ∃ ps, s.problems = some ps ∧ ps ≠ []) ∧
    (∀ e ∈ calculatePercentileLeaderboard scores,
      ∃ s ∈ scores, s.id = e.id ∧ ∃ ps, s.problems = some ps ∧ ps ≠ []) ∧
    (∀ e ∈ calculateCombinedLeaderboard scores,
      ∃ s ∈ scores, s.id = e.id ∧ ∃ ps, s.problems = some ps ∧ ps ≠ []) ∧
    ((∀ s ∈ scores, s.problems = none ∨ s.problems = some []) →
      calculateSpeedLeaderboard scores = [] ∧ calculatePercentileLeaderboard scores = [] ∧
        calculateCombinedLeaderboard scores = []) := by
  have hspeed : ∀ e ∈ calculateSpeedLeaderboard scores,
      ∃ s ∈ scores, s.id = e.id ∧ ∃ ps, s.problems = some ps ∧ ps ≠ [] := by
    intro e he
    obtain ⟨s, hs, hse⟩ := mem_speedLeaderboard he
    obtain ⟨hid, hps⟩ := speedEntry_problems s e hse
    exact ⟨s, hs, hid.symm, hps⟩
  have hperc : ∀ e ∈ calculatePercentileLeaderboard scores,
      ∃ s ∈ scores, s.id = e.id ∧ ∃ ps, s.problems = some ps ∧ ps ≠ [] := by
    intro e he
    obtain ⟨s, hs, hse⟩ := mem_percentileLeaderboard he
    obtain ⟨hid, hps⟩ := percentileEntry_problems s e hse
    exact ⟨s, hs, hid.symm, hps⟩
  have hcomb : ∀ e ∈ calculateCombinedLeaderboard scores,
      ∃ s ∈ scores, s.id = e.id ∧ ∃ ps, s.problems = some ps ∧ ps ≠ [] := by
    intro e he
    obtain ⟨se, hse, rfl⟩ := mem_combinedLeaderboard he
    exact hspeed se hse
  refine ⟨hspeed, hperc, hcomb, ?_⟩
  intro hnone
  have hno : ∀ s ∈ scores, ¬ ∃ ps, s.problems = some ps ∧ ps ≠ [] := by
    rintro s hs ⟨ps, hps, hne⟩
    rcases hnone s hs with h | h
    · rw [h] at hps; exact absurd hps (by simp)
    · rw [h] at hps
      exact hne (Option.some.inj hps).symm
  refine ⟨List.eq_nil_iff_forall_not_mem.mpr ?_, List.eq_nil_iff_forall_not_mem.mpr ?_,
    List.eq_nil_iff_forall_not_mem.mpr ?_⟩
  · intro e he
    obtain ⟨s, hs, _, hps⟩ := hspeed e he
    exact hno s hs hps
  · intro e he
    obtain ⟨s, hs, _, hps⟩ := hperc e he
    exact hno s hs hps
  · intro e he
    obtain ⟨s, hs, _, hps⟩ := hcomb e he
    exact hno s hs hps

/-- C23, at a concrete input: a history made of one session without a
`problems` list gives three empty leaderboards. -/
theorem leaderboards_exclude_empty_witness :
    calculateSpeedLeaderboard [emptySession] = [] ∧
    calculatePercentileLeaderboard [emptySession] = [] ∧
    calculateCombinedLeaderboard [emptySession] = [] :=
  (leaderboards_exclude_empty [emptySession]).2.2.2
    (fun s hs => Or.inl (by rw [List.mem_singleton.mp hs]; rfl))

/-! ### C24: the mistake pool -/

theorem processSession_mistakes (g : GameManager) (s : Session) :
    (processSession g ([], []) s).2 =
      (filteredProblems g (s.problems.getD [])).filter
        (fun p => decide (p.isCorrect = some false)) := by
  unfold processSession
  cases hs : s.problems with
  | none =>
    simp only [Option.getD_none]
    unfold filteredProblems
    split <;> rfl
  | some ps =>
    simp only [Option.getD_some]
    by_cases hlen : (filteredProblems g ps).length = 0
    · rw [if_pos hlen, List.length_eq_zero.mp hlen]
      rfl
    · rw [if_neg hlen]
      simp

/-- C24 (as stated, refuted): the history was loaded on day ten with session
`h1`, in which "7 + 8" was missed. A round in which "7 + 8" is missed again is
saved as `h2`, and `loadHistoricalData` is called for the next round (the path
of "play again", which does not reset the cache flag). The call returns at
once: the mistake pool holds "7 + 8" once, while the eligible incorrect records
of the two qualifying sessions are two. -/
theorem mistake_pool_cached_counterexample :
    (loadHistoricalData loadedManager
      [historySession "h1" "Addition" (dayTen - 43200000) [missedRecord "7 + 8" "15" 3000],
       historySession "h2" "Addition" (dayTen + 60000) [missedRecord "7 + 8" "15" 3000]]
      (dayTen + 61000)).mistakeProblems = [missedRecord "7 + 8" "15" 3000] ∧
    ([historySession "h1" "Addition" (dayTen - 43200000) [missedRecord "7 + 8" "15" 3000],
      historySession "h2" "Addition" (dayTen + 60000)
        [missedRecord "7 + 8" "15" 3000]].filter
        (isRelevantScore loadedManager (dayTen + 61000))).flatMap
      (fun s => (filteredProblems loadedManager (s.problems.getD [])).filter
        (fun p => decide (p.isCorrect = some false))) =
      [missedRecord "7 + 8" "15" 3000, missedRecord "7 + 8" "15" 3000] := by
  have hflag : loadedManager.hasLoadedHistoricalData = true := rfl
  have hpool : loadedManager.mistakeProblems = [missedRecord "7 + 8" "15" 3000] := by
    unfold loadedManager
    rw [(loadHistoricalData_pools _ _ _ rfl).2]
    have hr : isRelevantScore (freshManager false 2) dayTen
        (historySession "h1" "Addition" (dayTen - 43200000)
          [missedRecord "7 + 8" "15" 3000]) = true := by decide
    simp only [List.filter_cons, hr, if_true, List.filter_nil, List.flatMap_cons,
      List.flatMap_nil, processSession_single (freshManager false 2) rfl]
    rfl
  have hr1 : isRelevantScore loadedManager (dayTen + 61000)
      (historySession "h1" "Addition" (dayTen - 43200000)
        [missedRecord "7 + 8" "15" 3000]) = true := by decide
  have hr2 : isRelevantScore loadedManager (dayTen + 61000)
      (historySession "h2" "Addition" (dayTen + 60000)
        [missedRecord "7 + 8" "15" 3000]) = true := by decide
  have hfilter : loadedManager.useTimeFilter = false := rfl
  refine ⟨?_, ?_⟩
  · rw [loadHistoricalData_cached _ _ _ hflag, hpool]
  · simp only [List.filter_cons, hr1, hr2, if_true, List.filter_nil, List.flatMap_cons,
      List.flatMap_nil, filteredProblems, hfilter]
    rfl

/-- C24 (amended): after a load that runs (the cache flag is not set), the
mistake pool is the concatenation, in the order of the history and without
deduplication, of the eligible records with `isCorrect` false of each
qualifying session; its size is the sum of their numbers, and a record occurs
in the pool as many times as it occurs among the eligible incorrect records of
the qualifying sessions together. A call made while the cache flag is set
changes nothing. -/
theorem mistake_pool_concatenation (g : GameManager) (allScores : List Session) (now : ℤ) :
    (g.hasLoadedHistoricalData = false →
      (loadHistoricalData g allScores now).mistakeProblems =
        (allScores.filter (isRelevantScore g now)).flatMap
          (fun s => (filteredProblems g (s.problems.getD [])).filter
            (fun p => decide (p.isCorrect = some false))) ∧
      (loadHistoricalData g allScores now).mistakeProblems.length =
        ((allScores.filter (isRelevantScore g now)).map
          (fun s => ((filteredProblems g (s.problems.getD [])).filter
            (fun p => decide (p.isCorrect = some false))).length)).sum ∧
      ∀ p, (loadHistoricalData g allScores now).mistakeProblems.count p =
        ((allScores.filter (isRelevantScore g now)).map
          (fun s => ((filteredProblems g (s.problems.getD [])).filter
            (fun q => decide (q.isCorrect = some false))).count p)).sum) ∧
    (g.hasLoadedHistoricalData = true → loadHistoricalData g allScores now = g) := by
  refine ⟨?_, loadHistoricalData_cached g allScores now⟩
  intro hload
  have hpool : (loadHistoricalData g allScores now).mistakeProblems =
      (allScores.filter (isRelevantScore g now)).flatMap
        (fun s => (filteredProblems g (s.problems.getD [])).filter
          (fun p => decide (p.isCorrect = some false))) := by
    rw [(loadHistoricalData_pools g allScores now hload).2]
    exact List.flatMap_congr (fun s _ => processSession_mistakes g s)
  refine ⟨hpool, ?_, ?_⟩
  · rw [hpool, List.length_flatMap]
    rfl
  · intro p
    rw [hpool, List.flatMap, List.count_flatten, List.map_map]
    rfl

/-- C24 (amended), at a concrete input: the problem "7 + 8" was missed in two sessions of
the window and stands twice in the mistake pool. -/
theorem mistake_pool_concatenation_witness :
    (loadHistoricalData (freshManager false 2)
      [historySession "h1" "Addition" (dayTen - 43200000) [missedRecord "7 + 8" "15" 3000],
       historySession "h2" "Addition" (dayTen - 3600000) [missedRecord "7 + 8" "15" 3000]]
      dayTen).mistakeProblems =
      [missedRecord "7 + 8" "15" 3000, missedRecord "7 + 8" "15" 3000] := by
  rw [((mistake_pool_concatenation (freshManager false 2) _ dayTen).1 rfl).1]
  have hr1 : isRelevantScore (freshManager false 2) dayTen
      (historySession "h1" "Addition" (dayTen - 43200000)
        [missedRecord "7 + 8" "15" 3000]) = true := by decide
  have hr2 : isRelevantScore (freshManager false 2) dayTen
      (historySession "h2" "Addition" (dayTen - 3600000)
        [missedRecord "7 + 8" "15" 3000]) = true := by decide
  simp only [List.filter_cons, hr1, hr2, if_true, List.filter_nil, List.flatMap_cons,
    List.flatMap_nil]
  rfl

/-! ### C25 and C26: the problem modules -/

/-- C25: `setDifficulty(level)` of the multiplication module is restricted to
2x2, 3x3, 4x4 and 8x8: for a level of that set the difficulty becomes `level`,
and for any other level the module is left unchanged. -/
theorem setDifficulty_spec (m : MultiplicationModule) (level : String) :
    (level ∈ ["2x2", "3x3", "4x4", "8x8"] → (setDifficulty m level).difficulty = level) ∧
    (level ∉ ["2x2", "3x3", "4x4", "8x8"] → setDifficulty m level = m) := by
  constructor
  · intro h
    simp only [setDifficulty, if_pos h]
  · intro h
    simp only [setDifficulty, if_neg h]

/-- C25, at concrete inputs: from 3x3, the level 4x4 is taken and the level 5x5
is refused. -/
theorem setDifficulty_spec_witness :
    (setDifficulty { difficulty := "3x3" } "4x4").difficulty = "4x4" ∧
    setDifficulty { difficulty := "3x3" } "5x5" = { difficulty := "3x3" } :=
  ⟨(setDifficulty_spec { difficulty := "3x3" } "4x4").1 (by decide),
   (setDifficulty_spec { difficulty := "3x3" } "5x5").2 (by decide)⟩

theorem perturb_bound (orig : ℕ) (variance : ℤ) (r : ℚ) (hv : 0 ≤ variance)
    (h0 : 0 ≤ r) (h1 : r < 1) : |perturb orig variance r - (orig : ℤ)| ≤ variance := by
  have hvq : (0 : ℚ) ≤ (variance : ℚ) := by exact_mod_cast hv
  have hf0 : 0 ≤ ⌊r * (variance : ℚ) * 2⌋ := Int.floor_nonneg.mpr (by positivity)
  have hf1 : ⌊r * (variance : ℚ) * 2⌋ ≤ 2 * variance := by
    have hle : ((⌊r * (variance : ℚ) * 2⌋ : ℤ) : ℚ) ≤ r * (variance : ℚ) * 2 := Int.floor_le _
    have hle2 : r * (variance : ℚ) * 2 ≤ 2 * (variance : ℚ) := by nlinarith
    have : ((⌊r * (variance : ℚ) * 2⌋ : ℤ) : ℚ) ≤ ((2 * variance : ℤ) : ℚ) := by
      push_cast
      linarith
    exact_mod_cast this
  unfold perturb
  rw [abs_le]
  constructor <;> omega

theorem tenth_floor_le (orig : ℕ) : ((⌊(orig : ℚ) * (1 / 10)⌋ : ℤ) : ℚ) ≤ (orig : ℚ) / 10 := by
  have h := Int.floor_le ((orig : ℚ) * (1 / 10))
  linarith

theorem tenth_floor_nonneg (orig : ℕ) : 0 ≤ ⌊(orig : ℚ) * (1 / 10)⌋ :=
  Int.floor_nonneg.mpr (by positivity)

/-- An operand clamped from below is the perturbed operand, then within the
variance of the prior one, or the minimum. -/
theorem clamped_operand (lo : ℤ) (orig : ℕ) (variance : ℤ) (r : ℚ) (hv : 0 ≤ variance)
    (h0 : 0 ≤ r) (h1 : r < 1) :
    |((max lo (perturb orig variance r) : ℤ) : ℚ) - (orig : ℚ)| ≤ (variance : ℚ) ∨
      max lo (perturb orig variance r) = lo := by
  rcases le_total lo (perturb orig variance r) with h | h
  · left
    rw [max_eq_right h]
    have hb := perturb_bound orig variance r hv h0 h1
    have : ((|perturb orig variance r - (orig : ℤ)| : ℤ) : ℚ) ≤ (variance : ℚ) := by
      exact_mod_cast hb
    simpa using this
  · right
    exact max_eq_left h

/-- A whole number below `2 ^ 53` in size is its own double. -/
theorem floor_fl_intCast (n : ℤ) (h : |n| < 2 ^ 53) : ⌊fl ((n : ℤ) : ℚ)⌋ = n := by
  rw [fl_intCast n h, Int.floor_intCast]

/-- The similar problem of the multiplication module when the prior problem
carries no difficulty: the operands `a`, `b` and the printed double of their
product. -/
theorem multiplication_similar_fields (d text : String) (r1 r2 : ℚ) (generated : Problem)
    (o1 o2 : ℕ) (a b p : ℤ) (hm : matchOperands '×' text.toList = some (o1, o2))
    (ho : multiplicationSimilarOperands d o1 o2 r1 r2 = (a, b))
    (hp : ⌊fl (((a * b : ℤ) : ℚ))⌋ = p) :
    (multiplicationGenerateSimilarProblem { difficulty := d } text none r1 r2
      generated).2.question = toString a ++ " × " ++ toString b ∧
    (multiplicationGenerateSimilarProblem { difficulty := d } text none r1 r2
      generated).2.answer = toString p := by
  have h : multiplicationGenerateSimilarProblem { difficulty := d } text none r1 r2 generated =
      ({ difficulty := d }, multiplicationProblem d a b) := by
    unfold multiplicationGenerateSimilarProblem
    simp only [hm, ho]
  rw [h, ← hp]
  exact ⟨rfl, rfl⟩

/-- C26 (as stated, refuted): in the multiplication module at difficulty 2x2,
the prior problem "20 × 20" with both draws 0 gives "15 × 15": the operand 15 is
neither within 10% of 20 nor the minimum 10, because the variance is at least 5.
At difficulty 8x8 the prior problem "99999999 × 99999999" with both draws 1/2
keeps its operands and gets the answer 9999999800000000, the double nearest to
the product 9999999800000001. -/
theorem similar_small_operand_counterexample :
    matchOperands '×' "20 × 20".toList = some (20, 20) ∧
    multiplicationSimilarOperands "2x2" 20 20 0 0 = (15, 15) ∧
    (multiplicationGenerateSimilarProblem { difficulty := "2x2" } "20 × 20" none 0 0
      generatedAddition).2.question = "15 × 15" ∧
    ¬ (|((15 : ℤ) : ℚ) - ((20 : ℕ) : ℚ)| ≤ ((20 : ℕ) : ℚ) / 10) ∧
    (15 : ℤ) ≠ minValueOf "2x2" ∧
    (multiplicationGenerateSimilarProblem { difficulty := "8x8" } "99999999 × 99999999" none
      (1 / 2) (1 / 2) generatedAddition).2.question = "99999999 × 99999999" ∧
    (multiplicationGenerateSimilarProblem { difficulty := "8x8" } "99999999 × 99999999" none
      (1 / 2) (1 / 2) generatedAddition).2.answer = "9999999800000000" ∧
    toString ((99999999 : ℤ) * 99999999) = "9999999800000001" := by
  have hm : matchOperands '×' "20 × 20".toList = some (20, 20) := by decide
  have ho : multiplicationSimilarOperands "2x2" 20 20 0 0 = (15, 15) := by
    norm_num [multiplicationSimilarOperands, perturb, minValueOf]
  have hm8 : matchOperands '×' "99999999 × 99999999".toList = some (99999999, 99999999) := by
    decide
  have ho8 : multiplicationSimilarOperands "8x8" 99999999 99999999 (1 / 2) (1 / 2) =
      (99999999, 99999999) := by
    simp only [multiplicationSimilarOperands, perturb, minValueOf, String.reduceEq, if_false,
      reduceIte]
    norm_num
  have hfl : ⌊fl (((99999999 * 99999999 : ℤ) : ℚ))⌋ = 9999999800000000 := by
    have e1 : (((99999999 * 99999999 : ℤ) : ℚ)) = 9999999800000001 := by norm_num
    have e2 : fl 9999999800000001 = ((9999999800000000 : ℤ) : ℚ) := by
      rw [fl_eq_of_tie_pos _ 53 4999999900000000 (by norm_num) (by norm_num) (by norm_num)]
      norm_num
    rw [e1, e2, Int.floor_intCast]
  have h8 := multiplication_similar_fields "8x8" "99999999 × 99999999" (1 / 2) (1 / 2)
    generatedAddition 99999999 99999999 99999999 99999999 9999999800000000 hm8 ho8 hfl
  refine ⟨hm, ho, ?_, ?_, by decide, h8.1.trans (by decide), h8.2.trans (by decide),
    by decide⟩
  · simp only [multiplicationGenerateSimilarProblem, hm, ho, multiplicationProblem]
    decide
  · norm_num [abs_of_neg]

/-- C26 (amended): for draws in [0, 1) and a prior problem whose text parses
into two operands, the addition module returns the problem of two operands
each of which is within 10% of the prior operand or equal to 100; the
multiplication module returns the problem of two operands each of which
differs from the prior operand by at most max(5, 10%) (so by at most 10% when
the prior operand is 50 or more) or equals the minimum of the difficulty (10,
100, 1000 or 10000000). The answer is the double nearest to the sum, resp. the
product, of the returned operands, printed in decimal; it is the sum, resp. the
product, itself when that is below 2^53 in size. -/
theorem similar_problem_spec (r1 r2 : ℚ) (h10 : 0 ≤ r1) (h11 : r1 < 1) (h20 : 0 ≤ r2)
    (h21 : r2 < 1) :
    (∀ (text : String) (o1 o2 : ℕ) (generated : Problem),
      matchOperands '+' text.toList = some (o1, o2) →
      ∃ f1 f2 : ℤ,
        (additionGenerateSimilarProblem text r1 r2 generated).question =
          toString f1 ++ " + " ++ toString f2 ∧
        (additionGenerateSimilarProblem text r1 r2 generated).answer =
          toString ⌊fl (((f1 + f2 : ℤ) : ℚ))⌋ ∧
        (|f1 + f2| < 2 ^ 53 →
          (additionGenerateSimilarProblem text r1 r2 generated).answer = toString (f1 + f2)) ∧
        (|(f1 : ℚ) - (o1 : ℚ)| ≤ (o1 : ℚ) / 10 ∨ f1 = 100) ∧
        (|(f2 : ℚ) - (o2 : ℚ)| ≤ (o2 : ℚ) / 10 ∨ f2 = 100)) ∧
    (∀ (m : MultiplicationModule) (text : String) (prior : Option String) (o1 o2 : ℕ)
        (generated : Problem),
      matchOperands '×' text.toList = some (o1, o2) →
      ∃ f1 f2 : ℤ,
        (multiplicationGenerateSimilarProblem m text prior r1 r2 generated).2.question =
          toString f1 ++ " × " ++ toString f2 ∧
        (multiplicationGenerateSimilarProblem m text prior r1 r2 generated).2.answer =
          toString ⌊fl (((f1 * f2 : ℤ) : ℚ))⌋ ∧
        (|f1 * f2| < 2 ^ 53 →
          (multiplicationGenerateSimilarProblem m text prior r1 r2 generated).2.answer =
            toString (f1 * f2)) ∧
        (|(f1 : ℚ) - (o1 : ℚ)| ≤ max 5 ((o1 : ℚ) / 10) ∨
          f1 = minValueOf
            (multiplicationGenerateSimilarProblem m text prior r1 r2 generated).1.difficulty) ∧
        (|(f2 : ℚ) - (o2 : ℚ)| ≤ max 5 ((o2 : ℚ) / 10) ∨
          f2 = minValueOf
            (multiplicationGenerateSimilarProblem m text prior r1 r2 generated).1.difficulty) ∧
        (minValueOf
            (multiplicationGenerateSimilarProblem m text prior r1 r2 generated).1.difficulty ∈
          [(10 : ℤ), 100, 1000, 10000000])) := by
  constructor
  · intro text o1 o2 generated hm
    have hans : (additionGenerateSimilarProblem text r1 r2 generated).answer =
        toString ⌊fl ((((additionSimilarOperands o1 o2 r1 r2).1 +
          (additionSimilarOperands o1 o2 r1 r2).2 : ℤ) : ℚ))⌋ := by
      simp only [additionGenerateSimilarProblem, hm, additionProblem]
    refine ⟨(additionSimilarOperands o1 o2 r1 r2).1, (additionSimilarOperands o1 o2 r1 r2).2,
      ?_, hans, ?_, ?_, ?_⟩
    · simp only [additionGenerateSimilarProblem, hm, additionProblem]
    · intro hlt
      rw [hans, floor_fl_intCast _ hlt]
    · rcases clamped_operand 100 o1 _ r1 (tenth_floor_nonneg o1) h10 h11 with h | h
      · exact Or.inl (le_trans h (tenth_floor_le o1))
      · exact Or.inr h
    · rcases clamped_operand 100 o2 _ r2 (tenth_floor_nonneg o2) h20 h21 with h | h
      · exact Or.inl (le_trans h (tenth_floor_le o2))
      · exact Or.inr h
  · intro m text prior o1 o2 generated hm
    have hvar : ∀ o : ℕ, (0 : ℤ) ≤ max 5 ⌊(o : ℚ) * (1 / 10)⌋ ∧
        ((max 5 ⌊(o : ℚ) * (1 / 10)⌋ : ℤ) : ℚ) ≤ max 5 ((o : ℚ) / 10) := by
      intro o
      refine ⟨le_trans (by norm_num) (le_max_left _ _), ?_⟩
      rw [Int.cast_max]
      exact max_le_max (by norm_num) (tenth_floor_le o)
    have hres : ∃ m1 : MultiplicationModule,
        multiplicationGenerateSimilarProblem m text prior r1 r2 generated =
          (m1, multiplicationProblem m1.difficulty
            (multiplicationSimilarOperands m1.difficulty o1 o2 r1 r2).1
            (multiplicationSimilarOperands m1.difficulty o1 o2 r1 r2).2) := by
      unfold multiplicationGenerateSimilarProblem
      simp only [hm]
      exact ⟨_, rfl⟩
    obtain ⟨m1, hd⟩ := hres
    rw [hd]
    refine ⟨(multiplicationSimilarOperands m1.difficulty o1 o2 r1 r2).1,
      (multiplicationSimilarOperands m1.difficulty o1 o2 r1 r2).2, rfl, rfl, ?_, ?_, ?_, ?_⟩
    · intro hlt
      show toString ⌊fl ((((multiplicationSimilarOperands m1.difficulty o1 o2 r1 r2).1 *
        (multiplicationSimilarOperands m1.difficulty o1 o2 r1 r2).2 : ℤ) : ℚ))⌋ = _
      rw [floor_fl_intCast _ hlt]
    · rcases clamped_operand (minValueOf m1.difficulty) o1 _ r1 (hvar o1).1 h10 h11 with h | h
      · exact Or.inl (le_trans h (hvar o1).2)
      · exact Or.inr h
    · rcases clamped_operand (minValueOf m1.difficulty) o2 _ r2 (hvar o2).1 h20 h21 with h | h
      · exact Or.inl (le_trans h (hvar o2).2)
      · exact Or.inr h
    · simp only [minValueOf]
      split_ifs <;> simp

/-- C26 (amended), at a concrete input: the addition module on "1234 + 5678"
with draws 0 and 1/2 gives "1111 + 5678", both operands within 10%, and the
answer is their sum. -/
theorem similar_problem_spec_witness :
    matchOperands '+' "1234 + 5678".toList = some (1234, 5678) ∧
    additionSimilarOperands 1234 5678 0 (1 / 2) = (1111, 5678) ∧
    ∃ f1 f2 : ℤ,
      (additionGenerateSimilarProblem "1234 + 5678" 0 (1 / 2) generatedAddition).question =
        toString f1 ++ " + " ++ toString f2 ∧
      (additionGenerateSimilarProblem "1234 + 5678" 0 (1 / 2) generatedAddition).answer =
        toString ⌊fl (((f1 + f2 : ℤ) : ℚ))⌋ ∧
      (|f1 + f2| < 2 ^ 53 →
        (additionGenerateSimilarProblem "1234 + 5678" 0 (1 / 2) generatedAddition).answer =
          toString (f1 + f2)) ∧
      (|(f1 : ℚ) - ((1234 : ℕ) : ℚ)| ≤ ((1234 : ℕ) : ℚ) / 10 ∨ f1 = 100) ∧
      (|(f2 : ℚ) - ((5678 : ℕ) : ℚ)| ≤ ((5678 : ℕ) : ℚ) / 10 ∨ f2 = 100) := by
  have hm : matchOperands '+' "1234 + 5678".toList = some (1234, 5678) := by decide
  refine ⟨hm, ?_, ?_⟩
  · norm_num [additionSimilarOperands, perturb]
  · exact (similar_problem_spec 0 (1 / 2) (le_refl 0) (by norm_num) (by norm_num)
      (by norm_num)).1 "1234 + 5678" 1234 5678 generatedAddition hm

/-! ### C27: the engine invariant -/

theorem loadHistoricalData_frame (g : GameManager) (allScores : List Session) (now : ℤ) :
    (loadHistoricalData g allScores now).problemsHistory = g.problemsHistory ∧
    (loadHistoricalData g allScores now).problemTimings = g.problemTimings ∧
    (loadHistoricalData g allScores now).mistakes = g.mistakes ∧
    (loadHistoricalData g allScores now).correctAnswers = g.correctAnswers := by
  unfold loadHistoricalData
  split <;> exact ⟨rfl, rfl, rfl, rfl⟩

theorem nextProblem_frame (g : GameManager) (now : ℤ) (random pick : ℚ)
    (generated : Problem) :
    (nextProblem g now random pick generated).1.problemsHistory = g.problemsHistory ∧
    (nextProblem g now random pick generated).1.problemTimings = g.problemTimings ∧
    (nextProblem g now random pick generated).1.mistakes = g.mistakes ∧
    (nextProblem g now random pick generated).1.correctAnswers = g.correctAnswers ∧
    (nextProblem g now random pick generated).1.currentProblem.isSome = true :=
  ⟨rfl, rfl, rfl, rfl, rfl⟩

theorem startGame_state (g : GameManager) (stored : StoredSettings)
    (allScores : List Session) (tStart tLoad tNext tTimer : ℤ) (random pick : ℚ)
    (generated : Problem) :
    (startGame g stored allScores tStart tLoad tNext tTimer random pick
      generated).problemsHistory = [] ∧
    (startGame g stored allScores tStart tLoad tNext tTimer random pick
      generated).problemTimings = [] ∧
    (startGame g stored allScores tStart tLoad tNext tTimer random pick
      generated).mistakes = [] ∧
    (startGame g stored allScores tStart tLoad tNext tTimer random pick
      generated).correctAnswers = 0 ∧
    (startGame g stored allScores tStart tLoad tNext tTimer random pick
      generated).currentProblem.isSome = true := by
  have key : ∀ g2 : GameManager, g2.problemsHistory = [] → g2.problemTimings = [] →
      g2.mistakes = [] → g2.correctAnswers = 0 →
      (startTimer (nextProblem
        (if g2.useSmartGenerator then loadHistoricalData g2 allScores tLoad else g2)
        tNext random pick generated).1 tTimer).problemsHistory = [] ∧
      (startTimer (nextProblem
        (if g2.useSmartGenerator then loadHistoricalData g2 allScores tLoad else g2)
        tNext random pick generated).1 tTimer).problemTimings = [] ∧
      (startTimer (nextProblem
        (if g2.useSmartGenerator then loadHistoricalData g2 allScores tLoad else g2)
        tNext random pick generated).1 tTimer).mistakes = [] ∧
      (startTimer (nextProblem
        (if g2.useSmartGenerator then loadHistoricalData g2 allScores tLoad else g2)
        tNext random pick generated).1 tTimer).correctAnswers = 0 ∧
      (startTimer (nextProblem
        (if g2.useSmartGenerator then loadHistoricalData g2 allScores tLoad else g2)
        tNext random pick generated).1 tTimer).currentProblem.isSome = true := by
    intro g2 e1 e2 e3 e4
    obtain ⟨h1, h2, h3, h4⟩ := loadHistoricalData_frame g2 allScores tLoad
    by_cases hs : g2.useSmartGenerator = true
    · rw [if_pos hs]
      exact ⟨h1.trans e1, h2.trans e2, h3.trans e3, h4.trans e4, rfl⟩
    · rw [if_neg hs]
      exact ⟨e1, e2, e3, e4, rfl⟩
  exact key _ rfl rfl rfl rfl

/-- The record that `checkAnswer` appends. -/
theorem checkAnswer_correct (g : GameManager) (userAnswer : String) (now : ℤ)
    (validate : String → String → Bool) (p : Problem) (hne : userAnswer ≠ "")
    (hp : g.currentProblem = some p) (hv : validate userAnswer p.answer = true) :
    checkAnswer g userAnswer now validate = some
      ({ g with
          problemTimings := g.problemTimings ++
            [{ problem := p.question, answer := p.answer, userAnswer := userAnswer,
               timeTaken := some ((now - g.lastProblemStartTime.getD 0 : ℤ) : ℚ),
               isCorrect := some true, source := some (jsOrStr p.source "random") }],
          problemsHistory := g.problemsHistory ++
            [{ problem := p.question, answer := p.answer, userAnswer := userAnswer,
               timeTaken := some ((now - g.lastProblemStartTime.getD 0 : ℤ) : ℚ),
               isCorrect := some true, source := some (jsOrStr p.source "random") }],
          correctAnswers := g.correctAnswers + 1 },
        { isCorrect := true, message := "Correct" }) := by
  simp only [checkAnswer, if_neg hne, hp, hv, if_true]

theorem checkAnswer_wrong (g : GameManager) (userAnswer : String) (now : ℤ)
    (validate : String → String → Bool) (p : Problem) (hne : userAnswer ≠ "")
    (hp : g.currentProblem = some p) (hv : validate userAnswer p.answer = false) :
    checkAnswer g userAnswer now validate = some
      ({ g with
          problemTimings := g.problemTimings ++
            [{ problem := p.question, answer := p.answer, userAnswer := userAnswer,
               timeTaken := some ((now - g.lastProblemStartTime.getD 0 : ℤ) : ℚ),
               isCorrect := some false, source := some (jsOrStr p.source "random") }],
          problemsHistory := g.problemsHistory ++
            [{ problem := p.question, answer := p.answer, userAnswer := userAnswer,
               timeTaken := some ((now - g.lastProblemStartTime.getD 0 : ℤ) : ℚ),
               isCorrect := some false, source := some (jsOrStr p.source "random") }],
          mistakes := g.mistakes ++
            [{ problem := p.question, correctAnswer := p.answer,
               userAnswer := userAnswer }] },
        { isCorrect := false, message := "Incorrect" }) := by
  simp only [checkAnswer, if_neg hne, hp, hv, Bool.false_eq_true, if_false]

theorem stepGame_invariant (validate : String → String → Bool) (g : GameManager)
    (a : GameAction) (hinv : engineInvariant g) (hcur : g.currentProblem.isSome = true) :
    ∃ g1, stepGame validate g a = some g1 ∧ engineInvariant g1 ∧
      g1.currentProblem.isSome = true := by
  obtain ⟨hc, hm, ht⟩ := hinv
  cases a with
  | next now random pick generated =>
    exact ⟨_, rfl, ⟨hc, hm, ht⟩, rfl⟩
  | check userAnswer now =>
    obtain ⟨p, hp⟩ := Option.isSome_iff_exists.mp hcur
    by_cases hne : userAnswer = ""
    · refine ⟨g, ?_, ⟨hc, hm, ht⟩, hcur⟩
      simp [stepGame, checkAnswer, hne]
    · by_cases hv : validate userAnswer p.answer = true
      · refine ⟨_, by rw [stepGame, checkAnswer_correct g userAnswer now validate p hne hp hv,
          Option.map_some'], ⟨?_, ?_, ?_⟩, ?_⟩
        · simp [List.filter_append, List.filter_cons, hc]
        · simp [List.filter_append, List.filter_cons, hm]
        · simp [ht]
        · exact hcur
      · have hv' : validate userAnswer p.answer = false := by simpa using hv
        refine ⟨_, by rw [stepGame, checkAnswer_wrong g userAnswer now validate p hne hp hv',
          Option.map_some'], ⟨?_, ?_, ?_⟩, ?_⟩
        · simp [List.filter_append, List.filter_cons, hc]
        · simp [List.filter_append, List.filter_cons, hm, mistakeOf]
        · simp [ht]
        · exact hcur

theorem runGame_invariant (validate : String → String → Bool) (actions : List GameAction)
    (g : GameManager) (hinv : engineInvariant g) (hcur : g.currentProblem.isSome = true) :
    ∃ g1, runGame validate g actions = some g1 ∧ engineInvariant g1 := by
  induction actions generalizing g with
  | nil => exact ⟨g, rfl, hinv⟩
  | cons a rest ih =>
    obtain ⟨g1, hstep, hinv1, hcur1⟩ := stepGame_invariant validate g a hinv hcur
    obtain ⟨g2, hrun, hinv2⟩ := ih g1 hinv1 hcur1
    exact ⟨g2, by simp only [runGame, hstep, hrun], hinv2⟩

/-- C27: after `startGame` and any sequence of `nextProblem` and `checkAnswer`
calls, none of the calls fails and the manager reached satisfies the engine
invariant: `correctAnswers` is the number of records of `problemsHistory` with
`isCorrect` true, `mistakes` has one entry per record with `isCorrect` false in
the same order, and `problemTimings` equals `problemsHistory`. -/
theorem engine_invariant_holds (validate : String → String → Bool) (g : GameManager)
    (stored : StoredSettings) (allScores : List Session) (tStart tLoad tNext tTimer : ℤ)
    (random pick : ℚ) (generated : Problem) (actions : List GameAction) :
    ∃ g1, runGame validate
        (startGame g stored allScores tStart tLoad tNext tTimer random pick generated)
        actions = some g1 ∧
      g1.correctAnswers =
        (g1.problemsHistory.filter (fun r => r.isCorrect == some true)).length ∧
      g1.mistakes =
        (g1.problemsHistory.filter (fun r => r.isCorrect == some false)).map
          (fun r => { problem := r.problem, correctAnswer := r.answer,
                      userAnswer := r.userAnswer }) ∧
      g1.problemTimings = g1.problemsHistory := by
  obtain ⟨h1, h2, h3, h4, h5⟩ := startGame_state g stored allScores tStart tLoad tNext tTimer
    random pick generated
  have hinv : engineInvariant
      (startGame g stored allScores tStart tLoad tNext tTimer random pick generated) := by
    refine ⟨?_, ?_, ?_⟩
    · rw [h4, h1]; rfl
    · rw [h3, h1]; rfl
    · rw [h2, h1]
  obtain ⟨g1, hrun, hc, hm, ht⟩ := runGame_invariant validate actions _ hinv h5
  exact ⟨g1, hrun, hc, hm, ht⟩

/-- C28: the problem returned by `generateSmartProblem` is the same with
`useTimeFilter` true and with `useTimeFilter` false, for the same pools,
probabilities, module, random draws and generated problem. -/
theorem smart_problem_ignores_time_filter (g : GameManager) (random pick : ℚ)
    (generated : Problem) :
    generateSmartProblem { g with useTimeFilter := true } random pick generated =
      generateSmartProblem { g with useTimeFilter := false } random pick generated := by
  have key : ∀ (x : Option ProblemRecord × String) (b : Prop) [Decidable b],
      (if x.1.isNone = true ∧ b then { generated with source := some x.2 }
        else match x.1 with
          | some s => historicalProblem g.moduleName s x.2
          | none => { generated with source := some x.2 }) =
      (match x.1 with
          | some s => historicalProblem g.moduleName s x.2
          | none => { generated with source := some x.2 }) := by
    intro x b _
    obtain ⟨sel, src⟩ := x
    cases sel <;> simp
  simp only [generateSmartProblem, key]

/-- C29: in a started round with an integer `gameDuration`, `shouldEndGame` is
true exactly when the `total` of `getRemainingTime` is a number that is at most
0, which is the test of the periodic tick. This holds at every clock reading,
so at every reading at or after `startTime`. -/
theorem end_tests_agree (g : GameManager) (now t d : ℤ)
    (hd : g.gameDuration = (d : ℚ)) (hs : g.startTime = some t) (ht : t ≠ 0) :
    shouldEndGame g now = true ↔
      ∃ total, (getRemainingTime g now).total = some total ∧ total ≤ 0 := by
  have hk : ((d : ℚ) * 1000 ≤ ((now - t : ℤ) : ℚ)) ↔
      (d : ℚ) - ((⌊(((now - t : ℤ) : ℚ)) / 1000⌋ : ℤ) : ℚ) ≤ 0 := by
    rw [sub_nonpos, Int.cast_le, Int.le_floor,
      le_div_iff₀ (by norm_num : (0 : ℚ) < 1000)]
  simp only [shouldEndGame, getRemainingTime, getElapsedTime, hs, hd, Option.getD_some,
    if_neg ht, decide_eq_true_eq, Option.some.injEq, exists_eq_left']
  exact hk

theorem end_tests_agree_witness :
    timedManager.gameDuration = ((60 : ℤ) : ℚ) ∧ timedManager.startTime = some 1000 ∧
    (shouldEndGame timedManager 61000 = true ↔
      ∃ total, (getRemainingTime timedManager 61000).total = some total ∧ total ≤ 0) :=
  ⟨by norm_num [timedManager], rfl,
   end_tests_agree timedManager 61000 1000 60 (by norm_num [timedManager]) rfl (by decide)⟩

/-- C30: for a non-empty list of times the index `length * 9 / 10` that
`percentileTime` reads is at most `length - 1`, the read of the sorted list at
that index finds one of the times, and `percentileTime` is that time unless it
is 0, the only case in which the `||` falls back to the last element. -/
theorem percentile_index_in_range (problemTimes : List ℚ) (h : problemTimes ≠ []) :
    problemTimes.length * 9 / 10 ≤ problemTimes.length - 1 ∧
    ∃ v, v ∈ problemTimes ∧
      (problemTimes.insertionSort (fun a b => a ≤ b))[problemTimes.length * 9 / 10]? = some v ∧
      percentileTime problemTimes =
        (if v ≠ 0 then some v
         else (problemTimes.insertionSort (fun a b => a ≤ b))[problemTimes.length - 1]?) := by
  have hpos : 0 < problemTimes.length := List.length_pos.mpr h
  have hidx : problemTimes.length * 9 / 10 ≤ problemTimes.length - 1 := by omega
  have hlen : (problemTimes.insertionSort (fun a b => a ≤ b)).length = problemTimes.length :=
    List.length_insertionSort _ _
  have hlt : problemTimes.length * 9 / 10 <
      (problemTimes.insertionSort (fun a b => a ≤ b)).length := by omega
  refine ⟨hidx, (problemTimes.insertionSort (fun a b => a ≤ b))[problemTimes.length * 9 / 10],
    ?_, ?_, ?_⟩
  · exact (List.mem_insertionSort _).mp (List.getElem_mem _)
  · exact List.getElem?_eq_getElem hlt
  · simp only [percentileTime, hlen, List.getElem?_eq_getElem hlt, jsOrOpt]

theorem percentile_index_in_range_witness :
    zeroTimes ≠ [] ∧ zeroTimes.length * 9 / 10 ≤ zeroTimes.length - 1 ∧
    ∃ v, v ∈ zeroTimes ∧
      (zeroTimes.insertionSort (fun a b => a ≤ b))[zeroTimes.length * 9 / 10]? = some v ∧
      percentileTime zeroTimes =
        (if v ≠ 0 then some v
         else (zeroTimes.insertionSort (fun a b => a ≤ b))[zeroTimes.length - 1]?) :=
  ⟨by simp [zeroTimes], percentile_index_in_range zeroTimes (by simp [zeroTimes])⟩

end Mcwc
